import Mathlib

/-!
Verification of the mesh-export core of `export_3d_obj.py` (repository jspenc4/javaMap).

The development shallowly embeds the two numeric/geometric functions of the file:

* `normalize_and_scale` (lines 63-109): log compression, min-max normalization,
  optional box-blur smoothing, linear scaling, height capping and spike damping.
  Heights are modelled as `Option ℚ`: `none` plays the role of the IEEE `NaN`
  sentinel (the spec's "hole" marker), and every arithmetic operation propagates
  `none` exactly as numpy propagates `NaN`.  The initial `np.log10(grid + 1)`
  step (line 80) has no exact rational embedding, so the embedded pipeline takes
  the log-compressed grid as its input; every claim about the function
  constrains that input directly ("log-compressed values"), so nothing is lost.
  `log10` maps finite values to finite values (for arguments greater than 0)
  and `NaN` to `NaN`, which is all the claims use.

* `create_obj_mesh` (lines 111-300): region cropping, vertex emission,
  vertex-index map construction, and the top / base / side-wall triangle lists.
  Vertices carry exact rational coordinates; faces are triples of 1-based
  vertex indices, exactly the integers the script writes after `f`.
-/

/-! ## List helpers

Python's nested `for` loops that append to a growing output are embedded with a
flat-map combinator `lflat` over `rng n` (the list `[0, 1, ..., n-1]`, built by
appending at the high end, which matches the induction used throughout), and
occurrence counting is done with the explicit counter `ccount`. -/

/-- The list `[0, 1, ..., n-1]`, mirroring python's `range(n)`. -/
def rng : Nat → List Nat
  | 0 => []
  | n + 1 => rng n ++ [n]

/-- Flat-map: the contributions of each loop iteration, concatenated in order. -/
def lflat {α β : Type} (f : α → List β) : List α → List β
  | [] => []
  | a :: l => f a ++ lflat f l

/-- Number of elements of a list satisfying a decidable predicate. -/
def ccount {α : Type} (P : α → Prop) [DecidablePred P] : List α → Nat
  | [] => 0
  | a :: l => (if P a then 1 else 0) + ccount P l

theorem lflat_append {α β : Type} (f : α → List β) (l₁ l₂ : List α) :
    lflat f (l₁ ++ l₂) = lflat f l₁ ++ lflat f l₂ := by
  induction l₁ with
  | nil => rfl
  | cons a l ih => simp [lflat, ih, List.append_assoc]

theorem ccount_append {α : Type} (P : α → Prop) [DecidablePred P] (l₁ l₂ : List α) :
    ccount P (l₁ ++ l₂) = ccount P l₁ + ccount P l₂ := by
  induction l₁ with
  | nil => simp [ccount]
  | cons a l ih => simp [ccount, ih]; omega

theorem mem_rng {n k : Nat} : k ∈ rng n ↔ k < n := by
  induction n with
  | zero => simp [rng]
  | succ m ih => simp [rng, ih]; omega

theorem mem_lflat {α β : Type} {f : α → List β} {l : List α} {b : β} :
    b ∈ lflat f l ↔ ∃ a ∈ l, b ∈ f a := by
  induction l with
  | nil => simp [lflat]
  | cons a l ih => simp [lflat, ih]

theorem lflat_congr {α β : Type} {f g : α → List β} {l : List α}
    (h : ∀ a ∈ l, f a = g a) : lflat f l = lflat g l := by
  induction l with
  | nil => rfl
  | cons a l ih =>
    simp only [lflat, h a (by simp)]
    rw [ih fun a ha => h a (by simp [ha])]

theorem map_lflat {α β γ : Type} (g : β → γ) (f : α → List β) (l : List α) :
    List.map g (lflat f l) = lflat (fun a => List.map g (f a)) l := by
  induction l with
  | nil => rfl
  | cons a l ih => simp [lflat, ih]

theorem length_lflat_const {α β : Type} (f : α → List β) (l : List α) (k : Nat)
    (h : ∀ a ∈ l, (f a).length = k) : (lflat f l).length = k * l.length := by
  induction l with
  | nil => simp [lflat]
  | cons a l ih =>
    simp only [lflat, List.length_append, h a (by simp), List.length_cons]
    rw [ih fun a ha => h a (by simp [ha])]
    ring

theorem length_rng (n : Nat) : (rng n).length = n := by
  induction n with
  | zero => rfl
  | succ m ih => simp [rng, ih]

/-- Safe list indexing with a default, used to model `sorted_array[k]`. -/
def nthD {α : Type} : List α → Nat → α → α
  | [], _, d => d
  | a :: _, 0, _ => a
  | _ :: l, k + 1, d => nthD l k d

theorem nthD_mem {α : Type} {l : List α} {k : Nat} (d : α) (h : k < l.length) :
    nthD l k d ∈ l := by
  induction l generalizing k with
  | nil => simp at h
  | cons a l ih =>
    cases k with
    | zero => simp [nthD]
    | succ m =>
      simp only [nthD]
      exact List.mem_cons_of_mem _ (ih (by simpa using h))

theorem nthD_append_left {α : Type} (l₁ l₂ : List α) (x : α) (d : α) :
    nthD (l₁ ++ x :: l₂) l₁.length d = x := by
  induction l₁ with
  | nil => rfl
  | cons a l ih => simpa [nthD] using ih

/-! ## NaN-propagating rational arithmetic

numpy's float arithmetic on this code path is embedded over `Option ℚ`, with
`none` for `NaN`.  Every binary operation returns `none` if either operand is
`none`; division additionally returns `none` when the divisor is zero (the only
zero divisor reachable in `normalize_and_scale` is the degenerate case
`pot_max - pot_min = 0`, where the numerator is also `0` and IEEE gives
`0.0/0.0 = NaN`).  Comparisons against `NaN` are false, as in IEEE. -/

/-- A numpy float value: a finite rational, or `none` for `NaN`. -/
abbrev NQ : Type := Option ℚ

def nqAdd : NQ → NQ → NQ
  | some a, some b => some (a + b)
  | _, _ => none

def nqSub : NQ → NQ → NQ
  | some a, some b => some (a - b)
  | _, _ => none

def nqMul : NQ → NQ → NQ
  | some a, some b => some (a * b)
  | _, _ => none

def nqDiv : NQ → NQ → NQ
  | some a, some b => if b = 0 then none else some (a / b)
  | _, _ => none

/-- Binary minimum as numpy's reduction and `np.minimum` compute it: `NaN` wins. -/
def nqMin2 : NQ → NQ → NQ
  | some a, some b => some (min a b)
  | _, _ => none

/-- Binary maximum with `NaN` propagation (`np.maximum`). -/
def nqMax2 : NQ → NQ → NQ
  | some a, some b => some (max a b)
  | _, _ => none

/-- Strict comparison `a > b`; false whenever either side is `NaN`, as in IEEE. -/
def nqGt : NQ → NQ → Bool
  | some a, some b => decide (b < a)
  | _, _ => false

/-- The reduction `arr.min()` over the flattened array (empty arrays do not occur
on the embedded code paths; `none` is returned for them). -/
def nqListMin : List NQ → NQ
  | [] => none
  | a :: l => l.foldl nqMin2 a

/-- The reduction `arr.max()` over the flattened array. -/
def nqListMax : List NQ → NQ
  | [] => none
  | a :: l => l.foldl nqMax2 a

theorem nqMin2_none (x : NQ) : nqMin2 x none = none := by cases x <;> rfl

theorem nqMax2_none (x : NQ) : nqMax2 x none = none := by cases x <;> rfl

theorem foldl_nqMin2_none (l : List NQ) : l.foldl nqMin2 none = none := by
  induction l with
  | nil => rfl
  | cons a l ih => simpa [nqMin2] using ih

theorem foldl_nqMax2_none (l : List NQ) : l.foldl nqMax2 none = none := by
  induction l with
  | nil => rfl
  | cons a l ih => simpa [nqMax2] using ih

/-- If any entry is `NaN`, the whole `min` reduction is `NaN`
(this is `arr.min()`, not `np.nanmin`). -/
theorem nqListMin_isNone {l : List NQ} (h : none ∈ l) : nqListMin l = none := by
  cases l with
  | nil => simp at h
  | cons a l =>
    rcases List.mem_cons.mp h with ha | hl
    · subst ha; simpa [nqListMin] using foldl_nqMin2_none l
    · show l.foldl nqMin2 a = none
      clear h
      induction l generalizing a with
      | nil => simp at hl
      | cons b l ih =>
        rcases List.mem_cons.mp hl with hb | hl2
        · subst hb
          simpa [List.foldl, nqMin2_none] using foldl_nqMin2_none l
        · exact ih _ hl2

/-- Lower-bound property of the `min` reduction on all-finite data. -/
theorem nqListMin_le {l : List NQ} {m : ℚ} (h : nqListMin l = some m) :
    ∀ x ∈ l, ∃ q, x = some q ∧ m ≤ q := by
  cases l with
  | nil => simp [nqListMin] at h
  | cons a l =>
    have main : ∀ (l : List NQ) (a : NQ) (m : ℚ), l.foldl nqMin2 a = some m →
        (∃ q, a = some q ∧ m ≤ q) ∧ ∀ x ∈ l, ∃ q, x = some q ∧ m ≤ q := by
      intro l
      induction l with
      | nil => intro a m hm; simp [List.foldl] at hm; subst hm; exact ⟨⟨m, rfl, le_refl m⟩, by simp⟩
      | cons b l ih =>
        intro a m hm
        simp only [List.foldl] at hm
        rcases ih (nqMin2 a b) m hm with ⟨⟨q, hq, hle⟩, hrest⟩
        cases a with
        | none => simp [nqMin2] at hq
        | some qa =>
          cases b with
          | none => simp [nqMin2] at hq
          | some qb =>
            simp only [nqMin2, Option.some.injEq] at hq
            subst hq
            refine ⟨⟨qa, rfl, le_trans hle (min_le_left _ _)⟩, ?_⟩
            intro x hx
            rcases List.mem_cons.mp hx with hb | hl2
            · exact ⟨qb, by rw [hb], le_trans hle (min_le_right _ _)⟩
            · exact hrest x hl2
    intro x hx
    rcases List.mem_cons.mp hx with ha | hl
    · subst ha; exact (main l x m h).1
    · exact (main l a m h).2 x hl

/-- Upper-bound property of the `max` reduction on all-finite data. -/
theorem nqListMax_ge {l : List NQ} {m : ℚ} (h : nqListMax l = some m) :
    ∀ x ∈ l, ∃ q, x = some q ∧ q ≤ m := by
  cases l with
  | nil => simp [nqListMax] at h
  | cons a l =>
    have main : ∀ (l : List NQ) (a : NQ) (m : ℚ), l.foldl nqMax2 a = some m →
        (∃ q, a = some q ∧ q ≤ m) ∧ ∀ x ∈ l, ∃ q, x = some q ∧ q ≤ m := by
      intro l
      induction l with
      | nil => intro a m hm; simp [List.foldl] at hm; subst hm; exact ⟨⟨m, rfl, le_refl m⟩, by simp⟩
      | cons b l ih =>
        intro a m hm
        simp only [List.foldl] at hm
        rcases ih (nqMax2 a b) m hm with ⟨⟨q, hq, hle⟩, hrest⟩
        cases a with
        | none => simp [nqMax2] at hq
        | some qa =>
          cases b with
          | none => simp [nqMax2] at hq
          | some qb =>
            simp only [nqMax2, Option.some.injEq] at hq
            subst hq
            refine ⟨⟨qa, rfl, le_trans (le_max_left _ _) hle⟩, ?_⟩
            intro x hx
            rcases List.mem_cons.mp hx with hb | hl2
            · exact ⟨qb, by rw [hb], le_trans (le_max_right _ _) hle⟩
            · exact hrest x hl2
    intro x hx
    rcases List.mem_cons.mp hx with ha | hl
    · subst ha; exact (main l x m h).1
    · exact (main l a m h).2 x hl

theorem foldl_nqMin2_const {q0 : ℚ} :
    ∀ l : List NQ, (∀ x ∈ l, x = some q0) → l.foldl nqMin2 (some q0) = some q0 := by
  intro l
  induction l with
  | nil => intro _; rfl
  | cons b l ih =>
    intro h
    have hb := h b (by simp)
    subst hb
    simp only [List.foldl, nqMin2, min_self]
    exact ih fun x hx => h x (by simp [hx])

theorem foldl_nqMax2_const {q0 : ℚ} :
    ∀ l : List NQ, (∀ x ∈ l, x = some q0) → l.foldl nqMax2 (some q0) = some q0 := by
  intro l
  induction l with
  | nil => intro _; rfl
  | cons b l ih =>
    intro h
    have hb := h b (by simp)
    subst hb
    simp only [List.foldl, nqMax2, max_self]
    exact ih fun x hx => h x (by simp [hx])

/-- On an all-finite constant list the `min` reduction returns that constant. -/
theorem nqListMin_const {l : List NQ} {q0 : ℚ} (hne : l ≠ [])
    (h : ∀ x ∈ l, x = some q0) : nqListMin l = some q0 := by
  cases l with
  | nil => exact absurd rfl hne
  | cons a l =>
    have ha := h a (by simp)
    subst ha
    exact foldl_nqMin2_const l fun x hx => h x (by simp [hx])

theorem nqListMax_const {l : List NQ} {q0 : ℚ} (hne : l ≠ [])
    (h : ∀ x ∈ l, x = some q0) : nqListMax l = some q0 := by
  cases l with
  | nil => exact absurd rfl hne
  | cons a l =>
    have ha := h a (by simp)
    subst ha
    exact foldl_nqMax2_const l fun x hx => h x (by simp [hx])

/-! ## Grids

A 2-D numpy array of shape `(r, c)` is embedded as total functions on `Nat`
indices together with its dimensions; only indices `i < r`, `j < c` are
meaningful, and all theorems quantify over those. -/

/-- A 2-D float array with `NaN` holes (`none`). -/
structure QGrid : Type where
  r : Nat
  c : Nat
  v : Nat → Nat → NQ

/-- Row-major flattening, the order numpy reductions and `np.percentile` see. -/
def flattenQ (g : QGrid) : List NQ :=
  lflat (fun i => (rng g.c).map (g.v i)) (rng g.r)

theorem mem_flattenQ {g : QGrid} {i j : Nat} (hi : i < g.r) (hj : j < g.c) :
    g.v i j ∈ flattenQ g := by
  unfold flattenQ
  rw [mem_lflat]
  exact ⟨i, mem_rng.mpr hi, List.mem_map.mpr ⟨j, mem_rng.mpr hj, rfl⟩⟩

theorem flattenQ_forall {g : QGrid} (P : NQ → Prop)
    (h : ∀ i j, i < g.r → j < g.c → P (g.v i j)) : ∀ x ∈ flattenQ g, P x := by
  intro x hx
  unfold flattenQ at hx
  rw [mem_lflat] at hx
  rcases hx with ⟨i, hi, hx⟩
  rcases List.mem_map.mp hx with ⟨j, hj, rfl⟩
  exact h i j (mem_rng.mp hi) (mem_rng.mp hj)

theorem flattenQ_ne_nil {g : QGrid} (hr : 0 < g.r) (hc : 0 < g.c) :
    flattenQ g ≠ [] := by
  intro h
  have := mem_flattenQ hr hc
  simp [h] at this

/-! ## np.percentile (linear interpolation, the default method)

`np.percentile(a, 98)` flattens, sorts ascending, computes the fractional
position `pos = 98/100 * (n-1)`, and linearly interpolates between the two
neighbouring order statistics.  With any `NaN` present the result is `NaN`. -/

/-- The 98th percentile of a nonempty list of finite values. -/
def pct98 (l : List ℚ) : ℚ :=
  let s := List.insertionSort (fun a b : ℚ => a ≤ b) l
  let n := l.length
  let pos : ℚ := 98 * ((n : ℚ) - 1) / 100
  let k : Nat := (⌊pos⌋).toNat
  nthD s k 0 + (pos - (k : ℚ)) * (nthD s (k + 1) (nthD s k 0) - nthD s k 0)

/-- Checks a float list for `NaN`s and extracts the rational values. -/
def allSome : List NQ → Option (List ℚ)
  | [] => some []
  | none :: _ => none
  | some q :: l => (allSome l).map (fun qs => q :: qs)

/-- The finite entries of a float list (the spec's "all finite heights"). -/
def finiteVals (l : List NQ) : List ℚ := l.filterMap id

theorem allSome_eq_finiteVals {l : List NQ} {qs : List ℚ} (h : allSome l = some qs) :
    qs = finiteVals l := by
  induction l generalizing qs with
  | nil => simp [allSome] at h; simp [finiteVals, ← h]
  | cons a l ih =>
    cases a with
    | none => simp [allSome] at h
    | some q =>
      simp only [allSome] at h
      cases hl : allSome l with
      | none => rw [hl] at h; simp at h
      | some qs0 =>
        rw [hl] at h
        simp only [Option.map_some', Option.some.injEq] at h
        subst h
        simp only [finiteVals, List.filterMap_cons, id]
        exact congrArg (q :: ·) (ih hl)

theorem allSome_of_forall {l : List NQ} (h : ∀ x ∈ l, x.isSome = true) :
    allSome l = some (finiteVals l) := by
  induction l with
  | nil => simp [allSome, finiteVals]
  | cons a l ih =>
    cases a with
    | none => simpa using h none (by simp)
    | some q =>
      simp only [allSome, finiteVals, List.filterMap_cons, id]
      rw [ih fun x hx => h x (by simp [hx])]
      rfl

theorem allSome_of_mem_none {l : List NQ} (h : none ∈ l) : allSome l = none := by
  induction l with
  | nil => simp at h
  | cons a l ih =>
    cases a with
    | none => rfl
    | some q =>
      rcases List.mem_cons.mp h with hq | hl
      · exact absurd hq.symm (by simp)
      · simp [allSome, ih hl]

/-- `np.percentile(arr, 98)` on a float array: `NaN` if any entry is `NaN`
(or the array is empty), otherwise the interpolated order statistic. -/
def percentileNQ (l : List NQ) : NQ :=
  match allSome l with
  | none => none
  | some qs => if qs = [] then none else some (pct98 qs)

/-! ## Smoothing: scipy.ndimage.uniform_filter(size=3, mode="nearest")

Modelled from the spec: `scipy.ndimage.uniform_filter` is an external library
routine (not part of this repository); per the spec it is a fixed 3x3 uniform
(box) blur with edge-clamped boundary handling, each pass reading the previous
pass's full output. -/

/-- Clamp an integer offset index into `[0, n-1]` (mode="nearest"). -/
def clampIdx (n : Nat) (k : Int) : Nat := (max 0 (min k ((n : Int) - 1))).toNat

theorem clampIdx_lt {n : Nat} (hn : 0 < n) (k : Int) : clampIdx n k < n := by
  unfold clampIdx
  omega

/-- One clamped sample of the grid at integer offsets. -/
def sampleAt (g : QGrid) (i j : Int) : NQ := g.v (clampIdx g.r i) (clampIdx g.c j)

/-- One pass of the 3x3 edge-clamped box mean. -/
def uniform_filter3 (g : QGrid) : QGrid :=
  ⟨g.r, g.c, fun i j =>
    nqDiv
      (nqAdd (nqAdd (nqAdd (nqAdd (nqAdd (nqAdd (nqAdd (nqAdd
        (sampleAt g ((i : Int) - 1) ((j : Int) - 1))
        (sampleAt g ((i : Int) - 1) (j : Int)))
        (sampleAt g ((i : Int) - 1) ((j : Int) + 1)))
        (sampleAt g (i : Int) ((j : Int) - 1)))
        (sampleAt g (i : Int) (j : Int)))
        (sampleAt g (i : Int) ((j : Int) + 1)))
        (sampleAt g ((i : Int) + 1) ((j : Int) - 1)))
        (sampleAt g ((i : Int) + 1) (j : Int)))
        (sampleAt g ((i : Int) + 1) ((j : Int) + 1)))
      (some 9)⟩

/-- smooth_surface (lines 43-61): iterated uniform filtering. -/
def smooth_surface (g : QGrid) : Nat → QGrid
  | 0 => g
  | n + 1 => uniform_filter3 (smooth_surface g n)

/-! ## normalize_and_scale (lines 63-109)

The embedded function starts from the log-compressed grid `pot_log`
(see the module docstring).  Steps, exactly as in the source:
min/max over the flattened array with `NaN` propagation (lines 83-84),
min-max normalization (line 85), optional smoothing (lines 88-90), linear
scale and shift (line 93), capping with `np.minimum` (line 96), and spike
damping above the 98th percentile when `min_feature_size > 0` (lines 99-105).
The float literal `0.95` is the damping factor (19/20). -/

/-- Spike damping (lines 99-105): every height strictly above the 98th
percentile of the flattened heights is replaced by
`max(height * 0.95, threshold)`.  The `mask.any()` guard of line 103 only
skips a no-op assignment and has no observable effect, so it is not modelled
separately. -/
def dampSpikes (min_feature_size : ℚ) (g : QGrid) : QGrid :=
  if 0 < min_feature_size then
    let t := percentileNQ (flattenQ g)
    ⟨g.r, g.c, fun i j =>
      if nqGt (g.v i j) t then nqMax2 (nqMul (g.v i j) (some (95 / 100))) t
      else g.v i j⟩
  else g

/-- Min-max normalization (lines 83-85): `(pot_log - pot_min) / (pot_max - pot_min)`
with the min and max reductions taken over the whole flattened array. -/
def minmax_normalize (pot_log : QGrid) : QGrid :=
  ⟨pot_log.r, pot_log.c, fun i j =>
    nqDiv (nqSub (pot_log.v i j) (nqListMin (flattenQ pot_log)))
      (nqSub (nqListMax (flattenQ pot_log)) (nqListMin (flattenQ pot_log)))⟩

/-- The optional smoothing step (lines 88-90). -/
def smooth_step (g : QGrid) (smooth_iterations : Nat) : QGrid :=
  if 0 < smooth_iterations then smooth_surface g smooth_iterations else g

/-- Scaling to the physical height range (line 93). -/
def scale_heights (g : QGrid) (base_thickness height_scale : ℚ) : QGrid :=
  ⟨g.r, g.c, fun i j =>
    nqAdd (some base_thickness) (nqMul (g.v i j) (some height_scale))⟩

/-- Height capping with `np.minimum` (line 96). -/
def cap_heights (g : QGrid) (max_height : ℚ) : QGrid :=
  ⟨g.r, g.c, fun i j => nqMin2 (g.v i j) (some max_height)⟩

/-- normalize_and_scale, from the log-compressed grid onward (lines 82-109). -/
def normalize_and_scale (pot_log : QGrid) (base_thickness height_scale max_height : ℚ)
    (smooth_iterations : Nat) (min_feature_size : ℚ) : QGrid :=
  dampSpikes min_feature_size
    (cap_heights
      (scale_heights (smooth_step (minmax_normalize pot_log) smooth_iterations)
        base_thickness height_scale)
      max_height)

/-! ## Bounds for the percentile -/

theorem nthD_eq_get {α : Type} {l : List α} {k : Nat} (d : α) (h : k < l.length) :
    nthD l k d = l.get ⟨k, h⟩ := by
  induction l generalizing k with
  | nil => simp at h
  | cons a l ih =>
    cases k with
    | zero => rfl
    | succ m => exact ih (by simpa using h)

theorem nthD_default {α : Type} {l : List α} {k : Nat} (d : α) (h : l.length ≤ k) :
    nthD l k d = d := by
  induction l generalizing k with
  | nil => cases k <;> rfl
  | cons a l ih =>
    cases k with
    | zero => simp at h
    | succ m => exact ih (by simpa using h)

theorem sorted_nthD_adj {l : List ℚ} (hs : l.Sorted (fun a b : ℚ => a ≤ b))
    {k : Nat} (d : ℚ) (h : k + 1 < l.length) :
    nthD l k d ≤ nthD l (k + 1) d := by
  rw [nthD_eq_get d (by omega), nthD_eq_get d h]
  exact hs.rel_get_of_lt (by simp [Fin.lt_def])

theorem mem_finiteVals {l : List NQ} {q : ℚ} (h : q ∈ finiteVals l) : some q ∈ l := by
  unfold finiteVals at h
  rcases List.mem_filterMap.mp h with ⟨x, hx, hxq⟩
  cases x with
  | none => simp [id] at hxq
  | some q0 => simp only [id] at hxq; rwa [hxq] at hx

theorem finiteVals_length_of_allSome {l : List NQ}
    (h : ∀ x ∈ l, x.isSome = true) : (finiteVals l).length = l.length := by
  induction l with
  | nil => rfl
  | cons a l ih =>
    cases a with
    | none => simpa using h none (by simp)
    | some q =>
      simp only [finiteVals, List.filterMap_cons, id, List.length_cons]
      rw [show (List.filterMap id l) = finiteVals l from rfl, ih fun x hx => h x (by simp [hx])]

/-- The interpolated 98th percentile of a nonempty list lies between any lower
and upper bound of the list. -/
theorem pct98_bounds {l : List ℚ} {lo hi : ℚ} (hne : l ≠ [])
    (hb : ∀ q ∈ l, lo ≤ q ∧ q ≤ hi) : lo ≤ pct98 l ∧ pct98 l ≤ hi := by
  have hlen : 0 < l.length := List.length_pos.mpr hne
  set s := List.insertionSort (fun a b : ℚ => a ≤ b) l with hsdef
  have hperm : List.Perm s l := List.perm_insertionSort _ l
  have hslen : s.length = l.length := hperm.length_eq
  have hsorted : s.Sorted (fun a b : ℚ => a ≤ b) := List.sorted_insertionSort _ l
  have hsb : ∀ q ∈ s, lo ≤ q ∧ q ≤ hi := fun q hq => hb q (hperm.mem_iff.mp hq)
  set n := l.length with hn
  set pos : ℚ := 98 * ((n : ℚ) - 1) / 100 with hpos
  have hpos0 : 0 ≤ pos := by
    rw [hpos]
    have h1 : (1 : ℚ) ≤ (n : ℚ) := by exact_mod_cast hlen
    apply div_nonneg _ (by norm_num)
    linarith
  have hposle : pos ≤ (n : ℚ) - 1 := by
    rw [hpos]
    have h1 : (0 : ℚ) ≤ (n : ℚ) - 1 := by
      have : (1 : ℚ) ≤ (n : ℚ) := by exact_mod_cast hlen
      linarith
    nlinarith
  have hfl0 : 0 ≤ ⌊pos⌋ := Int.floor_nonneg.mpr hpos0
  set k : Nat := (⌊pos⌋).toNat with hk
  have hkcast : (k : ℚ) = (⌊pos⌋ : ℚ) := by
    rw [hk]; exact_mod_cast congrArg (Int.cast : ℤ → ℚ) (Int.toNat_of_nonneg hfl0)
  have hkle : (k : ℚ) ≤ pos := by rw [hkcast]; exact Int.floor_le pos
  have hklt : pos < (k : ℚ) + 1 := by
    rw [hkcast]
    exact_mod_cast Int.lt_floor_add_one pos
  have hkn : k < n := by
    have : (k : ℚ) ≤ (n : ℚ) - 1 := le_trans hkle hposle
    have : (k : ℚ) < (n : ℚ) := by linarith
    exact_mod_cast this
  have hkls : k < s.length := by omega
  set a := nthD s k 0 with ha
  have hamem : a ∈ s := ha ▸ nthD_mem 0 hkls
  have habnd := hsb a hamem
  show lo ≤ a + (pos - (k : ℚ)) * (nthD s (k + 1) a - a) ∧
       a + (pos - (k : ℚ)) * (nthD s (k + 1) a - a) ≤ hi
  rcases Nat.lt_or_ge (k + 1) s.length with hk1 | hk1
  · set b := nthD s (k + 1) a with hbdef
    have hbmem : b ∈ s := hbdef ▸ nthD_mem a hk1
    have hbbnd := hsb b hbmem
    have hab : a ≤ b := by
      rw [ha, hbdef]
      exact sorted_nthD_adj hsorted 0 hk1 |>.trans_eq (by
        rw [nthD_eq_get 0 hk1, nthD_eq_get a hk1])
    constructor
    · have : 0 ≤ (pos - (k : ℚ)) * (b - a) :=
        mul_nonneg (by linarith) (by linarith)
      linarith
    · have h1 : (pos - (k : ℚ)) * (b - a) ≤ 1 * (b - a) :=
        mul_le_mul_of_nonneg_right (by linarith) (by linarith)
      have : a + (pos - (k : ℚ)) * (b - a) ≤ b := by linarith
      linarith [hbbnd.2]
  · rw [nthD_default a hk1]
    constructor <;> simp <;> linarith [habnd.1, habnd.2]

/-! ## Range and NaN-propagation lemmas for the transform pipeline -/

theorem nqListMax_isNone {l : List NQ} (h : none ∈ l) : nqListMax l = none := by
  cases l with
  | nil => simp at h
  | cons a l =>
    rcases List.mem_cons.mp h with ha | hl
    · subst ha; simpa [nqListMax] using foldl_nqMax2_none l
    · show l.foldl nqMax2 a = none
      clear h
      induction l generalizing a with
      | nil => simp at hl
      | cons b l ih =>
        rcases List.mem_cons.mp hl with hb | hl2
        · subst hb
          simpa [List.foldl, nqMax2_none] using foldl_nqMax2_none l
        · exact ih _ hl2

theorem flattenQ_length (g : QGrid) : (flattenQ g).length = g.c * g.r := by
  unfold flattenQ
  rw [length_lflat_const _ _ g.c fun a _ => by simp [length_rng], length_rng]

/-- Every in-range cell is finite and lies in `[lo, hi]`. -/
def gridAllIn (g : QGrid) (lo hi : ℚ) : Prop :=
  ∀ i j, i < g.r → j < g.c → ∃ q, g.v i j = some q ∧ lo ≤ q ∧ q ≤ hi

/-- Every in-range cell is `NaN`. -/
def gridAllNone (g : QGrid) : Prop :=
  ∀ i j, i < g.r → j < g.c → g.v i j = none

theorem uniform_filter3_allIn {g : QGrid} {lo hi : ℚ}
    (h : gridAllIn g lo hi) : gridAllIn (uniform_filter3 g) lo hi := by
  intro i j hi0 hj0
  have hi1 : i < g.r := hi0
  have hj1 : j < g.c := hj0
  have hr : 0 < g.r := by omega
  have hc : 0 < g.c := by omega
  have hs : ∀ a b : Int, ∃ q, sampleAt g a b = some q ∧ lo ≤ q ∧ q ≤ hi := fun a b =>
    h _ _ (clampIdx_lt hr a) (clampIdx_lt hc b)
  obtain ⟨q1, e1, l1, u1⟩ := hs ((i : Int) - 1) ((j : Int) - 1)
  obtain ⟨q2, e2, l2, u2⟩ := hs ((i : Int) - 1) (j : Int)
  obtain ⟨q3, e3, l3, u3⟩ := hs ((i : Int) - 1) ((j : Int) + 1)
  obtain ⟨q4, e4, l4, u4⟩ := hs (i : Int) ((j : Int) - 1)
  obtain ⟨q5, e5, l5, u5⟩ := hs (i : Int) (j : Int)
  obtain ⟨q6, e6, l6, u6⟩ := hs (i : Int) ((j : Int) + 1)
  obtain ⟨q7, e7, l7, u7⟩ := hs ((i : Int) + 1) ((j : Int) - 1)
  obtain ⟨q8, e8, l8, u8⟩ := hs ((i : Int) + 1) (j : Int)
  obtain ⟨q9, e9, l9, u9⟩ := hs ((i : Int) + 1) ((j : Int) + 1)
  refine ⟨(q1 + q2 + q3 + q4 + q5 + q6 + q7 + q8 + q9) / 9, ?_, ?_, ?_⟩
  · show nqDiv _ _ = _
    rw [e1, e2, e3, e4, e5, e6, e7, e8, e9]
    simp [nqAdd, nqDiv]
  · rw [le_div_iff₀ (by norm_num : (0 : ℚ) < 9)]
    linarith
  · rw [div_le_iff₀ (by norm_num : (0 : ℚ) < 9)]
    linarith

theorem uniform_filter3_allNone {g : QGrid} (hr : 0 < g.r) (hc : 0 < g.c)
    (h : gridAllNone g) : gridAllNone (uniform_filter3 g) := by
  intro i j _ _
  have hs : ∀ a b : Int, sampleAt g a b = none := fun a b =>
    h _ _ (clampIdx_lt hr a) (clampIdx_lt hc b)
  show nqDiv _ _ = _
  rw [hs, hs, hs, hs, hs, hs, hs, hs, hs]
  rfl

theorem smooth_surface_allIn {g : QGrid} {lo hi : ℚ} (n : Nat)
    (h : gridAllIn g lo hi) : gridAllIn (smooth_surface g n) lo hi := by
  induction n with
  | zero => exact h
  | succ m ih => exact uniform_filter3_allIn ih

theorem smooth_surface_dims (g : QGrid) (n : Nat) :
    (smooth_surface g n).r = g.r ∧ (smooth_surface g n).c = g.c := by
  induction n with
  | zero => exact ⟨rfl, rfl⟩
  | succ m ih => exact ih

theorem smooth_surface_allNone {g : QGrid} (hr : 0 < g.r) (hc : 0 < g.c) (n : Nat)
    (h : gridAllNone g) : gridAllNone (smooth_surface g n) := by
  induction n with
  | zero => exact h
  | succ m ih =>
    have hd := smooth_surface_dims g m
    exact uniform_filter3_allNone (by rw [hd.1]; exact hr) (by rw [hd.2]; exact hc) ih

theorem smooth_step_allIn {g : QGrid} {lo hi : ℚ} (n : Nat)
    (h : gridAllIn g lo hi) : gridAllIn (smooth_step g n) lo hi := by
  unfold smooth_step
  split
  · exact smooth_surface_allIn n h
  · exact h

theorem smooth_step_dims (g : QGrid) (n : Nat) :
    (smooth_step g n).r = g.r ∧ (smooth_step g n).c = g.c := by
  unfold smooth_step
  split
  · exact smooth_surface_dims g n
  · exact ⟨rfl, rfl⟩

theorem smooth_step_allNone {g : QGrid} (hr : 0 < g.r) (hc : 0 < g.c) (n : Nat)
    (h : gridAllNone g) : gridAllNone (smooth_step g n) := by
  unfold smooth_step
  split
  · exact smooth_surface_allNone hr hc n h
  · exact h

/-- NaN propagation through scaling, capping and damping: once every cell of the
normalized grid is `NaN`, every cell of the final height grid is `NaN`. -/
theorem dampSpikes_dims (mfs : ℚ) (g : QGrid) :
    (dampSpikes mfs g).r = g.r ∧ (dampSpikes mfs g).c = g.c := by
  unfold dampSpikes
  split
  · exact ⟨rfl, rfl⟩
  · exact ⟨rfl, rfl⟩

theorem pipeline_allNone (g : QGrid) (bt hs mh : ℚ) (si : Nat) (mfs : ℚ)
    (hr : 0 < g.r) (hc : 0 < g.c) (h : gridAllNone g) :
    gridAllNone
      (dampSpikes mfs (cap_heights (scale_heights (smooth_step g si) bt hs) mh)) := by
  have hsm := smooth_step_allNone hr hc si h
  have hd := smooth_step_dims g si
  have hcap : gridAllNone (cap_heights (scale_heights (smooth_step g si) bt hs) mh) := by
    intro i j hi0 hj0
    have := hsm i j hi0 hj0
    show nqMin2 (nqAdd _ (nqMul _ _)) _ = none
    rw [this]
    rfl
  intro i j hi0 hj0
  have hdd := dampSpikes_dims mfs (cap_heights (scale_heights (smooth_step g si) bt hs) mh)
  rw [hdd.1] at hi0
  rw [hdd.2] at hj0
  have hi1 : i < (cap_heights (scale_heights (smooth_step g si) bt hs) mh).r := hi0
  have hj1 : j < (cap_heights (scale_heights (smooth_step g si) bt hs) mh).c := hj0
  unfold dampSpikes
  split
  · have hv := hcap i j hi1 hj1
    show (if nqGt _ _ then _ else _) = none
    rw [hv]
    simp [nqGt]
  · exact hcap i j hi1 hj1

theorem foldl_nqMin2_isSome :
    ∀ (l : List NQ) (a : NQ), (∀ x ∈ l, x.isSome = true) → a.isSome = true →
      (l.foldl nqMin2 a).isSome = true := by
  intro l
  induction l with
  | nil => intro a _ ha; exact ha
  | cons b l ih =>
    intro a h ha
    have hb := h b (by simp)
    show ((l.foldl nqMin2 (nqMin2 a b)).isSome = true)
    refine ih _ (fun x hx => h x (by simp [hx])) ?_
    cases a with
    | none => simp at ha
    | some qa => cases b with
      | none => simp at hb
      | some qb => rfl

theorem foldl_nqMax2_isSome :
    ∀ (l : List NQ) (a : NQ), (∀ x ∈ l, x.isSome = true) → a.isSome = true →
      (l.foldl nqMax2 a).isSome = true := by
  intro l
  induction l with
  | nil => intro a _ ha; exact ha
  | cons b l ih =>
    intro a h ha
    have hb := h b (by simp)
    show ((l.foldl nqMax2 (nqMax2 a b)).isSome = true)
    refine ih _ (fun x hx => h x (by simp [hx])) ?_
    cases a with
    | none => simp at ha
    | some qa => cases b with
      | none => simp at hb
      | some qb => rfl

theorem nqListMin_isSome {l : List NQ} (hne : l ≠ [])
    (h : ∀ x ∈ l, x.isSome = true) : ∃ m, nqListMin l = some m := by
  cases l with
  | nil => exact absurd rfl hne
  | cons a t =>
    have := foldl_nqMin2_isSome t a (fun x hx => h x (by simp [hx])) (h a (by simp))
    exact Option.isSome_iff_exists.mp this

theorem nqListMax_isSome {l : List NQ} (hne : l ≠ [])
    (h : ∀ x ∈ l, x.isSome = true) : ∃ m, nqListMax l = some m := by
  cases l with
  | nil => exact absurd rfl hne
  | cons a t =>
    have := foldl_nqMax2_isSome t a (fun x hx => h x (by simp [hx])) (h a (by simp))
    exact Option.isSome_iff_exists.mp this

/-- Claim C5, amended.  If the log-compressed values are not all equal (so the
min-max denominator is nonzero), `base_thickness` is nonnegative and at most
`max_height`, and `height_scale` is nonnegative, then every cell of the grid
returned by `normalize_and_scale` is finite and lies in
`[base_thickness, max_height]`.  (The nonnegativity of `base_thickness` is the
amendment: with a negative base the damping replacement `height * 0.95` can
exceed `max_height`, see the counterexample.) -/
theorem claim_C5_amended (pot_log : QGrid) (bt hs mh : ℚ) (si : Nat) (mfs : ℚ)
    (hne : nqListMin (flattenQ pot_log) ≠ nqListMax (flattenQ pot_log))
    (hbt0 : 0 ≤ bt) (hbm : bt ≤ mh) (hhs : 0 ≤ hs) :
    ∀ i j, i < pot_log.r → j < pot_log.c →
      ∃ q, (normalize_and_scale pot_log bt hs mh si mfs).v i j = some q ∧
        bt ≤ q ∧ q ≤ mh := by
  have hfin : ∀ x ∈ flattenQ pot_log, x.isSome = true := by
    intro x hx
    cases x with
    | some q => rfl
    | none => exact absurd (by rw [nqListMin_isNone hx, nqListMax_isNone hx]) hne
  have hnil : flattenQ pot_log ≠ [] := by
    intro h0
    rw [h0] at hne
    exact hne rfl
  obtain ⟨mn, hmn⟩ := nqListMin_isSome hnil hfin
  obtain ⟨mx, hmx⟩ := nqListMax_isSome hnil hfin
  obtain ⟨x0, hx0⟩ := List.exists_mem_of_ne_nil _ hnil
  obtain ⟨q0, hq0eq, hq0ge⟩ := nqListMin_le hmn x0 hx0
  obtain ⟨q0b, hq0beq, hq0le⟩ := nqListMax_ge hmx x0 hx0
  have hq00 : q0 = q0b := by
    rw [hq0eq] at hq0beq
    exact Option.some.inj hq0beq
  have hmnmx : mn < mx := by
    rcases lt_or_eq_of_le (le_trans hq0ge (hq00 ▸ hq0le)) with h | h
    · exact h
    · exact absurd (by rw [hmn, hmx, h]) hne
  have hnorm : gridAllIn (minmax_normalize pot_log) 0 1 := by
    intro i j hi0 hj0
    have hmem : pot_log.v i j ∈ flattenQ pot_log := mem_flattenQ hi0 hj0
    obtain ⟨q, hq, hqge⟩ := nqListMin_le hmn _ hmem
    obtain ⟨qb, hqb, hqle⟩ := nqListMax_ge hmx _ hmem
    have hqq : qb = q := by
      rw [hq] at hqb
      exact (Option.some.inj hqb).symm
    subst hqq
    refine ⟨(qb - mn) / (mx - mn), ?_, ?_, ?_⟩
    · show nqDiv (nqSub _ _) (nqSub _ _) = _
      rw [hq, hmn, hmx]
      show nqDiv (some (qb - mn)) (some (mx - mn)) = _
      rw [nqDiv, if_neg (sub_ne_zero.mpr (ne_of_gt hmnmx))]
    · exact div_nonneg (sub_nonneg.mpr hqge) (le_of_lt (sub_pos.mpr hmnmx))
    · rw [div_le_one (sub_pos.mpr hmnmx)]
      linarith
  have hsm := smooth_step_allIn si hnorm
  have hscale : gridAllIn
      (scale_heights (smooth_step (minmax_normalize pot_log) si) bt hs) bt (bt + hs) := by
    intro i j hi0 hj0
    obtain ⟨q, hq, h0, h1⟩ := hsm i j hi0 hj0
    refine ⟨bt + q * hs, ?_, by nlinarith, by nlinarith⟩
    show nqAdd (some bt) (nqMul _ _) = _
    rw [hq]
    rfl
  have hcap : gridAllIn
      (cap_heights (scale_heights (smooth_step (minmax_normalize pot_log) si) bt hs) mh)
      bt mh := by
    intro i j hi0 hj0
    obtain ⟨q, hq, hl, hu⟩ := hscale i j hi0 hj0
    refine ⟨min q mh, ?_, le_min hl hbm, min_le_right _ _⟩
    show nqMin2 _ _ = _
    rw [hq]
    rfl
  intro i j hi0 hj0
  have hdr : (cap_heights (scale_heights (smooth_step (minmax_normalize pot_log) si) bt hs)
      mh).r = pot_log.r := (smooth_step_dims _ _).1
  have hdc : (cap_heights (scale_heights (smooth_step (minmax_normalize pot_log) si) bt hs)
      mh).c = pot_log.c := (smooth_step_dims _ _).2
  have hi1 : i < (cap_heights (scale_heights (smooth_step (minmax_normalize pot_log) si)
      bt hs) mh).r := by omega
  have hj1 : j < (cap_heights (scale_heights (smooth_step (minmax_normalize pot_log) si)
      bt hs) mh).c := by omega
  obtain ⟨q, hq, hl, hu⟩ := hcap i j hi1 hj1
  show ∃ q', (dampSpikes mfs _).v i j = some q' ∧ bt ≤ q' ∧ q' ≤ mh
  unfold dampSpikes
  split
  · -- min_feature_size > 0: the damping pass runs
    set C := cap_heights (scale_heights (smooth_step (minmax_normalize pot_log) si) bt hs) mh
      with hC
    have hCfin : ∀ x ∈ flattenQ C, x.isSome = true := by
      refine flattenQ_forall _ ?_
      intro i2 j2 hi2 hj2
      obtain ⟨q2, hq2, _, _⟩ := hcap i2 j2 hi2 hj2
      rw [hq2]
      rfl
    have hCnil : flattenQ C ≠ [] := by
      refine flattenQ_ne_nil ?_ ?_ <;> omega
    have hCsome : allSome (flattenQ C) = some (finiteVals (flattenQ C)) :=
      allSome_of_forall hCfin
    have hfvne : finiteVals (flattenQ C) ≠ [] := by
      intro h0
      have := finiteVals_length_of_allSome hCfin
      rw [h0] at this
      exact hCnil (List.length_eq_zero.mp this.symm)
    have hfvbnd : ∀ q2 ∈ finiteVals (flattenQ C), bt ≤ q2 ∧ q2 ≤ mh := by
      intro q2 hq2
      have hmem2 : some q2 ∈ flattenQ C := mem_finiteVals hq2
      have := flattenQ_forall (fun x => ∀ q3 : ℚ, x = some q3 → bt ≤ q3 ∧ q3 ≤ mh)
        (fun i2 j2 hi2 hj2 => by
          obtain ⟨q3, hq3, hl3, hu3⟩ := hcap i2 j2 hi2 hj2
          intro q4 hq4
          rw [hq3] at hq4
          have := Option.some.inj hq4
          subst this
          exact ⟨hl3, hu3⟩) _ hmem2
      exact this q2 rfl
    have htb := pct98_bounds hfvne hfvbnd
    show ∃ q', (if nqGt (C.v i j) (percentileNQ (flattenQ C)) then _ else C.v i j) = some q' ∧ _
    have hperc : percentileNQ (flattenQ C) = some (pct98 (finiteVals (flattenQ C))) := by
      unfold percentileNQ
      rw [hCsome]
      show (if finiteVals (flattenQ C) = [] then none
        else some (pct98 (finiteVals (flattenQ C)))) = _
      rw [if_neg hfvne]
    rw [hperc, hq]
    set tq := pct98 (finiteVals (flattenQ C)) with htq
    show ∃ q', (if nqGt (some q) (some tq) then nqMax2 (nqMul (some q) (some (95 / 100)))
      (some tq) else some q) = some q' ∧ bt ≤ q' ∧ q' ≤ mh
    by_cases hgt : tq < q
    · rw [if_pos (by simp [nqGt, hgt])]
      refine ⟨max (q * (95 / 100)) tq, rfl, ?_, ?_⟩
      · exact le_trans htb.1 (le_max_right _ _)
      · refine max_le ?_ htb.2
        have hq0 : 0 ≤ q := le_trans hbt0 hl
        nlinarith
    · rw [if_neg (by simp [nqGt, hgt])]
      exact ⟨q, rfl, hl, hu⟩
  · exact ⟨q, hq, hl, hu⟩

/-- Claim C6.  On a height grid whose cells are all finite (the only situation
in which any finite heights exist at the damping stage: by `claim_C7_amended`
a single `NaN` input makes every height `NaN`), the spike-damping step uses as
threshold the interpolated 98th percentile of all (finite) heights, replaces
exactly the heights strictly above it by `max(height * 0.95, threshold)`,
leaves all others unchanged, never produces a value below the threshold at a
suppressed cell, and preserves the (non-strict) order of the suppressed peaks. -/
theorem claim_C6_damping (g : QGrid) (mfs : ℚ) (hmfs : 0 < mfs)
    (hr : 0 < g.r) (hc : 0 < g.c)
    (hfin : ∀ i j, i < g.r → j < g.c → (g.v i j).isSome = true) :
    ∃ tq, percentileNQ (flattenQ g) = some tq ∧
      tq = pct98 (finiteVals (flattenQ g)) ∧
      ∀ i j, i < g.r → j < g.c →
        ∃ q out, g.v i j = some q ∧ (dampSpikes mfs g).v i j = some out ∧
          (tq < q → out = max (q * (95 / 100)) tq ∧ tq ≤ out) ∧
          (¬ tq < q → out = q) ∧
          (∀ i2 j2, i2 < g.r → j2 < g.c → ∀ q2 out2, g.v i2 j2 = some q2 →
            (dampSpikes mfs g).v i2 j2 = some out2 →
            tq < q → tq < q2 → q2 ≤ q → out2 ≤ out) := by
  have hflat : ∀ x ∈ flattenQ g, x.isSome = true :=
    flattenQ_forall _ fun i j hi hj => hfin i j hi hj
  have hperc : percentileNQ (flattenQ g) = some (pct98 (finiteVals (flattenQ g))) := by
    unfold percentileNQ
    rw [allSome_of_forall hflat]
    show (if finiteVals (flattenQ g) = [] then none
      else some (pct98 (finiteVals (flattenQ g)))) = _
    rw [if_neg]
    intro h0
    have hlen := finiteVals_length_of_allSome hflat
    rw [h0, flattenQ_length g] at hlen
    have hpos := Nat.mul_pos hc hr
    simp at hlen
    omega
  set tq := pct98 (finiteVals (flattenQ g)) with htq
  have hval : ∀ i j, i < g.r → j < g.c → ∃ q, g.v i j = some q ∧
      (dampSpikes mfs g).v i j =
        (if tq < q then some (max (q * (95 / 100)) tq) else some q) := by
    intro i j hi hj
    obtain ⟨q, hq⟩ := Option.isSome_iff_exists.mp (hfin i j hi hj)
    refine ⟨q, hq, ?_⟩
    unfold dampSpikes
    rw [if_pos hmfs]
    show (if nqGt (g.v i j) (percentileNQ (flattenQ g)) then
      nqMax2 (nqMul (g.v i j) (some (95 / 100))) (percentileNQ (flattenQ g))
      else g.v i j) = _
    rw [hperc, hq]
    by_cases hgt : tq < q
    · rw [if_pos (by simp [nqGt, hgt]), if_pos hgt]
      rfl
    · rw [if_neg (by simp [nqGt, hgt]), if_neg hgt]
  refine ⟨tq, hperc, rfl, ?_⟩
  intro i j hi hj
  obtain ⟨q, hq, hout⟩ := hval i j hi hj
  by_cases hgt : tq < q
  · rw [if_pos hgt] at hout
    refine ⟨q, max (q * (95 / 100)) tq, hq, hout, ?_, ?_, ?_⟩
    · intro _; exact ⟨rfl, le_max_right _ _⟩
    · intro h; exact absurd hgt h
    · intro i2 j2 hi2 hj2 q2 out2 hq2 hout2 _ hgt2 hle
      obtain ⟨q2b, hq2b, hout2b⟩ := hval i2 j2 hi2 hj2
      rw [hq2] at hq2b
      have hqq : q2b = q2 := (Option.some.inj hq2b).symm
      subst hqq
      rw [if_pos hgt2] at hout2b
      rw [hout2b] at hout2
      have : out2 = max (q2b * (95 / 100)) tq := (Option.some.inj hout2).symm
      subst this
      refine max_le ?_ (le_max_right _ _)
      refine le_trans ?_ (le_max_left _ _)
      nlinarith
  · rw [if_neg hgt] at hout
    refine ⟨q, q, hq, hout, fun h => absurd h hgt, fun _ => rfl, ?_⟩
    intro i2 j2 hi2 hj2 q2 out2 hq2 hout2 hgtq _ _
    exact absurd hgtq hgt

/-- Claim C7, amended.  The code computes `pot_log.min()` and `pot_log.max()`
(lines 83-84), which propagate `NaN`; so if ANY cell of the input is `NaN`, the
min-max normalization makes EVERY cell `NaN`, and the final grid is `NaN`
everywhere, not just at the originally-`NaN` cells.  (`NaN`s are not excluded
from the min/max computation, contrary to the claim.) -/
theorem claim_C7_amended (pot_log : QGrid) (bt hs mh : ℚ) (si : Nat) (mfs : ℚ)
    (h : ∃ i j, i < pot_log.r ∧ j < pot_log.c ∧ pot_log.v i j = none) :
    ∀ i j, i < pot_log.r → j < pot_log.c →
      (normalize_and_scale pot_log bt hs mh si mfs).v i j = none := by
  obtain ⟨i0, j0, hi0, hj0, hv0⟩ := h
  have hmem : (none : NQ) ∈ flattenQ pot_log := by
    have := mem_flattenQ hi0 hj0
    rwa [hv0] at this
  have hmn : nqListMin (flattenQ pot_log) = none := nqListMin_isNone hmem
  have hnone : gridAllNone (minmax_normalize pot_log) := by
    intro i j _ _
    show nqDiv (nqSub _ _) (nqSub _ _) = none
    rw [hmn]
    cases pot_log.v i j <;> rfl
  have hall := pipeline_allNone (minmax_normalize pot_log) bt hs mh si mfs
    (by show 0 < pot_log.r; omega) (by show 0 < pot_log.c; omega) hnone
  intro i j hi hj
  have h1 : (dampSpikes mfs (cap_heights (scale_heights
      (smooth_step (minmax_normalize pot_log) si) bt hs) mh)).r = pot_log.r := by
    rw [(dampSpikes_dims _ _).1]
    exact (smooth_step_dims _ _).1
  have h2 : (dampSpikes mfs (cap_heights (scale_heights
      (smooth_step (minmax_normalize pot_log) si) bt hs) mh)).c = pot_log.c := by
    rw [(dampSpikes_dims _ _).2]
    exact (smooth_step_dims _ _).2
  exact hall i j (by omega) (by omega)

/-- Claim C8, amended.  When the global minimum of the log-compressed grid
equals its global maximum (all values equal), `normalize_and_scale` performs
the division `0/0`, which is `NaN`, and silently returns an all-`NaN` grid;
no error condition of any kind is raised (the embedded function, like the
source, is total and has no error channel). -/
theorem claim_C8_amended (pot_log : QGrid) (bt hs mh : ℚ) (si : Nat) (mfs : ℚ) (q0 : ℚ)
    (hr : 0 < pot_log.r) (hc : 0 < pot_log.c)
    (hconst : ∀ i j, i < pot_log.r → j < pot_log.c → pot_log.v i j = some q0) :
    ∀ i j, i < pot_log.r → j < pot_log.c →
      (normalize_and_scale pot_log bt hs mh si mfs).v i j = none := by
  have hall : ∀ x ∈ flattenQ pot_log, x = some q0 :=
    flattenQ_forall _ fun i j hi hj => hconst i j hi hj
  have hnil := flattenQ_ne_nil hr hc
  have hmn : nqListMin (flattenQ pot_log) = some q0 := nqListMin_const hnil hall
  have hmx : nqListMax (flattenQ pot_log) = some q0 := nqListMax_const hnil hall
  have hnone : gridAllNone (minmax_normalize pot_log) := by
    intro i j hi hj
    show nqDiv (nqSub _ _) (nqSub _ _) = none
    rw [hmn, hmx, hconst i j hi hj]
    show nqDiv (some (q0 - q0)) (some (q0 - q0)) = none
    rw [nqDiv, if_pos (by ring)]
  have hall := pipeline_allNone (minmax_normalize pot_log) bt hs mh si mfs hr hc hnone
  intro i j hi hj
  have h1 : (dampSpikes mfs (cap_heights (scale_heights
      (smooth_step (minmax_normalize pot_log) si) bt hs) mh)).r = pot_log.r := by
    rw [(dampSpikes_dims _ _).1]
    exact (smooth_step_dims _ _).1
  have h2 : (dampSpikes mfs (cap_heights (scale_heights
      (smooth_step (minmax_normalize pot_log) si) bt hs) mh)).c = pot_log.c := by
    rw [(dampSpikes_dims _ _).2]
    exact (smooth_step_dims _ _).2
  exact hall i j (by omega) (by omega)

/-! ## Concrete instances for claims C5-C8 -/

/-- A 1x2 log-compressed grid with values 0 and 1. -/
def gridC5 : QGrid := ⟨1, 2, fun _ j => some (if j = 0 then 0 else 1)⟩

/-- A 1x2 grid with one finite cell and one `NaN` hole. -/
def gridC7 : QGrid := ⟨1, 2, fun _ j => if j = 0 then some 0 else none⟩

/-- A 1x2 constant grid (degenerate range: min = max). -/
def gridC8 : QGrid := ⟨1, 2, fun _ _ => some 5⟩

/-- Counterexample to claim C5 as stated.  With `base_thickness = -100 ≤
max_height = -99`, `height_scale = 1 ≥ 0`, and log-compressed values 0 and 1
(not all equal), the returned height at cell (0,1) is `-1881/20 = -94.05`,
which exceeds `max_height = -99`: the spike-damping replacement
`height * 0.95` moved a negative height up past the cap. -/
theorem claim_C5_cex :
    nqListMin (flattenQ gridC5) ≠ nqListMax (flattenQ gridC5) ∧
    ((-100 : ℚ) ≤ -99) ∧ ((0 : ℚ) ≤ (1 : ℚ)) ∧
    (normalize_and_scale gridC5 (-100) 1 (-99) 0 1).v 0 1 = some (-1881 / 20) ∧
    ¬ ((-1881 / 20 : ℚ) ≤ -99) := by
  refine ⟨?_, by norm_num, by norm_num, ?_, by norm_num⟩
  · show nqListMin [some 0, some 1] ≠ nqListMax [some 0, some 1]
    norm_num [nqListMin, nqListMax, nqMin2, nqMax2]
  · norm_num [normalize_and_scale, dampSpikes, cap_heights, scale_heights, smooth_step,
      minmax_normalize, flattenQ, lflat, rng, gridC5, nqListMin, nqListMax, nqMin2, nqMax2,
      nqDiv, nqSub, nqAdd, nqMul, nqGt, percentileNQ, allSome, finiteVals, pct98,
      List.insertionSort, List.orderedInsert, nthD, Int.floor_eq_iff]
    rw [if_neg (show ¬([(-100 : ℚ), -99] = ([] : List ℚ)) by simp)]
    norm_num [sup_eq_max, max_def]

/-- Witness for the amended claim C5 at a concrete input. -/
theorem claim_C5_witness :
    (nqListMin (flattenQ gridC5) ≠ nqListMax (flattenQ gridC5) ∧ (0 : ℚ) ≤ 2 ∧
      (2 : ℚ) ≤ 200 ∧ (0 : ℚ) ≤ 50) ∧
    (∃ q, (normalize_and_scale gridC5 2 50 200 0 1).v 0 1 = some q ∧ 2 ≤ q ∧ q ≤ 200) := by
  have hne : nqListMin (flattenQ gridC5) ≠ nqListMax (flattenQ gridC5) := by
    show nqListMin [some 0, some 1] ≠ nqListMax [some 0, some 1]
    norm_num [nqListMin, nqListMax, nqMin2, nqMax2]
  exact ⟨⟨hne, by norm_num, by norm_num, by norm_num⟩,
    claim_C5_amended gridC5 2 50 200 0 1 hne (by norm_num) (by norm_num) (by norm_num)
      0 1 (by norm_num [gridC5]) (by norm_num [gridC5])⟩

theorem nqSub_none_right (x : NQ) : nqSub x none = none := by cases x <;> rfl

theorem nqDiv_none_right (x : NQ) : nqDiv x none = none := by cases x <;> rfl

/-- Counterexample to claim C7 as stated.  The input grid has a single `NaN`
hole at (0,1) and a finite value at (0,0); the claim says the output at (0,0)
is finite, but the code's `pot_log.min()` is `NaN`, so the output at (0,0) is
`NaN` as well. -/
theorem claim_C7_cex :
    gridC7.v 0 0 = some 0 ∧
    (normalize_and_scale gridC7 2 50 200 0 1).v 0 0 = none := by
  constructor
  · rfl
  · have hmn : nqListMin (flattenQ gridC7) = none := rfl
    have hnone : gridAllNone (minmax_normalize gridC7) := by
      intro i j _ _
      show nqDiv (nqSub _ (nqListMin (flattenQ gridC7)))
        (nqSub _ (nqListMin (flattenQ gridC7))) = none
      rw [hmn, nqSub_none_right, nqSub_none_right, nqDiv_none_right]
    have hpipe := pipeline_allNone (minmax_normalize gridC7) 2 50 200 0 1
      (by norm_num [minmax_normalize, gridC7]) (by norm_num [minmax_normalize, gridC7]) hnone
    have hd1 : (dampSpikes (1 : ℚ) (cap_heights (scale_heights
        (smooth_step (minmax_normalize gridC7) 0) 2 50) 200)).r = 1 := by
      rw [(dampSpikes_dims _ _).1]
      exact (smooth_step_dims _ _).1
    have hd2 : (dampSpikes (1 : ℚ) (cap_heights (scale_heights
        (smooth_step (minmax_normalize gridC7) 0) 2 50) 200)).c = 2 := by
      rw [(dampSpikes_dims _ _).2]
      exact (smooth_step_dims _ _).2
    exact hpipe 0 0 (by omega) (by omega)

/-- Witness for the amended claim C7 at a concrete input. -/
theorem claim_C7_witness :
    (0 < gridC7.r ∧ 1 < gridC7.c ∧ gridC7.v 0 1 = none) ∧
    (normalize_and_scale gridC7 2 50 200 0 1).v 0 0 = none :=
  ⟨⟨by norm_num [gridC7], by norm_num [gridC7], rfl⟩,
    claim_C7_amended gridC7 2 50 200 0 1
      ⟨0, 1, by norm_num [gridC7], by norm_num [gridC7], rfl⟩
      0 0 (by norm_num [gridC7]) (by norm_num [gridC7])⟩

/-- Counterexample to claim C8 as stated.  On a constant grid (degenerate
range, min = max) `normalize_and_scale` raises nothing: it silently returns a
grid whose cells are all `NaN` (`0/0`), exactly the outcome the claim says must
not happen. -/
theorem claim_C8_cex :
    nqListMin (flattenQ gridC8) = nqListMax (flattenQ gridC8) ∧
    (normalize_and_scale gridC8 2 50 200 0 1).v 0 0 = none ∧
    (normalize_and_scale gridC8 2 50 200 0 1).v 0 1 = none := by
  refine ⟨?_, ?_, ?_⟩
  · show nqListMin [some 5, some 5] = nqListMax [some 5, some 5]
    norm_num [nqListMin, nqListMax, nqMin2, nqMax2]
  · norm_num [normalize_and_scale, dampSpikes, cap_heights, scale_heights, smooth_step,
      minmax_normalize, flattenQ, lflat, rng, gridC8, nqListMin, nqListMax, nqMin2, nqMax2,
      nqDiv, nqSub, nqAdd, nqMul, nqGt, percentileNQ, allSome]
  · norm_num [normalize_and_scale, dampSpikes, cap_heights, scale_heights, smooth_step,
      minmax_normalize, flattenQ, lflat, rng, gridC8, nqListMin, nqListMax, nqMin2, nqMax2,
      nqDiv, nqSub, nqAdd, nqMul, nqGt, percentileNQ, allSome]

/-- Witness for the amended claim C8 at a concrete input. -/
theorem claim_C8_witness :
    (0 < gridC8.r ∧ 0 < gridC8.c) ∧
    (normalize_and_scale gridC8 2 50 200 0 1).v 0 0 = none :=
  ⟨⟨by norm_num [gridC8], by norm_num [gridC8]⟩,
    claim_C8_amended gridC8 2 50 200 0 1 5 (by norm_num [gridC8]) (by norm_num [gridC8])
      (fun i j _ _ => rfl) 0 0 (by norm_num [gridC8]) (by norm_num [gridC8])⟩

/-- Witness for claim C6 at a concrete input. -/
theorem claim_C6_witness :
    ((0 : ℚ) < 1 ∧ 0 < gridC5.r ∧ 0 < gridC5.c) ∧
    (∃ tq, percentileNQ (flattenQ gridC5) = some tq ∧
      tq = pct98 (finiteVals (flattenQ gridC5)) ∧
      ∀ i j, i < gridC5.r → j < gridC5.c →
        ∃ q out, gridC5.v i j = some q ∧ (dampSpikes 1 gridC5).v i j = some out ∧
          (tq < q → out = max (q * (95 / 100)) tq ∧ tq ≤ out) ∧
          (¬ tq < q → out = q) ∧
          (∀ i2 j2, i2 < gridC5.r → j2 < gridC5.c → ∀ q2 out2, gridC5.v i2 j2 = some q2 →
            (dampSpikes 1 gridC5).v i2 j2 = some out2 →
            tq < q → tq < q2 → q2 ≤ q → out2 ≤ out)) :=
  ⟨⟨by norm_num, by norm_num [gridC5], by norm_num [gridC5]⟩,
    claim_C6_damping gridC5 1 (by norm_num) (by norm_num [gridC5]) (by norm_num [gridC5])
      (fun i j _ _ => rfl)⟩

/-! ## The mesh builder: create_obj_mesh (lines 111-300)

The three aligned input arrays become one structure; the `.obj` text output is
abstracted to the data it serializes: the ordered vertex list (the `v` lines),
the ordered face list (the `f` lines, triples of 1-based indices), and the
counters the function returns.  The vertex-index map of lines 192-199 is built
by the same sequential left fold over the row-major cell order, with `-1` for
`NaN` cells, exactly as in the source. -/

/-- The aligned `lon_grid`, `lat_grid`, `height_grid` inputs. -/
structure SurfaceData : Type where
  r : Nat
  c : Nat
  lon : Nat → Nat → ℚ
  lat : Nat → Nat → ℚ
  hgt : Nat → Nat → NQ

/-- A vertex `(x, y, z)` as written on a `v` line. -/
abbrev Vtx : Type := ℚ × ℚ × ℚ

/-- A face as written on an `f` line: three 1-based vertex indices. -/
abbrev ObjFace : Type := Nat × Nat × Nat

/-- The row-major traversal order of the nested `for i / for j` loops. -/
def cellList (r c : Nat) : List (Nat × Nat) :=
  lflat (fun i => (rng c).map (fun j => (i, j))) (rng r)

/-- A cell that has geometry: `not np.isnan(z_coords[i, j])`. -/
def validCell (d : SurfaceData) (p : Nat × Nat) : Prop := (d.hgt p.1 p.2).isSome = true

instance (d : SurfaceData) : DecidablePred (validCell d) := fun p =>
  inferInstanceAs (Decidable ((d.hgt p.1 p.2).isSome = true))

/-- The reduction `arr.min()` over a finite float array (coordinate grids carry
no `NaN`, so this is a plain fold; empty arrays do not occur). -/
def qListMin : List ℚ → ℚ
  | [] => 0
  | a :: l => l.foldl min a

/-- Scaled and shifted x coordinate (lines 152, 157): `lon * xy_scale`, then
shifted so the minimum over all cells is 0. -/
def xCoord (d : SurfaceData) (s : ℚ) (i j : Nat) : ℚ :=
  d.lon i j * s - qListMin ((cellList d.r d.c).map fun p => d.lon p.1 p.2 * s)

/-- Scaled and shifted y coordinate (lines 153, 158). -/
def yCoord (d : SurfaceData) (s : ℚ) (i j : Nat) : ℚ :=
  d.lat i j * s - qListMin ((cellList d.r d.c).map fun p => d.lat p.1 p.2 * s)

/-- Top-surface vertices (lines 171-177): one per valid cell, row-major. -/
def topVerts (d : SurfaceData) (s : ℚ) : List Vtx :=
  lflat
    (fun p => if validCell d p then
      [(xCoord d s p.1 p.2, yCoord d s p.1 p.2, (d.hgt p.1 p.2).getD 0)] else [])
    (cellList d.r d.c)

/-- Base vertices (lines 182-188): the same cells at `z = 0`. -/
def baseVerts (d : SurfaceData) (s : ℚ) : List Vtx :=
  lflat
    (fun p => if validCell d p then [(xCoord d s p.1 p.2, yCoord d s p.1 p.2, (0 : ℚ))] else [])
    (cellList d.r d.c)

/-- The number of top-surface vertices (the value of `vertex_count` at line 179). -/
def top_vertex_count (d : SurfaceData) : Nat := ccount (validCell d) (cellList d.r d.c)

/-- One step of the vertex-map loop of lines 195-199. -/
def vmapStep (d : SurfaceData) (acc : (Nat → Nat → Int) × Int) (p : Nat × Nat) :
    (Nat → Nat → Int) × Int :=
  if validCell d p then
    ((fun i j => if i = p.1 ∧ j = p.2 then acc.2 else acc.1 i j), acc.2 + 1)
  else acc

/-- The vertex-index map (lines 192-199): `-1` everywhere, then the valid cells
are numbered 1, 2, ... in row-major order. -/
def vertex_map (d : SurfaceData) : Nat → Nat → Int :=
  ((cellList d.r d.c).foldl (vmapStep d) ((fun _ _ => -1), 1)).1

/-- The two top-surface triangles of one quad (lines 204-216), emitted only when
all four corners are valid.  The emitted indices are the (positive) map values. -/
def topQuadFaces (m : Nat → Nat → Int) (i j : Nat) : List ObjFace :=
  if 0 < m i j ∧ 0 < m i (j + 1) ∧ 0 < m (i + 1) (j + 1) ∧ 0 < m (i + 1) j then
    [((m i j).toNat, (m i (j + 1)).toNat, (m (i + 1) (j + 1)).toNat),
     ((m i j).toNat, (m (i + 1) (j + 1)).toNat, (m (i + 1) j).toNat)]
  else []

/-- The two base triangles of one quad (lines 221-236), with reversed order and
indices offset by `base_vertex_start - 1`. -/
def baseQuadFaces (m : Nat → Nat → Int) (bs : Nat) (i j : Nat) : List ObjFace :=
  if 0 < m i j ∧ 0 < m i (j + 1) ∧ 0 < m (i + 1) (j + 1) ∧ 0 < m (i + 1) j then
    [((m i j + bs - 1).toNat, (m (i + 1) (j + 1) + bs - 1).toNat, (m i (j + 1) + bs - 1).toNat),
     ((m i j + bs - 1).toNat, (m (i + 1) j + bs - 1).toNat, (m (i + 1) (j + 1) + bs - 1).toNat)]
  else []

/-- Front-edge wall faces (lines 241-249), row 0. -/
def frontWallFaces (m : Nat → Nat → Int) (bs : Nat) (j : Nat) : List ObjFace :=
  if 0 < m 0 j ∧ 0 < m 0 (j + 1) then
    [((m 0 j).toNat, (m 0 j + bs - 1).toNat, (m 0 (j + 1) + bs - 1).toNat),
     ((m 0 j).toNat, (m 0 (j + 1) + bs - 1).toNat, (m 0 (j + 1)).toNat)]
  else []

/-- Back-edge wall faces (lines 252-260), row `nrows - 1`. -/
def backWallFaces (m : Nat → Nat → Int) (r bs : Nat) (j : Nat) : List ObjFace :=
  if 0 < m (r - 1) j ∧ 0 < m (r - 1) (j + 1) then
    [((m (r - 1) j).toNat, (m (r - 1) (j + 1)).toNat, (m (r - 1) (j + 1) + bs - 1).toNat),
     ((m (r - 1) j).toNat, (m (r - 1) (j + 1) + bs - 1).toNat, (m (r - 1) j + bs - 1).toNat)]
  else []

/-- Left-edge wall faces (lines 263-271), column 0. -/
def leftWallFaces (m : Nat → Nat → Int) (bs : Nat) (i : Nat) : List ObjFace :=
  if 0 < m i 0 ∧ 0 < m (i + 1) 0 then
    [((m i 0).toNat, (m (i + 1) 0).toNat, (m (i + 1) 0 + bs - 1).toNat),
     ((m i 0).toNat, (m (i + 1) 0 + bs - 1).toNat, (m i 0 + bs - 1).toNat)]
  else []

/-- Right-edge wall faces (lines 274-282), column `ncols - 1`. -/
def rightWallFaces (m : Nat → Nat → Int) (c bs : Nat) (i : Nat) : List ObjFace :=
  if 0 < m i (c - 1) ∧ 0 < m (i + 1) (c - 1) then
    [((m i (c - 1)).toNat, (m (i + 1) (c - 1) + bs - 1).toNat, (m (i + 1) (c - 1)).toNat),
     ((m i (c - 1)).toNat, (m i (c - 1) + bs - 1).toNat, (m (i + 1) (c - 1) + bs - 1).toNat)]
  else []

/-- The complete emitted face list: top quads, then (when `add_base`) base
quads and the four walls, in source order. -/
def allFaces (d : SurfaceData) (add_base : Bool) : List ObjFace :=
  lflat (fun i => lflat (fun j => topQuadFaces (vertex_map d) i j) (rng (d.c - 1)))
      (rng (d.r - 1)) ++
    (if add_base then
      lflat (fun i => lflat (fun j => baseQuadFaces (vertex_map d) (top_vertex_count d + 1) i j)
        (rng (d.c - 1))) (rng (d.r - 1)) ++
      lflat (fun j => frontWallFaces (vertex_map d) (top_vertex_count d + 1) j) (rng (d.c - 1)) ++
      lflat (fun j => backWallFaces (vertex_map d) d.r (top_vertex_count d + 1) j)
        (rng (d.c - 1)) ++
      lflat (fun i => leftWallFaces (vertex_map d) (top_vertex_count d + 1) i) (rng (d.r - 1)) ++
      lflat (fun i => rightWallFaces (vertex_map d) d.c (top_vertex_count d + 1) i)
        (rng (d.r - 1))
    else [])

/-- The serialized mesh: vertex lines, face lines, the returned counters, and
the recorded `base_vertex_start` (line 179). -/
structure MeshOut : Type where
  verts : List Vtx
  faces : List ObjFace
  vertex_count : Nat
  face_count : Nat
  base_vertex_start : Nat

/-- The mesh-emission part of `create_obj_mesh` (lines 148-300), after any
cropping.  The returned counters count the emitted `v` and `f` lines. -/
def buildMesh (d : SurfaceData) (s : ℚ) (add_base : Bool) : MeshOut :=
  { verts := topVerts d s ++ (if add_base then baseVerts d s else [])
    faces := allFaces d add_base
    vertex_count := (topVerts d s ++ (if add_base then baseVerts d s else [])).length
    face_count := (allFaces d add_base).length
    base_vertex_start := top_vertex_count d + 1 }

/-- The coordinate-window mask of lines 132-133 (with the line 129-130
defaults for an absent range). -/
def cropMask (d : SurfaceData) (lonR latR : Option (ℚ × ℚ)) (i j : Nat) : Prop :=
  (lonR.getD (-180, 180)).1 ≤ d.lon i j ∧ d.lon i j ≤ (lonR.getD (-180, 180)).2 ∧
  (latR.getD (-90, 90)).1 ≤ d.lat i j ∧ d.lat i j ≤ (latR.getD (-90, 90)).2

instance (d : SurfaceData) (lonR latR : Option (ℚ × ℚ)) (i j : Nat) :
    Decidable (cropMask d lonR latR i j) :=
  inferInstanceAs (Decidable (_ ∧ _ ∧ _ ∧ _))

/-- `np.where(mask.any(axis=1))[0]`: the rows containing a masked cell. -/
def maskRows (d : SurfaceData) (lonR latR : Option (ℚ × ℚ)) : List Nat :=
  (rng d.r).filter fun i => decide (∃ j ∈ rng d.c, cropMask d lonR latR i j)

/-- `np.where(mask.any(axis=0))[0]`: the columns containing a masked cell. -/
def maskCols (d : SurfaceData) (lonR latR : Option (ℚ × ℚ)) : List Nat :=
  (rng d.c).filter fun j => decide (∃ i ∈ rng d.r, cropMask d lonR latR i j)

def natListMin : List Nat → Nat
  | [] => 0
  | a :: l => l.foldl min a

def natListMax : List Nat → Nat
  | [] => 0
  | a :: l => l.foldl max a

/-- The region extraction of lines 128-146: `None` models the early
`return` after `ERROR: No data in specified range`. -/
def cropData (d : SurfaceData) (lonR latR : Option (ℚ × ℚ)) : Option SurfaceData :=
  let rows := maskRows d lonR latR
  let cols := maskCols d lonR latR
  if rows = [] ∨ cols = [] then none
  else
    some
      { r := natListMax rows - natListMin rows + 1
        c := natListMax cols - natListMin cols + 1
        lon := fun i j => d.lon (natListMin rows + i) (natListMin cols + j)
        lat := fun i j => d.lat (natListMin rows + i) (natListMin cols + j)
        hgt := fun i j => d.hgt (natListMin rows + i) (natListMin cols + j) }

/-- create_obj_mesh: optional crop (when any range is given, python's
`if lon_range or lat_range`), then mesh emission; `none` models the early
return on an empty region. -/
def create_obj_mesh (d : SurfaceData) (lonR latR : Option (ℚ × ℚ)) (s : ℚ)
    (add_base : Bool) : Option MeshOut :=
  if lonR.isSome ∨ latR.isSome then
    match cropData d lonR latR with
    | none => none
    | some d2 => some (buildMesh d2 s add_base)
  else some (buildMesh d s add_base)

/-! ## Characterizing the vertex-index map -/

theorem vmapStep_valid (d : SurfaceData) (m : Nat → Nat → Int) (k : Int)
    (p : Nat × Nat) (hp : validCell d p) :
    vmapStep d (m, k) p = ((fun i j => if i = p.1 ∧ j = p.2 then k else m i j), k + 1) := by
  unfold vmapStep
  rw [if_pos hp]

theorem vmapStep_invalid (d : SurfaceData) (m : Nat → Nat → Int) (k : Int)
    (p : Nat × Nat) (hp : ¬ validCell d p) : vmapStep d (m, k) p = (m, k) := by
  unfold vmapStep
  rw [if_neg hp]

theorem vmapFold_snd (d : SurfaceData) :
    ∀ (l : List (Nat × Nat)) (m : Nat → Nat → Int) (k : Int),
      (l.foldl (vmapStep d) (m, k)).2 = k + (ccount (validCell d) l : Int) := by
  intro l
  induction l with
  | nil => intro m k; simp [ccount]
  | cons p l ih =>
    intro m k
    rw [List.foldl_cons]
    by_cases hp : validCell d p
    · rw [vmapStep_valid d m k p hp, ih]
      simp [ccount, hp]
      push_cast
      ring
    · rw [vmapStep_invalid d m k p hp, ih]
      simp [ccount, hp]

theorem vmapFold_untouched (d : SurfaceData) {i j : Nat} :
    ∀ (l : List (Nat × Nat)) (m : Nat → Nat → Int) (k : Int),
      (∀ q ∈ l, ¬(i = q.1 ∧ j = q.2)) →
      (l.foldl (vmapStep d) (m, k)).1 i j = m i j := by
  intro l
  induction l with
  | nil => intro m k _; rfl
  | cons p l ih =>
    intro m k hn
    rw [List.foldl_cons]
    by_cases hp : validCell d p
    · rw [vmapStep_valid d m k p hp, ih _ _ fun q hq => hn q (by simp [hq])]
      show (if i = p.1 ∧ j = p.2 then k else m i j) = m i j
      rw [if_neg (hn p (by simp))]
    · rw [vmapStep_invalid d m k p hp]
      exact ih _ _ fun q hq => hn q (by simp [hq])

theorem vmapFold_get (d : SurfaceData) {i j : Nat} (l1 l2 : List (Nat × Nat))
    (m : Nat → Nat → Int) (k : Int) (hv : validCell d (i, j))
    (hafter : ∀ q ∈ l2, ¬(i = q.1 ∧ j = q.2)) :
    ((l1 ++ (i, j) :: l2).foldl (vmapStep d) (m, k)).1 i j =
      k + (ccount (validCell d) l1 : Int) := by
  rw [List.foldl_append]
  obtain ⟨m1, k1, hmk⟩ : ∃ m1 k1, l1.foldl (vmapStep d) (m, k) = (m1, k1) :=
    ⟨_, _, rfl⟩
  have hsnd := vmapFold_snd d l1 m k
  rw [hmk] at hsnd ⊢
  simp only at hsnd
  rw [List.foldl_cons, vmapStep_valid d m1 k1 (i, j) hv,
    vmapFold_untouched d l2 _ _ hafter]
  simp only [and_self, if_pos]
  rw [← hsnd]

theorem vmapFold_invalid (d : SurfaceData) {i j : Nat} (hv : ¬ validCell d (i, j)) :
    ∀ (l : List (Nat × Nat)) (m : Nat → Nat → Int) (k : Int),
      (l.foldl (vmapStep d) (m, k)).1 i j = m i j := by
  intro l
  induction l with
  | nil => intro m k; rfl
  | cons p l ih =>
    intro m k
    rw [List.foldl_cons]
    by_cases hp : validCell d p
    · rw [vmapStep_valid d m k p hp, ih]
      show (if i = p.1 ∧ j = p.2 then k else m i j) = m i j
      rw [if_neg]
      intro ⟨h1, h2⟩
      apply hv
      have heq : (i, j) = p := by
        cases p
        simp at h1 h2 ⊢
        exact ⟨h1, h2⟩
      rwa [heq]
    · rw [vmapStep_invalid d m k p hp]
      exact ih _ _

/-! ## Splitting the row-major cell list at a given cell -/

theorem rng_split (n t : Nat) (h : t < n) :
    rng n = rng t ++ t :: (rng (n - t - 1)).map (fun k => t + 1 + k) := by
  induction n with
  | zero => omega
  | succ m ih =>
    rcases Nat.lt_or_ge t m with hm | hm
    · rw [show rng (m + 1) = rng m ++ [m] from rfl, ih hm]
      have hm1 : m + 1 - t - 1 = (m - t - 1) + 1 := by omega
      rw [hm1, show rng ((m - t - 1) + 1) = rng (m - t - 1) ++ [m - t - 1] from rfl]
      simp [List.map_append, List.append_assoc]
      omega
    · have ht : t = m := by omega
      subst ht
      rw [show rng (t + 1) = rng t ++ [t] from rfl]
      simp [show t + 1 - t - 1 = 0 from by omega, rng]

/-- The cells the row-major loop visits before `(i, j)`. -/
def cellsBefore (c i j : Nat) : List (Nat × Nat) :=
  lflat (fun i2 => (rng c).map (fun j2 => (i2, j2))) (rng i) ++ (rng j).map (fun j2 => (i, j2))

/-- The cells visited after `(i, j)`. -/
def cellsAfter (r c i j : Nat) : List (Nat × Nat) :=
  (rng (c - j - 1)).map (fun k => (i, j + 1 + k)) ++
    lflat (fun i2 => (rng c).map (fun j2 => (i2, j2))) ((rng (r - i - 1)).map (fun k => i + 1 + k))

theorem cellList_split (r c i j : Nat) (hi : i < r) (hj : j < c) :
    cellList r c = cellsBefore c i j ++ (i, j) :: cellsAfter r c i j := by
  unfold cellList cellsBefore cellsAfter
  rw [rng_split r i hi, lflat_append]
  rw [show ∀ (f : Nat → List (Nat × Nat)) (x : Nat) (l : List Nat),
    lflat f (x :: l) = f x ++ lflat f l from fun f x l => rfl]
  rw [rng_split c j hj]
  simp only [List.map_append, List.map_cons, List.map_map, List.append_assoc,
    List.cons_append, Function.comp]
  rfl

theorem mem_cellsAfter {r c i j : Nat} {q : Nat × Nat} (hq : q ∈ cellsAfter r c i j) :
    ¬ (i = q.1 ∧ j = q.2) := by
  unfold cellsAfter at hq
  rcases List.mem_append.mp hq with hq1 | hq2
  · rcases List.mem_map.mp hq1 with ⟨k, _, rfl⟩
    simp
    omega
  · rcases mem_lflat.mp hq2 with ⟨i2, hi2, hq3⟩
    rcases List.mem_map.mp hi2 with ⟨k, _, rfl⟩
    rcases List.mem_map.mp hq3 with ⟨j2, _, rfl⟩
    simp
    omega

theorem ccount_of_all {α : Type} (P : α → Prop) [DecidablePred P] (l : List α)
    (h : ∀ a ∈ l, P a) : ccount P l = l.length := by
  induction l with
  | nil => rfl
  | cons a l ih =>
    simp only [ccount, if_pos (h a (by simp)), List.length_cons]
    rw [ih fun a ha => h a (by simp [ha])]
    omega

theorem cellList_length (r c : Nat) : (cellList r c).length = c * r := by
  unfold cellList
  rw [length_lflat_const _ _ c fun a _ => by simp [length_rng], length_rng]

theorem cellsBefore_length (c i j : Nat) : (cellsBefore c i j).length = c * i + j := by
  unfold cellsBefore
  rw [List.length_append, length_lflat_const _ _ c fun a _ => by simp [length_rng],
    length_rng, List.length_map, length_rng]

/-- The sequential numbering of lines 195-199: the map value at a valid cell is
one more than the number of valid cells that precede it in row-major order. -/
theorem vertex_map_valid (d : SurfaceData) {i j : Nat} (hi : i < d.r) (hj : j < d.c)
    (hv : validCell d (i, j)) :
    vertex_map d i j = 1 + (ccount (validCell d) (cellsBefore d.c i j) : Int) := by
  unfold vertex_map
  rw [cellList_split d.r d.c i j hi hj]
  exact vmapFold_get d _ _ _ _ hv fun q hq => mem_cellsAfter hq

theorem vertex_map_invalid (d : SurfaceData) {i j : Nat} (hv : ¬ validCell d (i, j)) :
    vertex_map d i j = -1 := by
  unfold vertex_map
  exact vmapFold_invalid d hv _ _ _

/-- A positive map value certifies a valid (non-`NaN`) cell. -/
theorem validCell_of_vmap_pos (d : SurfaceData) {i j : Nat}
    (h : 0 < vertex_map d i j) : validCell d (i, j) := by
  by_contra hv
  rw [vertex_map_invalid d hv] at h
  omega

/-- Bounds on the map value at a valid in-range cell: it is a legal 1-based
index into the block of top-surface vertices. -/
theorem vertex_map_bounds (d : SurfaceData) {i j : Nat} (hi : i < d.r) (hj : j < d.c)
    (hv : validCell d (i, j)) :
    1 ≤ vertex_map d i j ∧ vertex_map d i j ≤ (top_vertex_count d : Int) := by
  rw [vertex_map_valid d hi hj hv]
  constructor
  · omega
  · unfold top_vertex_count
    rw [cellList_split d.r d.c i j hi hj, ccount_append]
    have : ccount (validCell d) ((i, j) :: cellsAfter d.r d.c i j) =
        1 + ccount (validCell d) (cellsAfter d.r d.c i j) := by
      simp [ccount, if_pos hv]
    rw [this]
    push_cast
    omega

/-- On an all-finite grid the map is the closed-form row-major numbering. -/
theorem vertex_map_allfinite (d : SurfaceData)
    (hfin : ∀ i j, i < d.r → j < d.c → (d.hgt i j).isSome = true)
    {i j : Nat} (hi : i < d.r) (hj : j < d.c) :
    vertex_map d i j = ((i * d.c + j + 1 : Nat) : Int) := by
  rw [vertex_map_valid d hi hj (hfin i j hi hj)]
  have hall : ∀ q ∈ cellsBefore d.c i j, validCell d q := by
    intro q hq
    unfold cellsBefore at hq
    rcases List.mem_append.mp hq with h1 | h2
    · rcases mem_lflat.mp h1 with ⟨i2, hi2, hq2⟩
      rcases List.mem_map.mp hq2 with ⟨j2, hj2, rfl⟩
      exact hfin i2 j2 (by have := mem_rng.mp hi2; omega) (mem_rng.mp hj2)
    · rcases List.mem_map.mp h2 with ⟨j2, hj2, rfl⟩
      exact hfin i j2 hi (by have := mem_rng.mp hj2; omega)
  rw [ccount_of_all _ _ hall, cellsBefore_length]
  push_cast
  ring

theorem top_vertex_count_allfinite (d : SurfaceData)
    (hfin : ∀ i j, i < d.r → j < d.c → (d.hgt i j).isSome = true) :
    top_vertex_count d = d.r * d.c := by
  unfold top_vertex_count
  rw [ccount_of_all _ _ fun q hq => by
    unfold cellList at hq
    rcases mem_lflat.mp hq with ⟨i2, hi2, hq2⟩
    rcases List.mem_map.mp hq2 with ⟨j2, hj2, rfl⟩
    exact hfin i2 j2 (mem_rng.mp hi2) (mem_rng.mp hj2)]
  rw [cellList_length]
  ring

theorem length_lflat_ifsingle {α β : Type} (P : α → Prop) [DecidablePred P]
    (f : α → β) (l : List α) :
    (lflat (fun a => if P a then [f a] else []) l).length = ccount P l := by
  induction l with
  | nil => rfl
  | cons a l ih =>
    simp only [lflat, List.length_append, ccount, ih]
    by_cases h : P a
    · rw [if_pos h, if_pos h]; rfl
    · rw [if_neg h, if_neg h]; rfl

theorem topVerts_length (d : SurfaceData) (s : ℚ) :
    (topVerts d s).length = top_vertex_count d :=
  length_lflat_ifsingle _ _ _

theorem baseVerts_length (d : SurfaceData) (s : ℚ) :
    (baseVerts d s).length = top_vertex_count d :=
  length_lflat_ifsingle _ _ _

/-! ## Claim C9: empty crop region -/

/-- Claim C9.  When a crop window is requested (`lon_range or lat_range`
truthy) and no in-range cell satisfies the coordinate mask — equivalently, no
row and no column contains a masked cell — `create_obj_mesh` surfaces the
empty-region condition: it returns `none` (the source prints
`ERROR: No data in specified range` and returns early, emitting no mesh)
instead of building a degenerate mesh. -/
theorem claim_C9_empty_region (d : SurfaceData) (lonR latR : Option (ℚ × ℚ)) (s : ℚ)
    (add_base : Bool) (hsome : lonR.isSome = true ∨ latR.isSome = true)
    (hmask : ∀ i j, i < d.r → j < d.c → ¬ cropMask d lonR latR i j) :
    create_obj_mesh d lonR latR s add_base = none := by
  have hrows : maskRows d lonR latR = [] := by
    unfold maskRows
    refine List.filter_eq_nil_iff.mpr ?_
    intro i hi
    simp only [decide_eq_true_eq, Bool.not_eq_true, decide_eq_false_iff_not]
    rintro ⟨j, hj, hm⟩
    exact hmask i j (mem_rng.mp hi) (mem_rng.mp hj) hm
  have hcrop : cropData d lonR latR = none := by
    unfold cropData
    rw [if_pos (Or.inl hrows)]
  unfold create_obj_mesh
  rw [if_pos hsome, hcrop]

/-! ## Claim C10: vertex and face counts on a full finite grid -/

theorem vertex_map_pos_allfinite (d : SurfaceData)
    (hfin : ∀ i j, i < d.r → j < d.c → (d.hgt i j).isSome = true)
    {i j : Nat} (hi : i < d.r) (hj : j < d.c) : 0 < vertex_map d i j := by
  rw [vertex_map_allfinite d hfin hi hj]
  exact_mod_cast Nat.succ_pos _

/-- Claim C10.  On an all-finite grid with at least 2 rows and columns and no
crop window, `create_obj_mesh` with `add_base = true` emits exactly `2*r*c`
vertices and `4*(r-1)*(c-1) + 4*(r-1) + 4*(c-1)` triangles, and the returned
counter pair equals the emitted list lengths. -/
theorem claim_C10_counts (d : SurfaceData) (s : ℚ) (hr : 2 ≤ d.r) (hc : 2 ≤ d.c)
    (hfin : ∀ i j, i < d.r → j < d.c → (d.hgt i j).isSome = true)
    (m : MeshOut) (hm : create_obj_mesh d none none s true = some m) :
    m.vertex_count = 2 * (d.r * d.c) ∧
    m.face_count = 4 * ((d.r - 1) * (d.c - 1)) + 4 * (d.r - 1) + 4 * (d.c - 1) ∧
    m.verts.length = m.vertex_count ∧ m.faces.length = m.face_count := by
  unfold create_obj_mesh at hm
  rw [if_neg (by simp)] at hm
  have hmm : m = buildMesh d s true := (Option.some.inj hm).symm
  subst hmm
  have hpos : ∀ i j, i < d.r → j < d.c → 0 < vertex_map d i j := fun i j hi hj =>
    vertex_map_pos_allfinite d hfin hi hj
  have htopq : ∀ i ∈ rng (d.r - 1), ∀ j ∈ rng (d.c - 1),
      (topQuadFaces (vertex_map d) i j).length = 2 := by
    intro i hi j hj
    have hi2 := mem_rng.mp hi
    have hj2 := mem_rng.mp hj
    unfold topQuadFaces
    rw [if_pos ⟨hpos i j (by omega) (by omega), hpos i (j + 1) (by omega) (by omega),
      hpos (i + 1) (j + 1) (by omega) (by omega), hpos (i + 1) j (by omega) (by omega)⟩]
    rfl
  have hbaseq : ∀ i ∈ rng (d.r - 1), ∀ j ∈ rng (d.c - 1),
      (baseQuadFaces (vertex_map d) (top_vertex_count d + 1) i j).length = 2 := by
    intro i hi j hj
    have hi2 := mem_rng.mp hi
    have hj2 := mem_rng.mp hj
    unfold baseQuadFaces
    rw [if_pos ⟨hpos i j (by omega) (by omega), hpos i (j + 1) (by omega) (by omega),
      hpos (i + 1) (j + 1) (by omega) (by omega), hpos (i + 1) j (by omega) (by omega)⟩]
    rfl
  have hfrontq : ∀ j ∈ rng (d.c - 1),
      (frontWallFaces (vertex_map d) (top_vertex_count d + 1) j).length = 2 := by
    intro j hj
    have hj2 := mem_rng.mp hj
    unfold frontWallFaces
    rw [if_pos ⟨hpos 0 j (by omega) (by omega), hpos 0 (j + 1) (by omega) (by omega)⟩]
    rfl
  have hbackq : ∀ j ∈ rng (d.c - 1),
      (backWallFaces (vertex_map d) d.r (top_vertex_count d + 1) j).length = 2 := by
    intro j hj
    have hj2 := mem_rng.mp hj
    unfold backWallFaces
    rw [if_pos ⟨hpos (d.r - 1) j (by omega) (by omega),
      hpos (d.r - 1) (j + 1) (by omega) (by omega)⟩]
    rfl
  have hleftq : ∀ i ∈ rng (d.r - 1),
      (leftWallFaces (vertex_map d) (top_vertex_count d + 1) i).length = 2 := by
    intro i hi
    have hi2 := mem_rng.mp hi
    unfold leftWallFaces
    rw [if_pos ⟨hpos i 0 (by omega) (by omega), hpos (i + 1) 0 (by omega) (by omega)⟩]
    rfl
  have hrightq : ∀ i ∈ rng (d.r - 1),
      (rightWallFaces (vertex_map d) d.c (top_vertex_count d + 1) i).length = 2 := by
    intro i hi
    have hi2 := mem_rng.mp hi
    unfold rightWallFaces
    rw [if_pos ⟨hpos i (d.c - 1) (by omega) (by omega),
      hpos (i + 1) (d.c - 1) (by omega) (by omega)⟩]
    rfl
  have hfaces : (allFaces d true).length =
      4 * ((d.r - 1) * (d.c - 1)) + 4 * (d.r - 1) + 4 * (d.c - 1) := by
    unfold allFaces
    simp only [eq_self_iff_true, if_true, List.length_append]
    rw [length_lflat_const _ _ (2 * (d.c - 1)) fun i hi => by
        rw [length_lflat_const _ _ 2 fun j hj => htopq i hi j hj, length_rng]]
    rw [length_lflat_const _ _ (2 * (d.c - 1)) fun i hi => by
        rw [length_lflat_const _ _ 2 fun j hj => hbaseq i hi j hj, length_rng]]
    rw [length_lflat_const _ _ 2 hfrontq, length_lflat_const _ _ 2 hbackq,
      length_lflat_const _ _ 2 hleftq, length_lflat_const _ _ 2 hrightq]
    simp only [length_rng]
    ring
  have hverts : (topVerts d s ++ (if true = true then baseVerts d s else [])).length =
      2 * (d.r * d.c) := by
    rw [if_pos rfl, List.length_append, topVerts_length, baseVerts_length,
      top_vertex_count_allfinite d hfin]
    ring
  exact ⟨hverts, hfaces, rfl, rfl⟩

theorem vertex_map_oor (d : SurfaceData) {i j : Nat} (h : d.r ≤ i ∨ d.c ≤ j) :
    vertex_map d i j = -1 := by
  unfold vertex_map
  apply vmapFold_untouched
  intro q hq
  unfold cellList at hq
  rcases mem_lflat.mp hq with ⟨i2, hi2, hq2⟩
  rcases List.mem_map.mp hq2 with ⟨j2, hj2, rfl⟩
  have := mem_rng.mp hi2
  have := mem_rng.mp hj2
  simp only []
  omega

theorem vmap_pos_lt (d : SurfaceData) {i j : Nat} (h : 0 < vertex_map d i j) :
    i < d.r ∧ j < d.c := by
  by_contra hc
  push_neg at hc
  rcases Nat.lt_or_ge i d.r with h1 | h1
  · rw [vertex_map_oor d (Or.inr (hc h1))] at h
    omega
  · rw [vertex_map_oor d (Or.inl h1)] at h
    omega

/-! ## Claims C3 and C4: face indices -/

/-- The three 1-based indices on one `f` line. -/
def faceIdx (f : ObjFace) : List Nat := [f.1, f.2.1, f.2.2]

/-- An index is "good" when it is the top index of some valid in-range cell,
or (with a base) that cell's base index at the fixed offset. -/
def goodIdx (d : SurfaceData) (ab : Bool) (k : Nat) : Prop :=
  ∃ i j, i < d.r ∧ j < d.c ∧ validCell d (i, j) ∧
    (k = (vertex_map d i j).toNat ∨
      (ab = true ∧ k = (vertex_map d i j).toNat + top_vertex_count d))

theorem goodIdx_top (d : SurfaceData) (ab : Bool) {i j : Nat} (hi : i < d.r)
    (hj : j < d.c) (hpos : 0 < vertex_map d i j) :
    goodIdx d ab ((vertex_map d i j).toNat) :=
  ⟨i, j, hi, hj, validCell_of_vmap_pos d hpos, Or.inl rfl⟩

theorem goodIdx_base (d : SurfaceData) {i j : Nat} (hi : i < d.r)
    (hj : j < d.c) (hpos : 0 < vertex_map d i j) :
    goodIdx d true ((vertex_map d i j + ((top_vertex_count d + 1 : Nat) : Int) - 1).toNat) := by
  refine ⟨i, j, hi, hj, validCell_of_vmap_pos d hpos, Or.inr ⟨rfl, ?_⟩⟩
  omega

/-- Every index of every emitted face is good.  This is the central index
invariant: faces reference only indices assigned to valid (non-`NaN`) cells,
and base-block indices arise only via the fixed `base_vertex_start - 1` offset
and only when `add_base` is set. -/
theorem allFaces_goodIdx (d : SurfaceData) (ab : Bool) :
    ∀ f ∈ allFaces d ab, ∀ k ∈ faceIdx f, goodIdx d ab k := by
  intro f hf k hk
  simp only [allFaces] at hf
  rcases List.mem_append.mp hf with htop | hrest
  · -- top-surface faces
    rcases mem_lflat.mp htop with ⟨i, hi, h2⟩
    rcases mem_lflat.mp h2 with ⟨j, hj, h3⟩
    have hi2 := mem_rng.mp hi
    have hj2 := mem_rng.mp hj
    unfold topQuadFaces at h3
    split at h3
    case isTrue hcond =>
      obtain ⟨h1, hv2, hv3, hv4⟩ := hcond
      simp only [List.mem_cons, List.not_mem_nil, or_false] at h3
      rcases h3 with rfl | rfl <;>
        (simp only [faceIdx, List.mem_cons, List.not_mem_nil, or_false] at hk) <;>
        rcases hk with rfl | rfl | rfl <;>
        first
          | exact goodIdx_top d ab (by omega) (by omega) h1
          | exact goodIdx_top d ab (by omega) (by omega) hv2
          | exact goodIdx_top d ab (by omega) (by omega) hv3
          | exact goodIdx_top d ab (by omega) (by omega) hv4
    case isFalse => simp at h3
  · -- base and wall faces exist only when add_base is set
    have hab : ab = true := by
      cases ab
      · simp at hrest
      · rfl
    subst hab
    rw [if_pos rfl] at hrest
    rcases List.mem_append.mp hrest with hrest2 | hright
    rcases List.mem_append.mp hrest2 with hrest3 | hleft
    rcases List.mem_append.mp hrest3 with hrest4 | hback
    rcases List.mem_append.mp hrest4 with hbase | hfront
    · -- base faces
      rcases mem_lflat.mp hbase with ⟨i, hi, h2⟩
      rcases mem_lflat.mp h2 with ⟨j, hj, h3⟩
      have hi2 := mem_rng.mp hi
      have hj2 := mem_rng.mp hj
      unfold baseQuadFaces at h3
      split at h3
      case isTrue hcond =>
        obtain ⟨h1, hv2, hv3, hv4⟩ := hcond
        simp only [List.mem_cons, List.not_mem_nil, or_false] at h3
        rcases h3 with rfl | rfl <;>
          (simp only [faceIdx, List.mem_cons, List.not_mem_nil, or_false] at hk) <;>
          rcases hk with rfl | rfl | rfl <;>
          first
            | exact goodIdx_base d (by omega) (by omega) h1
            | exact goodIdx_base d (by omega) (by omega) hv2
            | exact goodIdx_base d (by omega) (by omega) hv3
            | exact goodIdx_base d (by omega) (by omega) hv4
      case isFalse => simp at h3
    · -- front wall
      rcases mem_lflat.mp hfront with ⟨j, hj, h3⟩
      have hj2 := mem_rng.mp hj
      unfold frontWallFaces at h3
      split at h3
      case isTrue hcond =>
        obtain ⟨h1, hv2⟩ := hcond
        have hb1 := vmap_pos_lt d h1
        have hb2 := vmap_pos_lt d hv2
        obtain ⟨hb11, hb12⟩ := hb1
        obtain ⟨hb21, hb22⟩ := hb2
        simp only [List.mem_cons, List.not_mem_nil, or_false] at h3
        rcases h3 with rfl | rfl <;>
          (simp only [faceIdx, List.mem_cons, List.not_mem_nil, or_false] at hk) <;>
          rcases hk with rfl | rfl | rfl <;>
          first
            | exact goodIdx_top d true (by omega) (by omega) h1
            | exact goodIdx_top d true (by omega) (by omega) hv2
            | exact goodIdx_base d (by omega) (by omega) h1
            | exact goodIdx_base d (by omega) (by omega) hv2
      case isFalse => simp at h3
    · -- back wall
      rcases mem_lflat.mp hback with ⟨j, hj, h3⟩
      have hj2 := mem_rng.mp hj
      unfold backWallFaces at h3
      split at h3
      case isTrue hcond =>
        obtain ⟨h1, hv2⟩ := hcond
        have hb1 := vmap_pos_lt d h1
        have hb2 := vmap_pos_lt d hv2
        obtain ⟨hb11, hb12⟩ := hb1
        obtain ⟨hb21, hb22⟩ := hb2
        simp only [List.mem_cons, List.not_mem_nil, or_false] at h3
        rcases h3 with rfl | rfl <;>
          (simp only [faceIdx, List.mem_cons, List.not_mem_nil, or_false] at hk) <;>
          rcases hk with rfl | rfl | rfl <;>
          first
            | exact goodIdx_top d true (by omega) (by omega) h1
            | exact goodIdx_top d true (by omega) (by omega) hv2
            | exact goodIdx_base d (by omega) (by omega) h1
            | exact goodIdx_base d (by omega) (by omega) hv2
      case isFalse => simp at h3
    · -- left wall
      rcases mem_lflat.mp hleft with ⟨i, hi, h3⟩
      have hi2 := mem_rng.mp hi
      unfold leftWallFaces at h3
      split at h3
      case isTrue hcond =>
        obtain ⟨h1, hv2⟩ := hcond
        have hb1 := vmap_pos_lt d h1
        have hb2 := vmap_pos_lt d hv2
        obtain ⟨hb11, hb12⟩ := hb1
        obtain ⟨hb21, hb22⟩ := hb2
        simp only [List.mem_cons, List.not_mem_nil, or_false] at h3
        rcases h3 with rfl | rfl <;>
          (simp only [faceIdx, List.mem_cons, List.not_mem_nil, or_false] at hk) <;>
          rcases hk with rfl | rfl | rfl <;>
          first
            | exact goodIdx_top d true (by omega) (by omega) h1
            | exact goodIdx_top d true (by omega) (by omega) hv2
            | exact goodIdx_base d (by omega) (by omega) h1
            | exact goodIdx_base d (by omega) (by omega) hv2
      case isFalse => simp at h3
    · -- right wall
      rcases mem_lflat.mp hright with ⟨i, hi, h3⟩
      have hi2 := mem_rng.mp hi
      unfold rightWallFaces at h3
      split at h3
      case isTrue hcond =>
        obtain ⟨h1, hv2⟩ := hcond
        have hb1 := vmap_pos_lt d h1
        have hb2 := vmap_pos_lt d hv2
        obtain ⟨hb11, hb12⟩ := hb1
        obtain ⟨hb21, hb22⟩ := hb2
        simp only [List.mem_cons, List.not_mem_nil, or_false] at h3
        rcases h3 with rfl | rfl <;>
          (simp only [faceIdx, List.mem_cons, List.not_mem_nil, or_false] at hk) <;>
          rcases hk with rfl | rfl | rfl <;>
          first
            | exact goodIdx_top d true (by omega) (by omega) h1
            | exact goodIdx_top d true (by omega) (by omega) hv2
            | exact goodIdx_base d (by omega) (by omega) h1
            | exact goodIdx_base d (by omega) (by omega) hv2
      case isFalse => simp at h3

theorem create_obj_mesh_some {d : SurfaceData} {lonR latR : Option (ℚ × ℚ)} {s : ℚ}
    {ab : Bool} {m : MeshOut} (hm : create_obj_mesh d lonR latR s ab = some m) :
    ∃ d2, m = buildMesh d2 s ab := by
  unfold create_obj_mesh at hm
  split at hm
  · cases hcd : cropData d lonR latR with
    | none => rw [hcd] at hm; simp at hm
    | some d2 =>
      rw [hcd] at hm
      exact ⟨d2, (Option.some.inj hm).symm⟩
  · exact ⟨d, (Option.some.inj hm).symm⟩

/-- Claim C4.  Every index on every emitted face line is a 1-based index of a
previously emitted vertex: it lies in `[1, vertex_count]`, indices of the base
block occur only when `add_base` is set, and every index is the (top or
offset base) index assigned to a valid cell — never one derived from a `NaN`
cell (those have map value `-1` and are filtered out by the `> 0` guards). -/
theorem claim_C4_face_indices (d : SurfaceData) (lonR latR : Option (ℚ × ℚ)) (s : ℚ)
    (ab : Bool) (m : MeshOut) (hm : create_obj_mesh d lonR latR s ab = some m) :
    ∃ d2, m = buildMesh d2 s ab ∧
      ∀ f ∈ m.faces, ∀ k ∈ faceIdx f,
        1 ≤ k ∧ k ≤ m.vertex_count ∧
        (ab = false → k ≤ top_vertex_count d2) ∧
        ∃ i j, i < d2.r ∧ j < d2.c ∧ validCell d2 (i, j) ∧
          (k = (vertex_map d2 i j).toNat ∨
            (ab = true ∧ k = (vertex_map d2 i j).toNat + top_vertex_count d2)) := by
  obtain ⟨d2, rfl⟩ := create_obj_mesh_some hm
  refine ⟨d2, rfl, ?_⟩
  intro f hf k hk
  obtain ⟨i, j, hi, hj, hv, hk2⟩ := allFaces_goodIdx d2 ab f hf k hk
  have hb := vertex_map_bounds d2 hi hj hv
  have hvc : (buildMesh d2 s ab).vertex_count =
      top_vertex_count d2 + (if ab = true then top_vertex_count d2 else 0) := by
    show (topVerts d2 s ++ (if ab = true then baseVerts d2 s else [])).length = _
    cases ab
    · simp [topVerts_length]
    · simp [topVerts_length, baseVerts_length]
  refine ⟨?_, ?_, ?_, i, j, hi, hj, hv, hk2⟩
  · rcases hk2 with h | ⟨_, h⟩ <;> omega
  · rw [hvc]
    rcases hk2 with h | ⟨hab, h⟩
    · split <;> omega
    · rw [hab, if_pos rfl]
      omega
  · intro hab
    rcases hk2 with h | ⟨hab2, _⟩
    · omega
    · rw [hab] at hab2
      exact absurd hab2 (by simp)

/-- Claim C3.  In every mesh emitted with `add_base = true`,
`base_vertex_start` is the top-surface vertex count plus one, and every face
index beyond the top block is exactly `top_index + base_vertex_start - 1` for
the valid cell it belongs to — the fixed-offset derivation, never an
independently assigned index. -/
theorem claim_C3_base_offset (d : SurfaceData) (lonR latR : Option (ℚ × ℚ)) (s : ℚ)
    (m : MeshOut) (hm : create_obj_mesh d lonR latR s true = some m) :
    ∃ d2, m = buildMesh d2 s true ∧
      m.base_vertex_start = top_vertex_count d2 + 1 ∧
      (topVerts d2 s).length = top_vertex_count d2 ∧
      ∀ f ∈ m.faces, ∀ k ∈ faceIdx f, top_vertex_count d2 < k →
        ∃ i j, i < d2.r ∧ j < d2.c ∧ validCell d2 (i, j) ∧
          k = (vertex_map d2 i j).toNat + m.base_vertex_start - 1 := by
  obtain ⟨d2, rfl⟩ := create_obj_mesh_some hm
  refine ⟨d2, rfl, rfl, topVerts_length d2 s, ?_⟩
  intro f hf k hk hgt
  obtain ⟨i, j, hi, hj, hv, hk2⟩ := allFaces_goodIdx d2 true f hf k hk
  have hb := vertex_map_bounds d2 hi hj hv
  refine ⟨i, j, hi, hj, hv, ?_⟩
  show k = (vertex_map d2 i j).toNat + (top_vertex_count d2 + 1) - 1
  rcases hk2 with h | ⟨_, h⟩ <;> omega

/-! ## Concrete mesh instances, and witnesses for C3, C4, C9, C10 -/

/-- A 2x2 all-finite surface: longitude ascending in the column, latitude
descending in the row (as `reshape_to_grid` produces), constant height 1. -/
def gridM : SurfaceData :=
  ⟨2, 2, fun _ j => (j : ℚ), fun i _ => -(i : ℚ), fun _ _ => some 1⟩

theorem claim_C10_witness :
    (2 ≤ gridM.r ∧ 2 ≤ gridM.c) ∧
    ((buildMesh gridM 1 true).vertex_count = 2 * (gridM.r * gridM.c) ∧
      (buildMesh gridM 1 true).face_count =
        4 * ((gridM.r - 1) * (gridM.c - 1)) + 4 * (gridM.r - 1) + 4 * (gridM.c - 1) ∧
      (buildMesh gridM 1 true).verts.length = (buildMesh gridM 1 true).vertex_count ∧
      (buildMesh gridM 1 true).faces.length = (buildMesh gridM 1 true).face_count) :=
  ⟨⟨by norm_num [gridM], by norm_num [gridM]⟩,
    claim_C10_counts gridM 1 (by norm_num [gridM]) (by norm_num [gridM])
      (fun i j _ _ => rfl) (buildMesh gridM 1 true) (by rfl)⟩

theorem claim_C9_witness :
    ((some ((100 : ℚ), (110 : ℚ))).isSome = true ∨
      (none : Option (ℚ × ℚ)).isSome = true) ∧
    create_obj_mesh gridM (some (100, 110)) none 1 true = none :=
  ⟨Or.inl rfl,
    claim_C9_empty_region gridM (some (100, 110)) none 1 true (Or.inl rfl)
      (by
        intro i j _ hj
        intro hmk
        obtain ⟨h1, _⟩ := hmk
        have hj1 : j ≤ 1 := by
          have : j < gridM.c := hj
          simp [gridM] at this
          omega
        have hjq : (j : ℚ) ≤ 1 := by exact_mod_cast hj1
        simp only [gridM, Option.getD] at h1
        linarith)⟩

theorem claim_C4_witness :
    create_obj_mesh gridM none none 1 true = some (buildMesh gridM 1 true) ∧
    (∃ d2, buildMesh gridM 1 true = buildMesh d2 1 true ∧
      ∀ f ∈ (buildMesh gridM 1 true).faces, ∀ k ∈ faceIdx f,
        1 ≤ k ∧ k ≤ (buildMesh gridM 1 true).vertex_count ∧
        (true = false → k ≤ top_vertex_count d2) ∧
        ∃ i j, i < d2.r ∧ j < d2.c ∧ validCell d2 (i, j) ∧
          (k = (vertex_map d2 i j).toNat ∨
            (true = true ∧ k = (vertex_map d2 i j).toNat + top_vertex_count d2))) :=
  ⟨rfl, claim_C4_face_indices gridM none none 1 true (buildMesh gridM 1 true) rfl⟩

theorem claim_C3_witness :
    create_obj_mesh gridM none none 1 true = some (buildMesh gridM 1 true) ∧
    (∃ d2, buildMesh gridM 1 true = buildMesh d2 1 true ∧
      (buildMesh gridM 1 true).base_vertex_start = top_vertex_count d2 + 1 ∧
      (topVerts d2 1).length = top_vertex_count d2 ∧
      ∀ f ∈ (buildMesh gridM 1 true).faces, ∀ k ∈ faceIdx f, top_vertex_count d2 < k →
        ∃ i j, i < d2.r ∧ j < d2.c ∧ validCell d2 (i, j) ∧
          k = (vertex_map d2 i j).toNat + (buildMesh gridM 1 true).base_vertex_start - 1) :=
  ⟨rfl, claim_C3_base_offset gridM none none 1 (buildMesh gridM 1 true) rfl⟩

/-! ## Claim C2: the top-surface quad rule and its winding -/

theorem nthD_append_lt {α : Type} (l₁ l₂ : List α) (k : Nat) (d : α)
    (h : k < l₁.length) : nthD (l₁ ++ l₂) k d = nthD l₁ k d := by
  induction l₁ generalizing k with
  | nil => simp at h
  | cons a l ih =>
    cases k with
    | zero => rfl
    | succ m => exact ih m (by simpa using h)

/-- Twice the signed area of the triangle a face spans, projected to the
xy-plane, reading the vertex positions from the emitted vertex list (1-based
indices).  Positive means counter-clockwise as seen from above (+z normal,
right-handed axes); negative means clockwise (downward normal). -/
def faceSignedArea (verts : List Vtx) (f : ObjFace) : ℚ :=
  ((nthD verts (f.2.1 - 1) (0, 0, 0)).1 - (nthD verts (f.1 - 1) (0, 0, 0)).1) *
      ((nthD verts (f.2.2 - 1) (0, 0, 0)).2.1 - (nthD verts (f.1 - 1) (0, 0, 0)).2.1) -
    ((nthD verts (f.2.2 - 1) (0, 0, 0)).1 - (nthD verts (f.1 - 1) (0, 0, 0)).1) *
      ((nthD verts (f.2.1 - 1) (0, 0, 0)).2.1 - (nthD verts (f.1 - 1) (0, 0, 0)).2.1)

/-- The emitted vertex list, read back at a valid cell's 1-based index, yields
that cell's coordinates. -/
theorem mesh_vertex_at (d : SurfaceData) (s : ℚ) (ab : Bool) {i j : Nat}
    (hi : i < d.r) (hj : j < d.c) (hv : validCell d (i, j)) :
    nthD ((buildMesh d s ab).verts) ((vertex_map d i j).toNat - 1) (0, 0, 0) =
      (xCoord d s i j, yCoord d s i j, (d.hgt i j).getD 0) := by
  have hsplit := cellList_split d.r d.c i j hi hj
  have hidx : (vertex_map d i j).toNat - 1 = ccount (validCell d) (cellsBefore d.c i j) := by
    have := vertex_map_valid d hi hj hv
    omega
  have htop : topVerts d s =
      lflat (fun p => if validCell d p then
        [(xCoord d s p.1 p.2, yCoord d s p.1 p.2, (d.hgt p.1 p.2).getD 0)] else [])
        (cellsBefore d.c i j) ++
      (xCoord d s i j, yCoord d s i j, (d.hgt i j).getD 0) ::
      lflat (fun p => if validCell d p then
        [(xCoord d s p.1 p.2, yCoord d s p.1 p.2, (d.hgt p.1 p.2).getD 0)] else [])
        (cellsAfter d.r d.c i j) := by
    unfold topVerts
    rw [hsplit, lflat_append]
    rw [show ∀ (f : Nat × Nat → List Vtx) (x : Nat × Nat) (l : List (Nat × Nat)),
      lflat f (x :: l) = f x ++ lflat f l from fun f x l => rfl]
    rw [if_pos hv]
    rfl
  have hlen : (lflat (fun p => if validCell d p then
      [(xCoord d s p.1 p.2, yCoord d s p.1 p.2, (d.hgt p.1 p.2).getD 0)] else [])
      (cellsBefore d.c i j)).length = ccount (validCell d) (cellsBefore d.c i j) :=
    length_lflat_ifsingle _ _ _
  show nthD (topVerts d s ++ (if ab = true then baseVerts d s else [])) _ _ = _
  rw [hidx, nthD_append_lt, htop, ← hlen, nthD_append_left]
  · rw [htop]
    simp only [List.length_append, List.length_cons]
    omega

/-- Claim C2, amended.  For grids whose rows are latitude-descending and
columns longitude-ascending (latitude constant along a row, longitude
constant along a column, positive horizontal scale), the top-surface pass
emits, for each 2x2 quad with all four corners valid, exactly the two
triangles that split the quad along the `(i,j)-(i+1,j+1)` diagonal — and
their winding, seen from above, is CLOCKWISE (negative signed area, downward
normal), not counter-clockwise as claimed; if any corner is a `NaN` hole the
quad contributes no triangle at all. -/
theorem claim_C2_amended (d : SurfaceData) (s : ℚ)
    (hlatrow : ∀ i j1 j2, d.lat i j1 = d.lat i j2)
    (hloncol : ∀ i1 i2 j, d.lon i1 j = d.lon i2 j)
    (hdesc : ∀ i, i + 1 < d.r → d.lat (i + 1) 0 < d.lat i 0)
    (hasc : ∀ j, j + 1 < d.c → d.lon 0 j < d.lon 0 (j + 1))
    (hs : 0 < s) (ab : Bool) (i j : Nat) (hi : i + 1 < d.r) (hj : j + 1 < d.c) :
    (validCell d (i, j) ∧ validCell d (i, j + 1) ∧ validCell d (i + 1, j + 1) ∧
        validCell d (i + 1, j) →
      topQuadFaces (vertex_map d) i j =
        [((vertex_map d i j).toNat, (vertex_map d i (j + 1)).toNat,
            (vertex_map d (i + 1) (j + 1)).toNat),
          ((vertex_map d i j).toNat, (vertex_map d (i + 1) (j + 1)).toNat,
            (vertex_map d (i + 1) j).toNat)] ∧
      faceSignedArea ((buildMesh d s ab).verts)
        ((vertex_map d i j).toNat, (vertex_map d i (j + 1)).toNat,
          (vertex_map d (i + 1) (j + 1)).toNat) < 0 ∧
      faceSignedArea ((buildMesh d s ab).verts)
        ((vertex_map d i j).toNat, (vertex_map d (i + 1) (j + 1)).toNat,
          (vertex_map d (i + 1) j).toNat) < 0) ∧
    (¬ (validCell d (i, j) ∧ validCell d (i, j + 1) ∧ validCell d (i + 1, j + 1) ∧
        validCell d (i + 1, j)) →
      topQuadFaces (vertex_map d) i j = []) := by
  constructor
  · rintro ⟨hv1, hv2, hv3, hv4⟩
    have hp1 := (vertex_map_bounds d (by omega) (by omega) hv1).1
    have hp2 := (vertex_map_bounds d (by omega) (by omega) hv2).1
    have hp3 := (vertex_map_bounds d (by omega) (by omega) hv3).1
    have hp4 := (vertex_map_bounds d (by omega) (by omega) hv4).1
    have hxeq : xCoord d s (i + 1) (j + 1) = xCoord d s i (j + 1) := by
      unfold xCoord
      rw [hloncol (i + 1) i (j + 1)]
    have hxeq2 : xCoord d s (i + 1) j = xCoord d s i j := by
      unfold xCoord
      rw [hloncol (i + 1) i j]
    have hyeq : yCoord d s i (j + 1) = yCoord d s i j := by
      unfold yCoord
      rw [hlatrow i (j + 1) j]
    have hyeq2 : yCoord d s (i + 1) (j + 1) = yCoord d s (i + 1) j := by
      unfold yCoord
      rw [hlatrow (i + 1) (j + 1) j]
    have hxlt : xCoord d s i j < xCoord d s i (j + 1) := by
      unfold xCoord
      have h1 : d.lon i j = d.lon 0 j := hloncol i 0 j
      have h2 : d.lon i (j + 1) = d.lon 0 (j + 1) := hloncol i 0 (j + 1)
      rw [h1, h2]
      have := hasc j hj
      nlinarith
    have hylt : yCoord d s (i + 1) j < yCoord d s i j := by
      unfold yCoord
      have h1 : d.lat (i + 1) j = d.lat (i + 1) 0 := hlatrow (i + 1) j 0
      have h2 : d.lat i j = d.lat i 0 := hlatrow i j 0
      rw [h1, h2]
      have := hdesc i hi
      nlinarith
    have harea1 : faceSignedArea ((buildMesh d s ab).verts)
        ((vertex_map d i j).toNat, (vertex_map d i (j + 1)).toNat,
          (vertex_map d (i + 1) (j + 1)).toNat) < 0 := by
      unfold faceSignedArea
      rw [show ((vertex_map d i j).toNat, (vertex_map d i (j + 1)).toNat,
          (vertex_map d (i + 1) (j + 1)).toNat).1 = (vertex_map d i j).toNat from rfl]
      rw [mesh_vertex_at d s ab (by omega) (by omega) hv1,
        mesh_vertex_at d s ab (by omega) (by omega) hv2,
        mesh_vertex_at d s ab (by omega) (by omega) hv3]
      dsimp only
      rw [hxeq, hyeq, hyeq2]
      nlinarith
    have harea2 : faceSignedArea ((buildMesh d s ab).verts)
        ((vertex_map d i j).toNat, (vertex_map d (i + 1) (j + 1)).toNat,
          (vertex_map d (i + 1) j).toNat) < 0 := by
      unfold faceSignedArea
      rw [show ((vertex_map d i j).toNat, (vertex_map d (i + 1) (j + 1)).toNat,
          (vertex_map d (i + 1) j).toNat).1 = (vertex_map d i j).toNat from rfl]
      rw [mesh_vertex_at d s ab (by omega) (by omega) hv1,
        mesh_vertex_at d s ab (by omega) (by omega) hv3,
        mesh_vertex_at d s ab (by omega) (by omega) hv4]
      dsimp only
      rw [hxeq, hxeq2, hyeq2]
      nlinarith
    refine ⟨?_, harea1, harea2⟩
    unfold topQuadFaces
    rw [if_pos ⟨by omega, by omega, by omega, by omega⟩]
  · intro hnv
    unfold topQuadFaces
    rw [if_neg]
    intro ⟨h1, h2, h3, h4⟩
    exact hnv ⟨validCell_of_vmap_pos d h1, validCell_of_vmap_pos d h2,
      validCell_of_vmap_pos d h3, validCell_of_vmap_pos d h4⟩

/-- Counterexample to claim C2 as stated.  On a 2x2 grid with rows ordered
latitude-descending (latitudes 0, -1) and columns longitude-ascending
(longitudes 0, 1), `xy_scale = 1`, the first emitted top-surface triangle is
`(1, 2, 4)` and its projected signed area is `-1 < 0`: the winding as seen
from above is clockwise (downward normal), not counter-clockwise as claimed. -/
theorem claim_C2_cex :
    topQuadFaces (vertex_map gridM) 0 0 = [(1, 2, 4), (1, 4, 3)] ∧
    faceSignedArea (buildMesh gridM 1 true).verts (1, 2, 4) = -1 ∧
    ¬ (0 < faceSignedArea (buildMesh gridM 1 true).verts (1, 2, 4)) := by
  refine ⟨by decide, ?_, ?_⟩
  · norm_num [faceSignedArea, buildMesh, topVerts, baseVerts, xCoord, yCoord, qListMin,
      cellList, lflat, rng, List.map, List.foldl, gridM, nthD, min_def, validCell]
  · norm_num [faceSignedArea, buildMesh, topVerts, baseVerts, xCoord, yCoord, qListMin,
      cellList, lflat, rng, List.map, List.foldl, gridM, nthD, min_def, validCell]

/-- Witness for the amended claim C2 at a concrete input. -/
theorem claim_C2_witness :
    ((0 : ℚ) < 1 ∧ 0 + 1 < gridM.r ∧ 0 + 1 < gridM.c) ∧
    ((validCell gridM (0, 0) ∧ validCell gridM (0, 0 + 1) ∧
        validCell gridM (0 + 1, 0 + 1) ∧ validCell gridM (0 + 1, 0) →
      topQuadFaces (vertex_map gridM) 0 0 =
        [((vertex_map gridM 0 0).toNat, (vertex_map gridM 0 (0 + 1)).toNat,
            (vertex_map gridM (0 + 1) (0 + 1)).toNat),
          ((vertex_map gridM 0 0).toNat, (vertex_map gridM (0 + 1) (0 + 1)).toNat,
            (vertex_map gridM (0 + 1) 0).toNat)] ∧
      faceSignedArea ((buildMesh gridM 1 true).verts)
        ((vertex_map gridM 0 0).toNat, (vertex_map gridM 0 (0 + 1)).toNat,
          (vertex_map gridM (0 + 1) (0 + 1)).toNat) < 0 ∧
      faceSignedArea ((buildMesh gridM 1 true).verts)
        ((vertex_map gridM 0 0).toNat, (vertex_map gridM (0 + 1) (0 + 1)).toNat,
          (vertex_map gridM (0 + 1) 0).toNat) < 0) ∧
    (¬ (validCell gridM (0, 0) ∧ validCell gridM (0, 0 + 1) ∧
        validCell gridM (0 + 1, 0 + 1) ∧ validCell gridM (0 + 1, 0)) →
      topQuadFaces (vertex_map gridM) 0 0 = [])) :=
  ⟨⟨by norm_num, by norm_num [gridM], by norm_num [gridM]⟩,
    claim_C2_amended gridM 1 (fun i j1 j2 => rfl) (fun i1 i2 j => rfl)
      (by intro i _; show -(((i + 1 : Nat) : ℚ)) < -((i : Nat) : ℚ); push_cast; linarith)
      (by intro j _; show ((j : Nat) : ℚ) < ((j + 1 : Nat) : ℚ); push_cast; linarith)
      (by norm_num) true 0 0 (by norm_num [gridM]) (by norm_num [gridM])⟩

/-! ## Claim C1: the all-finite closed-mesh (manifold) property

Strategy: on an all-finite grid the emitted face list is the image, under the
index encoding `(layer, i, j) -> i*c + j + 1 + layer*r*c`, of a structured
face list over symbolic vertices `(layer, row, col)`.  Edge-sharing is counted
at the structured level, where every undirected edge's triangle count is
computed family by family and shown to be 0 or 2 by case analysis on the
edge's shape; injectivity of the encoding transfers the count to the emitted
integer indices. -/

/-- A structured mesh vertex: (layer, row, column), layer 0 = top, 1 = base. -/
abbrev SV : Type := Nat × Nat × Nat

/-- Top vertex of a cell. -/
def tv (i j : Nat) : SV := (0, i, j)

/-- Base vertex of a cell. -/
def bv (i j : Nat) : SV := (1, i, j)

def sTopA (i j : Nat) : SV × SV × SV := (tv i j, tv i (j + 1), tv (i + 1) (j + 1))

def sTopB (i j : Nat) : SV × SV × SV := (tv i j, tv (i + 1) (j + 1), tv (i + 1) j)

def sBaseA (i j : Nat) : SV × SV × SV := (bv i j, bv (i + 1) (j + 1), bv i (j + 1))

def sBaseB (i j : Nat) : SV × SV × SV := (bv i j, bv (i + 1) j, bv (i + 1) (j + 1))

def sFrontA (j : Nat) : SV × SV × SV := (tv 0 j, bv 0 j, bv 0 (j + 1))

def sFrontB (j : Nat) : SV × SV × SV := (tv 0 j, bv 0 (j + 1), tv 0 (j + 1))

def sBackA (r j : Nat) : SV × SV × SV := (tv (r - 1) j, tv (r - 1) (j + 1), bv (r - 1) (j + 1))

def sBackB (r j : Nat) : SV × SV × SV := (tv (r - 1) j, bv (r - 1) (j + 1), bv (r - 1) j)

def sLeftA (i : Nat) : SV × SV × SV := (tv i 0, tv (i + 1) 0, bv (i + 1) 0)

def sLeftB (i : Nat) : SV × SV × SV := (tv i 0, bv (i + 1) 0, bv i 0)

def sRightA (c i : Nat) : SV × SV × SV := (tv i (c - 1), bv (i + 1) (c - 1), tv (i + 1) (c - 1))

def sRightB (c i : Nat) : SV × SV × SV := (tv i (c - 1), bv i (c - 1), bv (i + 1) (c - 1))

/-- Two interleaved per-quad contributions over a 2-D index range. -/
def quad2 {α : Type} (A B : Nat → Nat → α) (m n : Nat) : List α :=
  lflat (fun i => lflat (fun j => [A i j, B i j]) (rng n)) (rng m)

/-- Two interleaved contributions over a 1-D index range. -/
def wall2 {α : Type} (A B : Nat → α) (n : Nat) : List α :=
  lflat (fun j => [A j, B j]) (rng n)

/-- The structured counterpart of the all-finite face list, in source order. -/
def sFaces (r c : Nat) : List (SV × SV × SV) :=
  quad2 sTopA sTopB (r - 1) (c - 1) ++ quad2 sBaseA sBaseB (r - 1) (c - 1) ++
    wall2 sFrontA sFrontB (c - 1) ++ wall2 (sBackA r) (sBackB r) (c - 1) ++
    wall2 sLeftA sLeftB (r - 1) ++ wall2 (sRightA c) (sRightB c) (r - 1)

/-- The unordered pair `{u, v}` equals the unordered pair `{a, b}`. -/
def epair (u v a b : SV) : Prop := (u = a ∧ v = b) ∨ (u = b ∧ v = a)

/-- The triangle `t` has `{a, b}` among its three undirected edges. -/
def sHas (t : SV × SV × SV) (a b : SV) : Prop :=
  epair t.1 t.2.1 a b ∨ epair t.2.1 t.2.2 a b ∨ epair t.2.2 t.1 a b

instance (u v a b : SV) : Decidable (epair u v a b) :=
  inferInstanceAs (Decidable (_ ∨ _))

instance (t : SV × SV × SV) (a b : SV) : Decidable (sHas t a b) :=
  inferInstanceAs (Decidable (_ ∨ _ ∨ _))

/-- Number of indices `j < n` satisfying `P`. -/
def q1 (P : Nat → Prop) [DecidablePred P] (n : Nat) : Nat := ccount P (rng n)

/-- Number of index pairs `i < m`, `j < n` satisfying `P`. -/
def q2 (P : Nat → Nat → Prop) [∀ i j, Decidable (P i j)] : Nat → Nat → Nat
  | 0, _ => 0
  | m + 1, n => q2 P m n + q1 (fun j => P m j) n

theorem q1_succ (P : Nat → Prop) [DecidablePred P] (n : Nat) :
    q1 P (n + 1) = q1 P n + (if P n then 1 else 0) := by
  unfold q1
  rw [show rng (n + 1) = rng n ++ [n] from rfl, ccount_append]
  simp [ccount]

theorem ccount_congr {α : Type} {P Q : α → Prop} [DecidablePred P] [DecidablePred Q]
    {l : List α} (h : ∀ x ∈ l, P x ↔ Q x) : ccount P l = ccount Q l := by
  induction l with
  | nil => rfl
  | cons a l ih =>
    unfold ccount
    rw [if_congr (h a (by simp)) rfl rfl, ih fun x hx => h x (by simp [hx])]

theorem ccount_wall2 {α : Type} (P : α → Prop) [DecidablePred P] (A B : Nat → α)
    (n : Nat) :
    ccount P (wall2 A B n) = q1 (fun j => P (A j)) n + q1 (fun j => P (B j)) n := by
  induction n with
  | zero => rfl
  | succ m ih =>
    unfold wall2
    rw [show rng (m + 1) = rng m ++ [m] from rfl, lflat_append, ccount_append]
    show ccount P (wall2 A B m) + ccount P ([A m, B m] ++ []) = _
    rw [ih, q1_succ, q1_succ]
    simp [ccount]
    omega

theorem ccount_quad2 {α : Type} (P : α → Prop) [DecidablePred P] (A B : Nat → Nat → α)
    (m n : Nat) :
    ccount P (quad2 A B m n) =
      q2 (fun i j => P (A i j)) m n + q2 (fun i j => P (B i j)) m n := by
  induction m with
  | zero => rfl
  | succ m2 ih =>
    unfold quad2
    rw [show rng (m2 + 1) = rng m2 ++ [m2] from rfl, lflat_append, ccount_append]
    show ccount P (quad2 A B m2 n) + ccount P (wall2 (A m2) (B m2) n ++ []) = _
    rw [ih, ccount_append, ccount_wall2]
    show _ = q2 _ m2 n + q1 _ n + (q2 _ m2 n + q1 _ n)
    simp [ccount]
    omega

theorem q1_eq (P : Nat → Prop) [DecidablePred P] (x : Nat) (h : ∀ j, P j ↔ j = x)
    (n : Nat) : q1 P n = if x < n then 1 else 0 := by
  induction n with
  | zero => rfl
  | succ m ih =>
    rw [q1_succ, ih]
    by_cases hm : m = x
    · subst hm
      rw [if_pos ((h m).mpr rfl), if_neg (by omega), if_pos (by omega)]
    · rw [if_neg (fun hp => hm ((h m).mp hp))]
      by_cases hx : x < m
      · rw [if_pos hx, if_pos (by omega)]
      · rw [if_neg hx, if_neg (by omega)]

theorem q1_zero (P : Nat → Prop) [DecidablePred P] (h : ∀ j, ¬ P j) (n : Nat) :
    q1 P n = 0 := by
  induction n with
  | zero => rfl
  | succ m ih => rw [q1_succ, ih, if_neg (h m)]

theorem q2_eq (P : Nat → Nat → Prop) [∀ i j, Decidable (P i j)] (x y : Nat)
    (h : ∀ i j, P i j ↔ (i = x ∧ j = y)) (m n : Nat) :
    q2 P m n = if x < m ∧ y < n then 1 else 0 := by
  induction m with
  | zero => simp [q2]
  | succ m2 ih =>
    show q2 P m2 n + q1 (fun j => P m2 j) n = _
    rw [ih]
    by_cases hm : m2 = x
    · subst hm
      rw [q1_eq _ y (fun j => by rw [h]; omega) n]
      by_cases hy : y < n
      · rw [if_neg (by omega), if_pos hy, if_pos (by omega)]
      · rw [if_neg (by omega), if_neg hy, if_neg (by omega)]
    · rw [q1_zero _ (fun j hp => hm ((h m2 j).mp hp).1) n]
      by_cases hx : x < m2 ∧ y < n
      · rw [if_pos hx, if_pos (by omega)]
      · rw [if_neg hx, if_neg (by omega)]

theorem q2_pt1 (P : Nat → Nat → Prop) [∀ i j, Decidable (P i j)] (x y : Nat)
    (h : ∀ i j, P i j ↔ (i = x ∧ j = y)) (m n : Nat) (hx : x < m) (hy : y < n) :
    q2 P m n = 1 := by
  rw [q2_eq P x y h m n, if_pos ⟨hx, hy⟩]

theorem q2_pt0 (P : Nat → Nat → Prop) [∀ i j, Decidable (P i j)] (x y : Nat)
    (h : ∀ i j, P i j ↔ (i = x ∧ j = y)) (m n : Nat) (hxy : ¬ (x < m ∧ y < n)) :
    q2 P m n = 0 := by
  rw [q2_eq P x y h m n, if_neg hxy]

theorem q2_none (P : Nat → Nat → Prop) [∀ i j, Decidable (P i j)]
    (h : ∀ i j, ¬ P i j) (m n : Nat) : q2 P m n = 0 := by
  induction m with
  | zero => rfl
  | succ m2 ih =>
    show q2 P m2 n + q1 (fun j => P m2 j) n = 0
    rw [ih, q1_zero _ (fun j => h m2 j) n]

theorem q1_pt1 (P : Nat → Prop) [DecidablePred P] (x : Nat) (h : ∀ j, P j ↔ j = x)
    (n : Nat) (hx : x < n) : q1 P n = 1 := by
  rw [q1_eq P x h n, if_pos hx]

theorem q1_pt0 (P : Nat → Prop) [DecidablePred P] (x : Nat) (h : ∀ j, P j ↔ j = x)
    (n : Nat) (hx : ¬ x < n) : q1 P n = 0 := by
  rw [q1_eq P x h n, if_neg hx]

/-- The triangle count of an edge over the whole structured face list, split
into the twelve per-family counts. -/
theorem sOcc_decomp (r c : Nat) (a b : SV) :
    ccount (fun t => sHas t a b) (sFaces r c) =
      q2 (fun i j => sHas (sTopA i j) a b) (r - 1) (c - 1) +
      q2 (fun i j => sHas (sTopB i j) a b) (r - 1) (c - 1) +
      q2 (fun i j => sHas (sBaseA i j) a b) (r - 1) (c - 1) +
      q2 (fun i j => sHas (sBaseB i j) a b) (r - 1) (c - 1) +
      q1 (fun j => sHas (sFrontA j) a b) (c - 1) +
      q1 (fun j => sHas (sFrontB j) a b) (c - 1) +
      q1 (fun j => sHas (sBackA r j) a b) (c - 1) +
      q1 (fun j => sHas (sBackB r j) a b) (c - 1) +
      q1 (fun i => sHas (sLeftA i) a b) (r - 1) +
      q1 (fun i => sHas (sLeftB i) a b) (r - 1) +
      q1 (fun i => sHas (sRightA c i) a b) (r - 1) +
      q1 (fun i => sHas (sRightB c i) a b) (r - 1) := by
  unfold sFaces
  rw [ccount_append, ccount_append, ccount_append, ccount_append, ccount_append,
    ccount_quad2, ccount_quad2, ccount_wall2, ccount_wall2, ccount_wall2, ccount_wall2]
  omega

theorem sHas_symm (t : SV × SV × SV) (a b : SV) : sHas t a b ↔ sHas t b a := by
  unfold sHas epair
  tauto

theorem sOcc_symm (r c : Nat) (a b : SV) :
    ccount (fun t => sHas t a b) (sFaces r c) =
      ccount (fun t => sHas t b a) (sFaces r c) :=
  ccount_congr fun t _ => sHas_symm t a b

/-- A horizontal top edge `{(0,i,j), (0,i,j+1)}` lies in exactly two faces. -/
theorem cnt_FF_east (r c i1 j1 : Nat) (hr : 2 ≤ r) (hc : 2 ≤ c)
    (hi : i1 < r) (hj : j1 + 1 < c) :
    ccount (fun t => sHas t (tv i1 j1) (tv i1 (j1 + 1))) (sFaces r c) = 2 := by
  rw [sOcc_decomp]
  rw [q2_none (fun i j => sHas (sBaseA i j) (tv i1 j1) (tv i1 (j1 + 1)))
      (fun i j => by simp [sHas, epair, sBaseA, tv, bv, Prod.ext_iff]) (r - 1) (c - 1),
    q2_none (fun i j => sHas (sBaseB i j) (tv i1 j1) (tv i1 (j1 + 1)))
      (fun i j => by simp [sHas, epair, sBaseB, tv, bv, Prod.ext_iff]) (r - 1) (c - 1),
    q1_zero (fun j => sHas (sFrontA j) (tv i1 j1) (tv i1 (j1 + 1)))
      (fun j => by simp [sHas, epair, sFrontA, tv, bv, Prod.ext_iff]) (c - 1),
    q1_zero (fun j => sHas (sBackB r j) (tv i1 j1) (tv i1 (j1 + 1)))
      (fun j => by simp [sHas, epair, sBackB, tv, bv, Prod.ext_iff]) (c - 1),
    q1_zero (fun i => sHas (sLeftB i) (tv i1 j1) (tv i1 (j1 + 1)))
      (fun i => by simp [sHas, epair, sLeftB, tv, bv, Prod.ext_iff]) (r - 1),
    q1_zero (fun i => sHas (sRightB c i) (tv i1 j1) (tv i1 (j1 + 1)))
      (fun i => by simp [sHas, epair, sRightB, tv, bv, Prod.ext_iff]) (r - 1),
    q1_zero (fun i => sHas (sLeftA i) (tv i1 j1) (tv i1 (j1 + 1)))
      (fun i => by simp [sHas, epair, sLeftA, tv, bv, Prod.ext_iff] <;> omega) (r - 1),
    q1_zero (fun i => sHas (sRightA c i) (tv i1 j1) (tv i1 (j1 + 1)))
      (fun i => by simp [sHas, epair, sRightA, tv, bv, Prod.ext_iff] <;> omega) (r - 1)]
  by_cases h0 : i1 = 0
  · rw [q2_pt1 (fun i j => sHas (sTopA i j) (tv i1 j1) (tv i1 (j1 + 1))) i1 j1
        (fun i j => by simp [sHas, epair, sTopA, tv, bv, Prod.ext_iff] <;> omega)
        (r - 1) (c - 1) (by omega) (by omega),
      q2_none (fun i j => sHas (sTopB i j) (tv i1 j1) (tv i1 (j1 + 1)))
        (fun i j => by simp [sHas, epair, sTopB, tv, bv, Prod.ext_iff] <;> omega)
        (r - 1) (c - 1),
      q1_pt1 (fun j => sHas (sFrontB j) (tv i1 j1) (tv i1 (j1 + 1))) j1
        (fun j => by simp [sHas, epair, sFrontB, tv, bv, Prod.ext_iff] <;> omega)
        (c - 1) (by omega),
      q1_zero (fun j => sHas (sBackA r j) (tv i1 j1) (tv i1 (j1 + 1)))
        (fun j => by simp [sHas, epair, sBackA, tv, bv, Prod.ext_iff] <;> omega) (c - 1)]
  by_cases hR : i1 = r - 1
  · rw [q2_pt0 (fun i j => sHas (sTopA i j) (tv i1 j1) (tv i1 (j1 + 1))) i1 j1
        (fun i j => by simp [sHas, epair, sTopA, tv, bv, Prod.ext_iff] <;> omega)
        (r - 1) (c - 1) (by omega),
      q2_pt1 (fun i j => sHas (sTopB i j) (tv i1 j1) (tv i1 (j1 + 1))) (i1 - 1) j1
        (fun i j => by simp [sHas, epair, sTopB, tv, bv, Prod.ext_iff] <;> omega)
        (r - 1) (c - 1) (by omega) (by omega),
      q1_zero (fun j => sHas (sFrontB j) (tv i1 j1) (tv i1 (j1 + 1)))
        (fun j => by simp [sHas, epair, sFrontB, tv, bv, Prod.ext_iff] <;> omega) (c - 1),
      q1_pt1 (fun j => sHas (sBackA r j) (tv i1 j1) (tv i1 (j1 + 1))) j1
        (fun j => by simp [sHas, epair, sBackA, tv, bv, Prod.ext_iff] <;> omega)
        (c - 1) (by omega)]
  · rw [q2_pt1 (fun i j => sHas (sTopA i j) (tv i1 j1) (tv i1 (j1 + 1))) i1 j1
        (fun i j => by simp [sHas, epair, sTopA, tv, bv, Prod.ext_iff] <;> omega)
        (r - 1) (c - 1) (by omega) (by omega),
      q2_pt1 (fun i j => sHas (sTopB i j) (tv i1 j1) (tv i1 (j1 + 1))) (i1 - 1) j1
        (fun i j => by simp [sHas, epair, sTopB, tv, bv, Prod.ext_iff] <;> omega)
        (r - 1) (c - 1) (by omega) (by omega),
      q1_zero (fun j => sHas (sFrontB j) (tv i1 j1) (tv i1 (j1 + 1)))
        (fun j => by simp [sHas, epair, sFrontB, tv, bv, Prod.ext_iff] <;> omega) (c - 1),
      q1_zero (fun j => sHas (sBackA r j) (tv i1 j1) (tv i1 (j1 + 1)))
        (fun j => by simp [sHas, epair, sBackA, tv, bv, Prod.ext_iff] <;> omega) (c - 1)]
/-- A vertical top edge lies in exactly two faces. -/
theorem cnt_FF_south (r c i1 j1 : Nat) (hr : 2 ≤ r) (hc : 2 ≤ c) (hi : i1 + 1 < r) (hj : j1 < c) :
    ccount (fun t => sHas t (tv i1 j1) (tv (i1 + 1) j1)) (sFaces r c) = 2 := by
  rw [sOcc_decomp]
  rw [q2_none (fun i j => sHas (sBaseA i j) (tv i1 j1) (tv (i1 + 1) j1))
      (fun i j => by simp [sHas, epair, sBaseA, tv, bv, Prod.ext_iff] <;> omega) (r - 1) (c - 1),
      q2_none (fun i j => sHas (sBaseB i j) (tv i1 j1) (tv (i1 + 1) j1))
      (fun i j => by simp [sHas, epair, sBaseB, tv, bv, Prod.ext_iff] <;> omega) (r - 1) (c - 1),
      q1_zero (fun j => sHas (sFrontA j) (tv i1 j1) (tv (i1 + 1) j1))
      (fun j => by simp [sHas, epair, sFrontA, tv, bv, Prod.ext_iff] <;> omega) (c - 1),
      q1_zero (fun j => sHas (sFrontB j) (tv i1 j1) (tv (i1 + 1) j1))
      (fun j => by simp [sHas, epair, sFrontB, tv, bv, Prod.ext_iff] <;> omega) (c - 1),
      q1_zero (fun j => sHas (sBackA r j) (tv i1 j1) (tv (i1 + 1) j1))
      (fun j => by simp [sHas, epair, sBackA, tv, bv, Prod.ext_iff] <;> omega) (c - 1),
      q1_zero (fun j => sHas (sBackB r j) (tv i1 j1) (tv (i1 + 1) j1))
      (fun j => by simp [sHas, epair, sBackB, tv, bv, Prod.ext_iff] <;> omega) (c - 1),
      q1_zero (fun i => sHas (sLeftB i) (tv i1 j1) (tv (i1 + 1) j1))
      (fun i => by simp [sHas, epair, sLeftB, tv, bv, Prod.ext_iff] <;> omega) (r - 1),
      q1_zero (fun i => sHas (sRightB c i) (tv i1 j1) (tv (i1 + 1) j1))
      (fun i => by simp [sHas, epair, sRightB, tv, bv, Prod.ext_iff] <;> omega) (r - 1)]
  by_cases h0 : j1 = 0
  · rw [q2_none (fun i j => sHas (sTopA i j) (tv i1 j1) (tv (i1 + 1) j1))
      (fun i j => by simp [sHas, epair, sTopA, tv, bv, Prod.ext_iff] <;> omega) (r - 1) (c - 1),
      q2_pt1 (fun i j => sHas (sTopB i j) (tv i1 j1) (tv (i1 + 1) j1)) i1 j1
      (fun i j => by simp [sHas, epair, sTopB, tv, bv, Prod.ext_iff] <;> omega) (r - 1) (c - 1) (by omega) (by omega),
      q1_pt1 (fun i => sHas (sLeftA i) (tv i1 j1) (tv (i1 + 1) j1)) i1
      (fun i => by simp [sHas, epair, sLeftA, tv, bv, Prod.ext_iff] <;> omega) (r - 1) (by omega),
      q1_zero (fun i => sHas (sRightA c i) (tv i1 j1) (tv (i1 + 1) j1))
      (fun i => by simp [sHas, epair, sRightA, tv, bv, Prod.ext_iff] <;> omega) (r - 1)]
  by_cases hC : j1 = c - 1
  · rw [q2_pt1 (fun i j => sHas (sTopA i j) (tv i1 j1) (tv (i1 + 1) j1)) i1 (j1 - 1)
      (fun i j => by simp [sHas, epair, sTopA, tv, bv, Prod.ext_iff] <;> omega) (r - 1) (c - 1) (by omega) (by omega),
      q2_pt0 (fun i j => sHas (sTopB i j) (tv i1 j1) (tv (i1 + 1) j1)) i1 j1
      (fun i j => by simp [sHas, epair, sTopB, tv, bv, Prod.ext_iff] <;> omega) (r - 1) (c - 1) (by omega),
      q1_zero (fun i => sHas (sLeftA i) (tv i1 j1) (tv (i1 + 1) j1))
      (fun i => by simp [sHas, epair, sLeftA, tv, bv, Prod.ext_iff] <;> omega) (r - 1),
      q1_pt1 (fun i => sHas (sRightA c i) (tv i1 j1) (tv (i1 + 1) j1)) i1
      (fun i => by simp [sHas, epair, sRightA, tv, bv, Prod.ext_iff] <;> omega) (r - 1) (by omega)]
  · rw [q2_pt1 (fun i j => sHas (sTopA i j) (tv i1 j1) (tv (i1 + 1) j1)) i1 (j1 - 1)
      (fun i j => by simp [sHas, epair, sTopA, tv, bv, Prod.ext_iff] <;> omega) (r - 1) (c - 1) (by omega) (by omega),
      q2_pt1 (fun i j => sHas (sTopB i j) (tv i1 j1) (tv (i1 + 1) j1)) i1 j1
      (fun i j => by simp [sHas, epair, sTopB, tv, bv, Prod.ext_iff] <;> omega) (r - 1) (c - 1) (by omega) (by omega),
      q1_zero (fun i => sHas (sLeftA i) (tv i1 j1) (tv (i1 + 1) j1))
      (fun i => by simp [sHas, epair, sLeftA, tv, bv, Prod.ext_iff] <;> omega) (r - 1),
      q1_zero (fun i => sHas (sRightA c i) (tv i1 j1) (tv (i1 + 1) j1))
      (fun i => by simp [sHas, epair, sRightA, tv, bv, Prod.ext_iff] <;> omega) (r - 1)]

/-- A diagonal top edge lies in exactly two faces (the two halves of its quad). -/
theorem cnt_FF_diag (r c i1 j1 : Nat) (hi : i1 + 1 < r) (hj : j1 + 1 < c) :
    ccount (fun t => sHas t (tv i1 j1) (tv (i1 + 1) (j1 + 1))) (sFaces r c) = 2 := by
  rw [sOcc_decomp]
  rw [q2_pt1 (fun i j => sHas (sTopA i j) (tv i1 j1) (tv (i1 + 1) (j1 + 1))) i1 j1
      (fun i j => by simp [sHas, epair, sTopA, tv, bv, Prod.ext_iff] <;> omega) (r - 1) (c - 1) (by omega) (by omega),
      q2_pt1 (fun i j => sHas (sTopB i j) (tv i1 j1) (tv (i1 + 1) (j1 + 1))) i1 j1
      (fun i j => by simp [sHas, epair, sTopB, tv, bv, Prod.ext_iff] <;> omega) (r - 1) (c - 1) (by omega) (by omega),
      q2_none (fun i j => sHas (sBaseA i j) (tv i1 j1) (tv (i1 + 1) (j1 + 1)))
      (fun i j => by simp [sHas, epair, sBaseA, tv, bv, Prod.ext_iff] <;> omega) (r - 1) (c - 1),
      q2_none (fun i j => sHas (sBaseB i j) (tv i1 j1) (tv (i1 + 1) (j1 + 1)))
      (fun i j => by simp [sHas, epair, sBaseB, tv, bv, Prod.ext_iff] <;> omega) (r - 1) (c - 1),
      q1_zero (fun j => sHas (sFrontA j) (tv i1 j1) (tv (i1 + 1) (j1 + 1)))
      (fun j => by simp [sHas, epair, sFrontA, tv, bv, Prod.ext_iff] <;> omega) (c - 1),
      q1_zero (fun j => sHas (sFrontB j) (tv i1 j1) (tv (i1 + 1) (j1 + 1)))
      (fun j => by simp [sHas, epair, sFrontB, tv, bv, Prod.ext_iff] <;> omega) (c - 1),
      q1_zero (fun j => sHas (sBackA r j) (tv i1 j1) (tv (i1 + 1) (j1 + 1)))
      (fun j => by simp [sHas, epair, sBackA, tv, bv, Prod.ext_iff] <;> omega) (c - 1),
      q1_zero (fun j => sHas (sBackB r j) (tv i1 j1) (tv (i1 + 1) (j1 + 1)))
      (fun j => by simp [sHas, epair, sBackB, tv, bv, Prod.ext_iff] <;> omega) (c - 1),
      q1_zero (fun i => sHas (sLeftA i) (tv i1 j1) (tv (i1 + 1) (j1 + 1)))
      (fun i => by simp [sHas, epair, sLeftA, tv, bv, Prod.ext_iff] <;> omega) (r - 1),
      q1_zero (fun i => sHas (sLeftB i) (tv i1 j1) (tv (i1 + 1) (j1 + 1)))
      (fun i => by simp [sHas, epair, sLeftB, tv, bv, Prod.ext_iff] <;> omega) (r - 1),
      q1_zero (fun i => sHas (sRightA c i) (tv i1 j1) (tv (i1 + 1) (j1 + 1)))
      (fun i => by simp [sHas, epair, sRightA, tv, bv, Prod.ext_iff] <;> omega) (r - 1),
      q1_zero (fun i => sHas (sRightB c i) (tv i1 j1) (tv (i1 + 1) (j1 + 1)))
      (fun i => by simp [sHas, epair, sRightB, tv, bv, Prod.ext_iff] <;> omega) (r - 1)]

/-- A top-top vertex pair that is not an emitted edge shape lies in no face. -/
theorem cnt_FF_none (r c i1 j1 i2 j2 : Nat) (h1 : ¬ (i1 = i2 ∧ j2 = j1 + 1)) (h2 : ¬ (i1 = i2 ∧ j1 = j2 + 1))
    (h3 : ¬ (j1 = j2 ∧ i2 = i1 + 1)) (h4 : ¬ (j1 = j2 ∧ i1 = i2 + 1))
    (h5 : ¬ (i2 = i1 + 1 ∧ j2 = j1 + 1)) (h6 : ¬ (i1 = i2 + 1 ∧ j1 = j2 + 1)) :
    ccount (fun t => sHas t (tv i1 j1) (tv i2 j2)) (sFaces r c) = 0 := by
  rw [sOcc_decomp]
  rw [q2_none (fun i j => sHas (sTopA i j) (tv i1 j1) (tv i2 j2))
      (fun i j => by simp [sHas, epair, sTopA, tv, bv, Prod.ext_iff] <;> omega) (r - 1) (c - 1),
      q2_none (fun i j => sHas (sTopB i j) (tv i1 j1) (tv i2 j2))
      (fun i j => by simp [sHas, epair, sTopB, tv, bv, Prod.ext_iff] <;> omega) (r - 1) (c - 1),
      q2_none (fun i j => sHas (sBaseA i j) (tv i1 j1) (tv i2 j2))
      (fun i j => by simp [sHas, epair, sBaseA, tv, bv, Prod.ext_iff] <;> omega) (r - 1) (c - 1),
      q2_none (fun i j => sHas (sBaseB i j) (tv i1 j1) (tv i2 j2))
      (fun i j => by simp [sHas, epair, sBaseB, tv, bv, Prod.ext_iff] <;> omega) (r - 1) (c - 1),
      q1_zero (fun j => sHas (sFrontA j) (tv i1 j1) (tv i2 j2))
      (fun j => by simp [sHas, epair, sFrontA, tv, bv, Prod.ext_iff] <;> omega) (c - 1),
      q1_zero (fun j => sHas (sFrontB j) (tv i1 j1) (tv i2 j2))
      (fun j => by simp [sHas, epair, sFrontB, tv, bv, Prod.ext_iff] <;> omega) (c - 1),
      q1_zero (fun j => sHas (sBackA r j) (tv i1 j1) (tv i2 j2))
      (fun j => by simp [sHas, epair, sBackA, tv, bv, Prod.ext_iff] <;> omega) (c - 1),
      q1_zero (fun j => sHas (sBackB r j) (tv i1 j1) (tv i2 j2))
      (fun j => by simp [sHas, epair, sBackB, tv, bv, Prod.ext_iff] <;> omega) (c - 1),
      q1_zero (fun i => sHas (sLeftA i) (tv i1 j1) (tv i2 j2))
      (fun i => by simp [sHas, epair, sLeftA, tv, bv, Prod.ext_iff] <;> omega) (r - 1),
      q1_zero (fun i => sHas (sLeftB i) (tv i1 j1) (tv i2 j2))
      (fun i => by simp [sHas, epair, sLeftB, tv, bv, Prod.ext_iff] <;> omega) (r - 1),
      q1_zero (fun i => sHas (sRightA c i) (tv i1 j1) (tv i2 j2))
      (fun i => by simp [sHas, epair, sRightA, tv, bv, Prod.ext_iff] <;> omega) (r - 1),
      q1_zero (fun i => sHas (sRightB c i) (tv i1 j1) (tv i2 j2))
      (fun i => by simp [sHas, epair, sRightB, tv, bv, Prod.ext_iff] <;> omega) (r - 1)]

/-- A horizontal base edge lies in exactly two faces. -/
theorem cnt_TT_east (r c i1 j1 : Nat) (hr : 2 ≤ r) (hc : 2 ≤ c) (hi : i1 < r) (hj : j1 + 1 < c) :
    ccount (fun t => sHas t (bv i1 j1) (bv i1 (j1 + 1))) (sFaces r c) = 2 := by
  rw [sOcc_decomp]
  rw [q2_none (fun i j => sHas (sTopA i j) (bv i1 j1) (bv i1 (j1 + 1)))
      (fun i j => by simp [sHas, epair, sTopA, tv, bv, Prod.ext_iff] <;> omega) (r - 1) (c - 1),
      q2_none (fun i j => sHas (sTopB i j) (bv i1 j1) (bv i1 (j1 + 1)))
      (fun i j => by simp [sHas, epair, sTopB, tv, bv, Prod.ext_iff] <;> omega) (r - 1) (c - 1),
      q1_zero (fun j => sHas (sFrontB j) (bv i1 j1) (bv i1 (j1 + 1)))
      (fun j => by simp [sHas, epair, sFrontB, tv, bv, Prod.ext_iff] <;> omega) (c - 1),
      q1_zero (fun j => sHas (sBackA r j) (bv i1 j1) (bv i1 (j1 + 1)))
      (fun j => by simp [sHas, epair, sBackA, tv, bv, Prod.ext_iff] <;> omega) (c - 1),
      q1_zero (fun i => sHas (sLeftA i) (bv i1 j1) (bv i1 (j1 + 1)))
      (fun i => by simp [sHas, epair, sLeftA, tv, bv, Prod.ext_iff] <;> omega) (r - 1),
      q1_zero (fun i => sHas (sLeftB i) (bv i1 j1) (bv i1 (j1 + 1)))
      (fun i => by simp [sHas, epair, sLeftB, tv, bv, Prod.ext_iff] <;> omega) (r - 1),
      q1_zero (fun i => sHas (sRightA c i) (bv i1 j1) (bv i1 (j1 + 1)))
      (fun i => by simp [sHas, epair, sRightA, tv, bv, Prod.ext_iff] <;> omega) (r - 1),
      q1_zero (fun i => sHas (sRightB c i) (bv i1 j1) (bv i1 (j1 + 1)))
      (fun i => by simp [sHas, epair, sRightB, tv, bv, Prod.ext_iff] <;> omega) (r - 1)]
  by_cases h0 : i1 = 0
  · rw [q2_pt1 (fun i j => sHas (sBaseA i j) (bv i1 j1) (bv i1 (j1 + 1))) i1 j1
      (fun i j => by simp [sHas, epair, sBaseA, tv, bv, Prod.ext_iff] <;> omega) (r - 1) (c - 1) (by omega) (by omega),
      q2_none (fun i j => sHas (sBaseB i j) (bv i1 j1) (bv i1 (j1 + 1)))
      (fun i j => by simp [sHas, epair, sBaseB, tv, bv, Prod.ext_iff] <;> omega) (r - 1) (c - 1),
      q1_pt1 (fun j => sHas (sFrontA j) (bv i1 j1) (bv i1 (j1 + 1))) j1
      (fun j => by simp [sHas, epair, sFrontA, tv, bv, Prod.ext_iff] <;> omega) (c - 1) (by omega),
      q1_zero (fun j => sHas (sBackB r j) (bv i1 j1) (bv i1 (j1 + 1)))
      (fun j => by simp [sHas, epair, sBackB, tv, bv, Prod.ext_iff] <;> omega) (c - 1)]
  by_cases hR : i1 = r - 1
  · rw [q2_pt0 (fun i j => sHas (sBaseA i j) (bv i1 j1) (bv i1 (j1 + 1))) i1 j1
      (fun i j => by simp [sHas, epair, sBaseA, tv, bv, Prod.ext_iff] <;> omega) (r - 1) (c - 1) (by omega),
      q2_pt1 (fun i j => sHas (sBaseB i j) (bv i1 j1) (bv i1 (j1 + 1))) (i1 - 1) j1
      (fun i j => by simp [sHas, epair, sBaseB, tv, bv, Prod.ext_iff] <;> omega) (r - 1) (c - 1) (by omega) (by omega),
      q1_zero (fun j => sHas (sFrontA j) (bv i1 j1) (bv i1 (j1 + 1)))
      (fun j => by simp [sHas, epair, sFrontA, tv, bv, Prod.ext_iff] <;> omega) (c - 1),
      q1_pt1 (fun j => sHas (sBackB r j) (bv i1 j1) (bv i1 (j1 + 1))) j1
      (fun j => by simp [sHas, epair, sBackB, tv, bv, Prod.ext_iff] <;> omega) (c - 1) (by omega)]
  · rw [q2_pt1 (fun i j => sHas (sBaseA i j) (bv i1 j1) (bv i1 (j1 + 1))) i1 j1
      (fun i j => by simp [sHas, epair, sBaseA, tv, bv, Prod.ext_iff] <;> omega) (r - 1) (c - 1) (by omega) (by omega),
      q2_pt1 (fun i j => sHas (sBaseB i j) (bv i1 j1) (bv i1 (j1 + 1))) (i1 - 1) j1
      (fun i j => by simp [sHas, epair, sBaseB, tv, bv, Prod.ext_iff] <;> omega) (r - 1) (c - 1) (by omega) (by omega),
      q1_zero (fun j => sHas (sFrontA j) (bv i1 j1) (bv i1 (j1 + 1)))
      (fun j => by simp [sHas, epair, sFrontA, tv, bv, Prod.ext_iff] <;> omega) (c - 1),
      q1_zero (fun j => sHas (sBackB r j) (bv i1 j1) (bv i1 (j1 + 1)))
      (fun j => by simp [sHas, epair, sBackB, tv, bv, Prod.ext_iff] <;> omega) (c - 1)]

/-- A vertical base edge lies in exactly two faces. -/
theorem cnt_TT_south (r c i1 j1 : Nat) (hr : 2 ≤ r) (hc : 2 ≤ c) (hi : i1 + 1 < r) (hj : j1 < c) :
    ccount (fun t => sHas t (bv i1 j1) (bv (i1 + 1) j1)) (sFaces r c) = 2 := by
  rw [sOcc_decomp]
  rw [q2_none (fun i j => sHas (sTopA i j) (bv i1 j1) (bv (i1 + 1) j1))
      (fun i j => by simp [sHas, epair, sTopA, tv, bv, Prod.ext_iff] <;> omega) (r - 1) (c - 1),
      q2_none (fun i j => sHas (sTopB i j) (bv i1 j1) (bv (i1 + 1) j1))
      (fun i j => by simp [sHas, epair, sTopB, tv, bv, Prod.ext_iff] <;> omega) (r - 1) (c - 1),
      q1_zero (fun j => sHas (sFrontA j) (bv i1 j1) (bv (i1 + 1) j1))
      (fun j => by simp [sHas, epair, sFrontA, tv, bv, Prod.ext_iff] <;> omega) (c - 1),
      q1_zero (fun j => sHas (sFrontB j) (bv i1 j1) (bv (i1 + 1) j1))
      (fun j => by simp [sHas, epair, sFrontB, tv, bv, Prod.ext_iff] <;> omega) (c - 1),
      q1_zero (fun j => sHas (sBackA r j) (bv i1 j1) (bv (i1 + 1) j1))
      (fun j => by simp [sHas, epair, sBackA, tv, bv, Prod.ext_iff] <;> omega) (c - 1),
      q1_zero (fun j => sHas (sBackB r j) (bv i1 j1) (bv (i1 + 1) j1))
      (fun j => by simp [sHas, epair, sBackB, tv, bv, Prod.ext_iff] <;> omega) (c - 1),
      q1_zero (fun i => sHas (sLeftA i) (bv i1 j1) (bv (i1 + 1) j1))
      (fun i => by simp [sHas, epair, sLeftA, tv, bv, Prod.ext_iff] <;> omega) (r - 1),
      q1_zero (fun i => sHas (sRightA c i) (bv i1 j1) (bv (i1 + 1) j1))
      (fun i => by simp [sHas, epair, sRightA, tv, bv, Prod.ext_iff] <;> omega) (r - 1)]
  by_cases h0 : j1 = 0
  · rw [q2_none (fun i j => sHas (sBaseA i j) (bv i1 j1) (bv (i1 + 1) j1))
      (fun i j => by simp [sHas, epair, sBaseA, tv, bv, Prod.ext_iff] <;> omega) (r - 1) (c - 1),
      q2_pt1 (fun i j => sHas (sBaseB i j) (bv i1 j1) (bv (i1 + 1) j1)) i1 j1
      (fun i j => by simp [sHas, epair, sBaseB, tv, bv, Prod.ext_iff] <;> omega) (r - 1) (c - 1) (by omega) (by omega),
      q1_pt1 (fun i => sHas (sLeftB i) (bv i1 j1) (bv (i1 + 1) j1)) i1
      (fun i => by simp [sHas, epair, sLeftB, tv, bv, Prod.ext_iff] <;> omega) (r - 1) (by omega),
      q1_zero (fun i => sHas (sRightB c i) (bv i1 j1) (bv (i1 + 1) j1))
      (fun i => by simp [sHas, epair, sRightB, tv, bv, Prod.ext_iff] <;> omega) (r - 1)]
  by_cases hC : j1 = c - 1
  · rw [q2_pt1 (fun i j => sHas (sBaseA i j) (bv i1 j1) (bv (i1 + 1) j1)) i1 (j1 - 1)
      (fun i j => by simp [sHas, epair, sBaseA, tv, bv, Prod.ext_iff] <;> omega) (r - 1) (c - 1) (by omega) (by omega),
      q2_pt0 (fun i j => sHas (sBaseB i j) (bv i1 j1) (bv (i1 + 1) j1)) i1 j1
      (fun i j => by simp [sHas, epair, sBaseB, tv, bv, Prod.ext_iff] <;> omega) (r - 1) (c - 1) (by omega),
      q1_zero (fun i => sHas (sLeftB i) (bv i1 j1) (bv (i1 + 1) j1))
      (fun i => by simp [sHas, epair, sLeftB, tv, bv, Prod.ext_iff] <;> omega) (r - 1),
      q1_pt1 (fun i => sHas (sRightB c i) (bv i1 j1) (bv (i1 + 1) j1)) i1
      (fun i => by simp [sHas, epair, sRightB, tv, bv, Prod.ext_iff] <;> omega) (r - 1) (by omega)]
  · rw [q2_pt1 (fun i j => sHas (sBaseA i j) (bv i1 j1) (bv (i1 + 1) j1)) i1 (j1 - 1)
      (fun i j => by simp [sHas, epair, sBaseA, tv, bv, Prod.ext_iff] <;> omega) (r - 1) (c - 1) (by omega) (by omega),
      q2_pt1 (fun i j => sHas (sBaseB i j) (bv i1 j1) (bv (i1 + 1) j1)) i1 j1
      (fun i j => by simp [sHas, epair, sBaseB, tv, bv, Prod.ext_iff] <;> omega) (r - 1) (c - 1) (by omega) (by omega),
      q1_zero (fun i => sHas (sLeftB i) (bv i1 j1) (bv (i1 + 1) j1))
      (fun i => by simp [sHas, epair, sLeftB, tv, bv, Prod.ext_iff] <;> omega) (r - 1),
      q1_zero (fun i => sHas (sRightB c i) (bv i1 j1) (bv (i1 + 1) j1))
      (fun i => by simp [sHas, epair, sRightB, tv, bv, Prod.ext_iff] <;> omega) (r - 1)]

/-- A diagonal base edge lies in exactly two faces. -/
theorem cnt_TT_diag (r c i1 j1 : Nat) (hi : i1 + 1 < r) (hj : j1 + 1 < c) :
    ccount (fun t => sHas t (bv i1 j1) (bv (i1 + 1) (j1 + 1))) (sFaces r c) = 2 := by
  rw [sOcc_decomp]
  rw [q2_none (fun i j => sHas (sTopA i j) (bv i1 j1) (bv (i1 + 1) (j1 + 1)))
      (fun i j => by simp [sHas, epair, sTopA, tv, bv, Prod.ext_iff] <;> omega) (r - 1) (c - 1),
      q2_none (fun i j => sHas (sTopB i j) (bv i1 j1) (bv (i1 + 1) (j1 + 1)))
      (fun i j => by simp [sHas, epair, sTopB, tv, bv, Prod.ext_iff] <;> omega) (r - 1) (c - 1),
      q2_pt1 (fun i j => sHas (sBaseA i j) (bv i1 j1) (bv (i1 + 1) (j1 + 1))) i1 j1
      (fun i j => by simp [sHas, epair, sBaseA, tv, bv, Prod.ext_iff] <;> omega) (r - 1) (c - 1) (by omega) (by omega),
      q2_pt1 (fun i j => sHas (sBaseB i j) (bv i1 j1) (bv (i1 + 1) (j1 + 1))) i1 j1
      (fun i j => by simp [sHas, epair, sBaseB, tv, bv, Prod.ext_iff] <;> omega) (r - 1) (c - 1) (by omega) (by omega),
      q1_zero (fun j => sHas (sFrontA j) (bv i1 j1) (bv (i1 + 1) (j1 + 1)))
      (fun j => by simp [sHas, epair, sFrontA, tv, bv, Prod.ext_iff] <;> omega) (c - 1),
      q1_zero (fun j => sHas (sFrontB j) (bv i1 j1) (bv (i1 + 1) (j1 + 1)))
      (fun j => by simp [sHas, epair, sFrontB, tv, bv, Prod.ext_iff] <;> omega) (c - 1),
      q1_zero (fun j => sHas (sBackA r j) (bv i1 j1) (bv (i1 + 1) (j1 + 1)))
      (fun j => by simp [sHas, epair, sBackA, tv, bv, Prod.ext_iff] <;> omega) (c - 1),
      q1_zero (fun j => sHas (sBackB r j) (bv i1 j1) (bv (i1 + 1) (j1 + 1)))
      (fun j => by simp [sHas, epair, sBackB, tv, bv, Prod.ext_iff] <;> omega) (c - 1),
      q1_zero (fun i => sHas (sLeftA i) (bv i1 j1) (bv (i1 + 1) (j1 + 1)))
      (fun i => by simp [sHas, epair, sLeftA, tv, bv, Prod.ext_iff] <;> omega) (r - 1),
      q1_zero (fun i => sHas (sLeftB i) (bv i1 j1) (bv (i1 + 1) (j1 + 1)))
      (fun i => by simp [sHas, epair, sLeftB, tv, bv, Prod.ext_iff] <;> omega) (r - 1),
      q1_zero (fun i => sHas (sRightA c i) (bv i1 j1) (bv (i1 + 1) (j1 + 1)))
      (fun i => by simp [sHas, epair, sRightA, tv, bv, Prod.ext_iff] <;> omega) (r - 1),
      q1_zero (fun i => sHas (sRightB c i) (bv i1 j1) (bv (i1 + 1) (j1 + 1)))
      (fun i => by simp [sHas, epair, sRightB, tv, bv, Prod.ext_iff] <;> omega) (r - 1)]

/-- A base-base vertex pair that is not an emitted edge shape lies in no face. -/
theorem cnt_TT_none (r c i1 j1 i2 j2 : Nat) (h1 : ¬ (i1 = i2 ∧ j2 = j1 + 1)) (h2 : ¬ (i1 = i2 ∧ j1 = j2 + 1))
    (h3 : ¬ (j1 = j2 ∧ i2 = i1 + 1)) (h4 : ¬ (j1 = j2 ∧ i1 = i2 + 1))
    (h5 : ¬ (i2 = i1 + 1 ∧ j2 = j1 + 1)) (h6 : ¬ (i1 = i2 + 1 ∧ j1 = j2 + 1)) :
    ccount (fun t => sHas t (bv i1 j1) (bv i2 j2)) (sFaces r c) = 0 := by
  rw [sOcc_decomp]
  rw [q2_none (fun i j => sHas (sTopA i j) (bv i1 j1) (bv i2 j2))
      (fun i j => by simp [sHas, epair, sTopA, tv, bv, Prod.ext_iff] <;> omega) (r - 1) (c - 1),
      q2_none (fun i j => sHas (sTopB i j) (bv i1 j1) (bv i2 j2))
      (fun i j => by simp [sHas, epair, sTopB, tv, bv, Prod.ext_iff] <;> omega) (r - 1) (c - 1),
      q2_none (fun i j => sHas (sBaseA i j) (bv i1 j1) (bv i2 j2))
      (fun i j => by simp [sHas, epair, sBaseA, tv, bv, Prod.ext_iff] <;> omega) (r - 1) (c - 1),
      q2_none (fun i j => sHas (sBaseB i j) (bv i1 j1) (bv i2 j2))
      (fun i j => by simp [sHas, epair, sBaseB, tv, bv, Prod.ext_iff] <;> omega) (r - 1) (c - 1),
      q1_zero (fun j => sHas (sFrontA j) (bv i1 j1) (bv i2 j2))
      (fun j => by simp [sHas, epair, sFrontA, tv, bv, Prod.ext_iff] <;> omega) (c - 1),
      q1_zero (fun j => sHas (sFrontB j) (bv i1 j1) (bv i2 j2))
      (fun j => by simp [sHas, epair, sFrontB, tv, bv, Prod.ext_iff] <;> omega) (c - 1),
      q1_zero (fun j => sHas (sBackA r j) (bv i1 j1) (bv i2 j2))
      (fun j => by simp [sHas, epair, sBackA, tv, bv, Prod.ext_iff] <;> omega) (c - 1),
      q1_zero (fun j => sHas (sBackB r j) (bv i1 j1) (bv i2 j2))
      (fun j => by simp [sHas, epair, sBackB, tv, bv, Prod.ext_iff] <;> omega) (c - 1),
      q1_zero (fun i => sHas (sLeftA i) (bv i1 j1) (bv i2 j2))
      (fun i => by simp [sHas, epair, sLeftA, tv, bv, Prod.ext_iff] <;> omega) (r - 1),
      q1_zero (fun i => sHas (sLeftB i) (bv i1 j1) (bv i2 j2))
      (fun i => by simp [sHas, epair, sLeftB, tv, bv, Prod.ext_iff] <;> omega) (r - 1),
      q1_zero (fun i => sHas (sRightA c i) (bv i1 j1) (bv i2 j2))
      (fun i => by simp [sHas, epair, sRightA, tv, bv, Prod.ext_iff] <;> omega) (r - 1),
      q1_zero (fun i => sHas (sRightB c i) (bv i1 j1) (bv i2 j2))
      (fun i => by simp [sHas, epair, sRightB, tv, bv, Prod.ext_iff] <;> omega) (r - 1)]
/-- A vertical edge joining a top vertex to the base vertex below it lies in exactly
two wall faces when the cell is on the image boundary, and in no face otherwise. -/
theorem cnt_FT_vert (r c i1 j1 : Nat) (hr : 2 ≤ r) (hc : 2 ≤ c) (hi : i1 < r) (hj : j1 < c) :
    ccount (fun t => sHas t (tv i1 j1) (bv i1 j1)) (sFaces r c) = 0 ∨
    ccount (fun t => sHas t (tv i1 j1) (bv i1 j1)) (sFaces r c) = 2 := by
  rw [sOcc_decomp]
  rw [q2_none (fun i j => sHas (sTopA i j) (tv i1 j1) (bv i1 j1))
      (fun i j => by simp [sHas, epair, sTopA, tv, bv, Prod.ext_iff] <;> omega) (r - 1) (c - 1),
      q2_none (fun i j => sHas (sTopB i j) (tv i1 j1) (bv i1 j1))
      (fun i j => by simp [sHas, epair, sTopB, tv, bv, Prod.ext_iff] <;> omega) (r - 1) (c - 1),
      q2_none (fun i j => sHas (sBaseA i j) (tv i1 j1) (bv i1 j1))
      (fun i j => by simp [sHas, epair, sBaseA, tv, bv, Prod.ext_iff] <;> omega) (r - 1) (c - 1),
      q2_none (fun i j => sHas (sBaseB i j) (tv i1 j1) (bv i1 j1))
      (fun i j => by simp [sHas, epair, sBaseB, tv, bv, Prod.ext_iff] <;> omega) (r - 1) (c - 1)]
  by_cases hi0 : i1 = 0
  · by_cases hj0 : j1 = 0
    · refine Or.inr ?_
      rw [q1_pt1 (fun j => sHas (sFrontA j) (tv i1 j1) (bv i1 j1)) j1
      (fun j => by simp [sHas, epair, sFrontA, tv, bv, Prod.ext_iff] <;> omega) (c - 1) (by omega),
          q1_zero (fun j => sHas (sFrontB j) (tv i1 j1) (bv i1 j1))
      (fun j => by simp [sHas, epair, sFrontB, tv, bv, Prod.ext_iff] <;> omega) (c - 1),
          q1_zero (fun j => sHas (sBackA r j) (tv i1 j1) (bv i1 j1))
      (fun j => by simp [sHas, epair, sBackA, tv, bv, Prod.ext_iff] <;> omega) (c - 1),
          q1_zero (fun j => sHas (sBackB r j) (tv i1 j1) (bv i1 j1))
      (fun j => by simp [sHas, epair, sBackB, tv, bv, Prod.ext_iff] <;> omega) (c - 1),
          q1_zero (fun i => sHas (sLeftA i) (tv i1 j1) (bv i1 j1))
      (fun i => by simp [sHas, epair, sLeftA, tv, bv, Prod.ext_iff] <;> omega) (r - 1),
          q1_pt1 (fun i => sHas (sLeftB i) (tv i1 j1) (bv i1 j1)) i1
      (fun i => by simp [sHas, epair, sLeftB, tv, bv, Prod.ext_iff] <;> omega) (r - 1) (by omega),
          q1_zero (fun i => sHas (sRightA c i) (tv i1 j1) (bv i1 j1))
      (fun i => by simp [sHas, epair, sRightA, tv, bv, Prod.ext_iff] <;> omega) (r - 1),
          q1_zero (fun i => sHas (sRightB c i) (tv i1 j1) (bv i1 j1))
      (fun i => by simp [sHas, epair, sRightB, tv, bv, Prod.ext_iff] <;> omega) (r - 1)]
    by_cases hjC : j1 = c - 1
    · refine Or.inr ?_
      rw [q1_pt0 (fun j => sHas (sFrontA j) (tv i1 j1) (bv i1 j1)) j1
      (fun j => by simp [sHas, epair, sFrontA, tv, bv, Prod.ext_iff] <;> omega) (c - 1) (by omega),
          q1_pt1 (fun j => sHas (sFrontB j) (tv i1 j1) (bv i1 j1)) (j1 - 1)
      (fun j => by simp [sHas, epair, sFrontB, tv, bv, Prod.ext_iff] <;> omega) (c - 1) (by omega),
          q1_zero (fun j => sHas (sBackA r j) (tv i1 j1) (bv i1 j1))
      (fun j => by simp [sHas, epair, sBackA, tv, bv, Prod.ext_iff] <;> omega) (c - 1),
          q1_zero (fun j => sHas (sBackB r j) (tv i1 j1) (bv i1 j1))
      (fun j => by simp [sHas, epair, sBackB, tv, bv, Prod.ext_iff] <;> omega) (c - 1),
          q1_zero (fun i => sHas (sLeftA i) (tv i1 j1) (bv i1 j1))
      (fun i => by simp [sHas, epair, sLeftA, tv, bv, Prod.ext_iff] <;> omega) (r - 1),
          q1_zero (fun i => sHas (sLeftB i) (tv i1 j1) (bv i1 j1))
      (fun i => by simp [sHas, epair, sLeftB, tv, bv, Prod.ext_iff] <;> omega) (r - 1),
          q1_zero (fun i => sHas (sRightA c i) (tv i1 j1) (bv i1 j1))
      (fun i => by simp [sHas, epair, sRightA, tv, bv, Prod.ext_iff] <;> omega) (r - 1),
          q1_pt1 (fun i => sHas (sRightB c i) (tv i1 j1) (bv i1 j1)) i1
      (fun i => by simp [sHas, epair, sRightB, tv, bv, Prod.ext_iff] <;> omega) (r - 1) (by omega)]
    · refine Or.inr ?_
      rw [q1_pt1 (fun j => sHas (sFrontA j) (tv i1 j1) (bv i1 j1)) j1
      (fun j => by simp [sHas, epair, sFrontA, tv, bv, Prod.ext_iff] <;> omega) (c - 1) (by omega),
          q1_pt1 (fun j => sHas (sFrontB j) (tv i1 j1) (bv i1 j1)) (j1 - 1)
      (fun j => by simp [sHas, epair, sFrontB, tv, bv, Prod.ext_iff] <;> omega) (c - 1) (by omega),
          q1_zero (fun j => sHas (sBackA r j) (tv i1 j1) (bv i1 j1))
      (fun j => by simp [sHas, epair, sBackA, tv, bv, Prod.ext_iff] <;> omega) (c - 1),
          q1_zero (fun j => sHas (sBackB r j) (tv i1 j1) (bv i1 j1))
      (fun j => by simp [sHas, epair, sBackB, tv, bv, Prod.ext_iff] <;> omega) (c - 1),
          q1_zero (fun i => sHas (sLeftA i) (tv i1 j1) (bv i1 j1))
      (fun i => by simp [sHas, epair, sLeftA, tv, bv, Prod.ext_iff] <;> omega) (r - 1),
          q1_zero (fun i => sHas (sLeftB i) (tv i1 j1) (bv i1 j1))
      (fun i => by simp [sHas, epair, sLeftB, tv, bv, Prod.ext_iff] <;> omega) (r - 1),
          q1_zero (fun i => sHas (sRightA c i) (tv i1 j1) (bv i1 j1))
      (fun i => by simp [sHas, epair, sRightA, tv, bv, Prod.ext_iff] <;> omega) (r - 1),
          q1_zero (fun i => sHas (sRightB c i) (tv i1 j1) (bv i1 j1))
      (fun i => by simp [sHas, epair, sRightB, tv, bv, Prod.ext_iff] <;> omega) (r - 1)]
  by_cases hiR : i1 = r - 1
  · by_cases hj0 : j1 = 0
    · refine Or.inr ?_
      rw [q1_zero (fun j => sHas (sFrontA j) (tv i1 j1) (bv i1 j1))
      (fun j => by simp [sHas, epair, sFrontA, tv, bv, Prod.ext_iff] <;> omega) (c - 1),
          q1_zero (fun j => sHas (sFrontB j) (tv i1 j1) (bv i1 j1))
      (fun j => by simp [sHas, epair, sFrontB, tv, bv, Prod.ext_iff] <;> omega) (c - 1),
          q1_zero (fun j => sHas (sBackA r j) (tv i1 j1) (bv i1 j1))
      (fun j => by simp [sHas, epair, sBackA, tv, bv, Prod.ext_iff] <;> omega) (c - 1),
          q1_pt1 (fun j => sHas (sBackB r j) (tv i1 j1) (bv i1 j1)) j1
      (fun j => by simp [sHas, epair, sBackB, tv, bv, Prod.ext_iff] <;> omega) (c - 1) (by omega),
          q1_pt1 (fun i => sHas (sLeftA i) (tv i1 j1) (bv i1 j1)) (i1 - 1)
      (fun i => by simp [sHas, epair, sLeftA, tv, bv, Prod.ext_iff] <;> omega) (r - 1) (by omega),
          q1_pt0 (fun i => sHas (sLeftB i) (tv i1 j1) (bv i1 j1)) i1
      (fun i => by simp [sHas, epair, sLeftB, tv, bv, Prod.ext_iff] <;> omega) (r - 1) (by omega),
          q1_zero (fun i => sHas (sRightA c i) (tv i1 j1) (bv i1 j1))
      (fun i => by simp [sHas, epair, sRightA, tv, bv, Prod.ext_iff] <;> omega) (r - 1),
          q1_zero (fun i => sHas (sRightB c i) (tv i1 j1) (bv i1 j1))
      (fun i => by simp [sHas, epair, sRightB, tv, bv, Prod.ext_iff] <;> omega) (r - 1)]
    by_cases hjC : j1 = c - 1
    · refine Or.inr ?_
      rw [q1_zero (fun j => sHas (sFrontA j) (tv i1 j1) (bv i1 j1))
      (fun j => by simp [sHas, epair, sFrontA, tv, bv, Prod.ext_iff] <;> omega) (c - 1),
          q1_zero (fun j => sHas (sFrontB j) (tv i1 j1) (bv i1 j1))
      (fun j => by simp [sHas, epair, sFrontB, tv, bv, Prod.ext_iff] <;> omega) (c - 1),
          q1_pt1 (fun j => sHas (sBackA r j) (tv i1 j1) (bv i1 j1)) (j1 - 1)
      (fun j => by simp [sHas, epair, sBackA, tv, bv, Prod.ext_iff] <;> omega) (c - 1) (by omega),
          q1_pt0 (fun j => sHas (sBackB r j) (tv i1 j1) (bv i1 j1)) j1
      (fun j => by simp [sHas, epair, sBackB, tv, bv, Prod.ext_iff] <;> omega) (c - 1) (by omega),
          q1_zero (fun i => sHas (sLeftA i) (tv i1 j1) (bv i1 j1))
      (fun i => by simp [sHas, epair, sLeftA, tv, bv, Prod.ext_iff] <;> omega) (r - 1),
          q1_zero (fun i => sHas (sLeftB i) (tv i1 j1) (bv i1 j1))
      (fun i => by simp [sHas, epair, sLeftB, tv, bv, Prod.ext_iff] <;> omega) (r - 1),
          q1_pt1 (fun i => sHas (sRightA c i) (tv i1 j1) (bv i1 j1)) (i1 - 1)
      (fun i => by simp [sHas, epair, sRightA, tv, bv, Prod.ext_iff] <;> omega) (r - 1) (by omega),
          q1_pt0 (fun i => sHas (sRightB c i) (tv i1 j1) (bv i1 j1)) i1
      (fun i => by simp [sHas, epair, sRightB, tv, bv, Prod.ext_iff] <;> omega) (r - 1) (by omega)]
    · refine Or.inr ?_
      rw [q1_zero (fun j => sHas (sFrontA j) (tv i1 j1) (bv i1 j1))
      (fun j => by simp [sHas, epair, sFrontA, tv, bv, Prod.ext_iff] <;> omega) (c - 1),
          q1_zero (fun j => sHas (sFrontB j) (tv i1 j1) (bv i1 j1))
      (fun j => by simp [sHas, epair, sFrontB, tv, bv, Prod.ext_iff] <;> omega) (c - 1),
          q1_pt1 (fun j => sHas (sBackA r j) (tv i1 j1) (bv i1 j1)) (j1 - 1)
      (fun j => by simp [sHas, epair, sBackA, tv, bv, Prod.ext_iff] <;> omega) (c - 1) (by omega),
          q1_pt1 (fun j => sHas (sBackB r j) (tv i1 j1) (bv i1 j1)) j1
      (fun j => by simp [sHas, epair, sBackB, tv, bv, Prod.ext_iff] <;> omega) (c - 1) (by omega),
          q1_zero (fun i => sHas (sLeftA i) (tv i1 j1) (bv i1 j1))
      (fun i => by simp [sHas, epair, sLeftA, tv, bv, Prod.ext_iff] <;> omega) (r - 1),
          q1_zero (fun i => sHas (sLeftB i) (tv i1 j1) (bv i1 j1))
      (fun i => by simp [sHas, epair, sLeftB, tv, bv, Prod.ext_iff] <;> omega) (r - 1),
          q1_zero (fun i => sHas (sRightA c i) (tv i1 j1) (bv i1 j1))
      (fun i => by simp [sHas, epair, sRightA, tv, bv, Prod.ext_iff] <;> omega) (r - 1),
          q1_zero (fun i => sHas (sRightB c i) (tv i1 j1) (bv i1 j1))
      (fun i => by simp [sHas, epair, sRightB, tv, bv, Prod.ext_iff] <;> omega) (r - 1)]
  · by_cases hj0 : j1 = 0
    · refine Or.inr ?_
      rw [q1_zero (fun j => sHas (sFrontA j) (tv i1 j1) (bv i1 j1))
      (fun j => by simp [sHas, epair, sFrontA, tv, bv, Prod.ext_iff] <;> omega) (c - 1),
          q1_zero (fun j => sHas (sFrontB j) (tv i1 j1) (bv i1 j1))
      (fun j => by simp [sHas, epair, sFrontB, tv, bv, Prod.ext_iff] <;> omega) (c - 1),
          q1_zero (fun j => sHas (sBackA r j) (tv i1 j1) (bv i1 j1))
      (fun j => by simp [sHas, epair, sBackA, tv, bv, Prod.ext_iff] <;> omega) (c - 1),
          q1_zero (fun j => sHas (sBackB r j) (tv i1 j1) (bv i1 j1))
      (fun j => by simp [sHas, epair, sBackB, tv, bv, Prod.ext_iff] <;> omega) (c - 1),
          q1_pt1 (fun i => sHas (sLeftA i) (tv i1 j1) (bv i1 j1)) (i1 - 1)
      (fun i => by simp [sHas, epair, sLeftA, tv, bv, Prod.ext_iff] <;> omega) (r - 1) (by omega),
          q1_pt1 (fun i => sHas (sLeftB i) (tv i1 j1) (bv i1 j1)) i1
      (fun i => by simp [sHas, epair, sLeftB, tv, bv, Prod.ext_iff] <;> omega) (r - 1) (by omega),
          q1_zero (fun i => sHas (sRightA c i) (tv i1 j1) (bv i1 j1))
      (fun i => by simp [sHas, epair, sRightA, tv, bv, Prod.ext_iff] <;> omega) (r - 1),
          q1_zero (fun i => sHas (sRightB c i) (tv i1 j1) (bv i1 j1))
      (fun i => by simp [sHas, epair, sRightB, tv, bv, Prod.ext_iff] <;> omega) (r - 1)]
    by_cases hjC : j1 = c - 1
    · refine Or.inr ?_
      rw [q1_zero (fun j => sHas (sFrontA j) (tv i1 j1) (bv i1 j1))
      (fun j => by simp [sHas, epair, sFrontA, tv, bv, Prod.ext_iff] <;> omega) (c - 1),
          q1_zero (fun j => sHas (sFrontB j) (tv i1 j1) (bv i1 j1))
      (fun j => by simp [sHas, epair, sFrontB, tv, bv, Prod.ext_iff] <;> omega) (c - 1),
          q1_zero (fun j => sHas (sBackA r j) (tv i1 j1) (bv i1 j1))
      (fun j => by simp [sHas, epair, sBackA, tv, bv, Prod.ext_iff] <;> omega) (c - 1),
          q1_zero (fun j => sHas (sBackB r j) (tv i1 j1) (bv i1 j1))
      (fun j => by simp [sHas, epair, sBackB, tv, bv, Prod.ext_iff] <;> omega) (c - 1),
          q1_zero (fun i => sHas (sLeftA i) (tv i1 j1) (bv i1 j1))
      (fun i => by simp [sHas, epair, sLeftA, tv, bv, Prod.ext_iff] <;> omega) (r - 1),
          q1_zero (fun i => sHas (sLeftB i) (tv i1 j1) (bv i1 j1))
      (fun i => by simp [sHas, epair, sLeftB, tv, bv, Prod.ext_iff] <;> omega) (r - 1),
          q1_pt1 (fun i => sHas (sRightA c i) (tv i1 j1) (bv i1 j1)) (i1 - 1)
      (fun i => by simp [sHas, epair, sRightA, tv, bv, Prod.ext_iff] <;> omega) (r - 1) (by omega),
          q1_pt1 (fun i => sHas (sRightB c i) (tv i1 j1) (bv i1 j1)) i1
      (fun i => by simp [sHas, epair, sRightB, tv, bv, Prod.ext_iff] <;> omega) (r - 1) (by omega)]
    · refine Or.inl ?_
      rw [q1_zero (fun j => sHas (sFrontA j) (tv i1 j1) (bv i1 j1))
      (fun j => by simp [sHas, epair, sFrontA, tv, bv, Prod.ext_iff] <;> omega) (c - 1),
          q1_zero (fun j => sHas (sFrontB j) (tv i1 j1) (bv i1 j1))
      (fun j => by simp [sHas, epair, sFrontB, tv, bv, Prod.ext_iff] <;> omega) (c - 1),
          q1_zero (fun j => sHas (sBackA r j) (tv i1 j1) (bv i1 j1))
      (fun j => by simp [sHas, epair, sBackA, tv, bv, Prod.ext_iff] <;> omega) (c - 1),
          q1_zero (fun j => sHas (sBackB r j) (tv i1 j1) (bv i1 j1))
      (fun j => by simp [sHas, epair, sBackB, tv, bv, Prod.ext_iff] <;> omega) (c - 1),
          q1_zero (fun i => sHas (sLeftA i) (tv i1 j1) (bv i1 j1))
      (fun i => by simp [sHas, epair, sLeftA, tv, bv, Prod.ext_iff] <;> omega) (r - 1),
          q1_zero (fun i => sHas (sLeftB i) (tv i1 j1) (bv i1 j1))
      (fun i => by simp [sHas, epair, sLeftB, tv, bv, Prod.ext_iff] <;> omega) (r - 1),
          q1_zero (fun i => sHas (sRightA c i) (tv i1 j1) (bv i1 j1))
      (fun i => by simp [sHas, epair, sRightA, tv, bv, Prod.ext_iff] <;> omega) (r - 1),
          q1_zero (fun i => sHas (sRightB c i) (tv i1 j1) (bv i1 j1))
      (fun i => by simp [sHas, epair, sRightB, tv, bv, Prod.ext_iff] <;> omega) (r - 1)]

/-- A front-wall diagonal edge lies in exactly two faces. -/
theorem cnt_FT_frontD (r c j1 : Nat) (hr : 2 ≤ r) (hj : j1 + 1 < c) :
    ccount (fun t => sHas t (tv 0 j1) (bv 0 (j1 + 1))) (sFaces r c) = 2 := by
  rw [sOcc_decomp]
  rw [q2_none (fun i j => sHas (sTopA i j) (tv 0 j1) (bv 0 (j1 + 1)))
      (fun i j => by simp [sHas, epair, sTopA, tv, bv, Prod.ext_iff] <;> omega) (r - 1) (c - 1),
      q2_none (fun i j => sHas (sTopB i j) (tv 0 j1) (bv 0 (j1 + 1)))
      (fun i j => by simp [sHas, epair, sTopB, tv, bv, Prod.ext_iff] <;> omega) (r - 1) (c - 1),
      q2_none (fun i j => sHas (sBaseA i j) (tv 0 j1) (bv 0 (j1 + 1)))
      (fun i j => by simp [sHas, epair, sBaseA, tv, bv, Prod.ext_iff] <;> omega) (r - 1) (c - 1),
      q2_none (fun i j => sHas (sBaseB i j) (tv 0 j1) (bv 0 (j1 + 1)))
      (fun i j => by simp [sHas, epair, sBaseB, tv, bv, Prod.ext_iff] <;> omega) (r - 1) (c - 1),
      q1_pt1 (fun j => sHas (sFrontA j) (tv 0 j1) (bv 0 (j1 + 1))) j1
      (fun j => by simp [sHas, epair, sFrontA, tv, bv, Prod.ext_iff] <;> omega) (c - 1) (by omega),
      q1_pt1 (fun j => sHas (sFrontB j) (tv 0 j1) (bv 0 (j1 + 1))) j1
      (fun j => by simp [sHas, epair, sFrontB, tv, bv, Prod.ext_iff] <;> omega) (c - 1) (by omega),
      q1_zero (fun j => sHas (sBackA r j) (tv 0 j1) (bv 0 (j1 + 1)))
      (fun j => by simp [sHas, epair, sBackA, tv, bv, Prod.ext_iff] <;> omega) (c - 1),
      q1_zero (fun j => sHas (sBackB r j) (tv 0 j1) (bv 0 (j1 + 1)))
      (fun j => by simp [sHas, epair, sBackB, tv, bv, Prod.ext_iff] <;> omega) (c - 1),
      q1_zero (fun i => sHas (sLeftA i) (tv 0 j1) (bv 0 (j1 + 1)))
      (fun i => by simp [sHas, epair, sLeftA, tv, bv, Prod.ext_iff] <;> omega) (r - 1),
      q1_zero (fun i => sHas (sLeftB i) (tv 0 j1) (bv 0 (j1 + 1)))
      (fun i => by simp [sHas, epair, sLeftB, tv, bv, Prod.ext_iff] <;> omega) (r - 1),
      q1_zero (fun i => sHas (sRightA c i) (tv 0 j1) (bv 0 (j1 + 1)))
      (fun i => by simp [sHas, epair, sRightA, tv, bv, Prod.ext_iff] <;> omega) (r - 1),
      q1_zero (fun i => sHas (sRightB c i) (tv 0 j1) (bv 0 (j1 + 1)))
      (fun i => by simp [sHas, epair, sRightB, tv, bv, Prod.ext_iff] <;> omega) (r - 1)]

/-- A back-wall diagonal edge lies in exactly two faces. -/
theorem cnt_FT_backD (r c j1 : Nat) (hr : 2 ≤ r) (hj : j1 + 1 < c) :
    ccount (fun t => sHas t (tv (r - 1) j1) (bv (r - 1) (j1 + 1))) (sFaces r c) = 2 := by
  rw [sOcc_decomp]
  rw [q2_none (fun i j => sHas (sTopA i j) (tv (r - 1) j1) (bv (r - 1) (j1 + 1)))
      (fun i j => by simp [sHas, epair, sTopA, tv, bv, Prod.ext_iff] <;> omega) (r - 1) (c - 1),
      q2_none (fun i j => sHas (sTopB i j) (tv (r - 1) j1) (bv (r - 1) (j1 + 1)))
      (fun i j => by simp [sHas, epair, sTopB, tv, bv, Prod.ext_iff] <;> omega) (r - 1) (c - 1),
      q2_none (fun i j => sHas (sBaseA i j) (tv (r - 1) j1) (bv (r - 1) (j1 + 1)))
      (fun i j => by simp [sHas, epair, sBaseA, tv, bv, Prod.ext_iff] <;> omega) (r - 1) (c - 1),
      q2_none (fun i j => sHas (sBaseB i j) (tv (r - 1) j1) (bv (r - 1) (j1 + 1)))
      (fun i j => by simp [sHas, epair, sBaseB, tv, bv, Prod.ext_iff] <;> omega) (r - 1) (c - 1),
      q1_zero (fun j => sHas (sFrontA j) (tv (r - 1) j1) (bv (r - 1) (j1 + 1)))
      (fun j => by simp [sHas, epair, sFrontA, tv, bv, Prod.ext_iff] <;> omega) (c - 1),
      q1_zero (fun j => sHas (sFrontB j) (tv (r - 1) j1) (bv (r - 1) (j1 + 1)))
      (fun j => by simp [sHas, epair, sFrontB, tv, bv, Prod.ext_iff] <;> omega) (c - 1),
      q1_pt1 (fun j => sHas (sBackA r j) (tv (r - 1) j1) (bv (r - 1) (j1 + 1))) j1
      (fun j => by simp [sHas, epair, sBackA, tv, bv, Prod.ext_iff] <;> omega) (c - 1) (by omega),
      q1_pt1 (fun j => sHas (sBackB r j) (tv (r - 1) j1) (bv (r - 1) (j1 + 1))) j1
      (fun j => by simp [sHas, epair, sBackB, tv, bv, Prod.ext_iff] <;> omega) (c - 1) (by omega),
      q1_zero (fun i => sHas (sLeftA i) (tv (r - 1) j1) (bv (r - 1) (j1 + 1)))
      (fun i => by simp [sHas, epair, sLeftA, tv, bv, Prod.ext_iff] <;> omega) (r - 1),
      q1_zero (fun i => sHas (sLeftB i) (tv (r - 1) j1) (bv (r - 1) (j1 + 1)))
      (fun i => by simp [sHas, epair, sLeftB, tv, bv, Prod.ext_iff] <;> omega) (r - 1),
      q1_zero (fun i => sHas (sRightA c i) (tv (r - 1) j1) (bv (r - 1) (j1 + 1)))
      (fun i => by simp [sHas, epair, sRightA, tv, bv, Prod.ext_iff] <;> omega) (r - 1),
      q1_zero (fun i => sHas (sRightB c i) (tv (r - 1) j1) (bv (r - 1) (j1 + 1)))
      (fun i => by simp [sHas, epair, sRightB, tv, bv, Prod.ext_iff] <;> omega) (r - 1)]

/-- A left-wall diagonal edge lies in exactly two faces. -/
theorem cnt_FT_leftD (r c i1 : Nat) (hc : 2 ≤ c) (hi : i1 + 1 < r) :
    ccount (fun t => sHas t (tv i1 0) (bv (i1 + 1) 0)) (sFaces r c) = 2 := by
  rw [sOcc_decomp]
  rw [q2_none (fun i j => sHas (sTopA i j) (tv i1 0) (bv (i1 + 1) 0))
      (fun i j => by simp [sHas, epair, sTopA, tv, bv, Prod.ext_iff] <;> omega) (r - 1) (c - 1),
      q2_none (fun i j => sHas (sTopB i j) (tv i1 0) (bv (i1 + 1) 0))
      (fun i j => by simp [sHas, epair, sTopB, tv, bv, Prod.ext_iff] <;> omega) (r - 1) (c - 1),
      q2_none (fun i j => sHas (sBaseA i j) (tv i1 0) (bv (i1 + 1) 0))
      (fun i j => by simp [sHas, epair, sBaseA, tv, bv, Prod.ext_iff] <;> omega) (r - 1) (c - 1),
      q2_none (fun i j => sHas (sBaseB i j) (tv i1 0) (bv (i1 + 1) 0))
      (fun i j => by simp [sHas, epair, sBaseB, tv, bv, Prod.ext_iff] <;> omega) (r - 1) (c - 1),
      q1_zero (fun j => sHas (sFrontA j) (tv i1 0) (bv (i1 + 1) 0))
      (fun j => by simp [sHas, epair, sFrontA, tv, bv, Prod.ext_iff] <;> omega) (c - 1),
      q1_zero (fun j => sHas (sFrontB j) (tv i1 0) (bv (i1 + 1) 0))
      (fun j => by simp [sHas, epair, sFrontB, tv, bv, Prod.ext_iff] <;> omega) (c - 1),
      q1_zero (fun j => sHas (sBackA r j) (tv i1 0) (bv (i1 + 1) 0))
      (fun j => by simp [sHas, epair, sBackA, tv, bv, Prod.ext_iff] <;> omega) (c - 1),
      q1_zero (fun j => sHas (sBackB r j) (tv i1 0) (bv (i1 + 1) 0))
      (fun j => by simp [sHas, epair, sBackB, tv, bv, Prod.ext_iff] <;> omega) (c - 1),
      q1_pt1 (fun i => sHas (sLeftA i) (tv i1 0) (bv (i1 + 1) 0)) i1
      (fun i => by simp [sHas, epair, sLeftA, tv, bv, Prod.ext_iff] <;> omega) (r - 1) (by omega),
      q1_pt1 (fun i => sHas (sLeftB i) (tv i1 0) (bv (i1 + 1) 0)) i1
      (fun i => by simp [sHas, epair, sLeftB, tv, bv, Prod.ext_iff] <;> omega) (r - 1) (by omega),
      q1_zero (fun i => sHas (sRightA c i) (tv i1 0) (bv (i1 + 1) 0))
      (fun i => by simp [sHas, epair, sRightA, tv, bv, Prod.ext_iff] <;> omega) (r - 1),
      q1_zero (fun i => sHas (sRightB c i) (tv i1 0) (bv (i1 + 1) 0))
      (fun i => by simp [sHas, epair, sRightB, tv, bv, Prod.ext_iff] <;> omega) (r - 1)]

/-- A right-wall diagonal edge lies in exactly two faces. -/
theorem cnt_FT_rightD (r c i1 : Nat) (hc : 2 ≤ c) (hi : i1 + 1 < r) :
    ccount (fun t => sHas t (tv i1 (c - 1)) (bv (i1 + 1) (c - 1))) (sFaces r c) = 2 := by
  rw [sOcc_decomp]
  rw [q2_none (fun i j => sHas (sTopA i j) (tv i1 (c - 1)) (bv (i1 + 1) (c - 1)))
      (fun i j => by simp [sHas, epair, sTopA, tv, bv, Prod.ext_iff] <;> omega) (r - 1) (c - 1),
      q2_none (fun i j => sHas (sTopB i j) (tv i1 (c - 1)) (bv (i1 + 1) (c - 1)))
      (fun i j => by simp [sHas, epair, sTopB, tv, bv, Prod.ext_iff] <;> omega) (r - 1) (c - 1),
      q2_none (fun i j => sHas (sBaseA i j) (tv i1 (c - 1)) (bv (i1 + 1) (c - 1)))
      (fun i j => by simp [sHas, epair, sBaseA, tv, bv, Prod.ext_iff] <;> omega) (r - 1) (c - 1),
      q2_none (fun i j => sHas (sBaseB i j) (tv i1 (c - 1)) (bv (i1 + 1) (c - 1)))
      (fun i j => by simp [sHas, epair, sBaseB, tv, bv, Prod.ext_iff] <;> omega) (r - 1) (c - 1),
      q1_zero (fun j => sHas (sFrontA j) (tv i1 (c - 1)) (bv (i1 + 1) (c - 1)))
      (fun j => by simp [sHas, epair, sFrontA, tv, bv, Prod.ext_iff] <;> omega) (c - 1),
      q1_zero (fun j => sHas (sFrontB j) (tv i1 (c - 1)) (bv (i1 + 1) (c - 1)))
      (fun j => by simp [sHas, epair, sFrontB, tv, bv, Prod.ext_iff] <;> omega) (c - 1),
      q1_zero (fun j => sHas (sBackA r j) (tv i1 (c - 1)) (bv (i1 + 1) (c - 1)))
      (fun j => by simp [sHas, epair, sBackA, tv, bv, Prod.ext_iff] <;> omega) (c - 1),
      q1_zero (fun j => sHas (sBackB r j) (tv i1 (c - 1)) (bv (i1 + 1) (c - 1)))
      (fun j => by simp [sHas, epair, sBackB, tv, bv, Prod.ext_iff] <;> omega) (c - 1),
      q1_zero (fun i => sHas (sLeftA i) (tv i1 (c - 1)) (bv (i1 + 1) (c - 1)))
      (fun i => by simp [sHas, epair, sLeftA, tv, bv, Prod.ext_iff] <;> omega) (r - 1),
      q1_zero (fun i => sHas (sLeftB i) (tv i1 (c - 1)) (bv (i1 + 1) (c - 1)))
      (fun i => by simp [sHas, epair, sLeftB, tv, bv, Prod.ext_iff] <;> omega) (r - 1),
      q1_pt1 (fun i => sHas (sRightA c i) (tv i1 (c - 1)) (bv (i1 + 1) (c - 1))) i1
      (fun i => by simp [sHas, epair, sRightA, tv, bv, Prod.ext_iff] <;> omega) (r - 1) (by omega),
      q1_pt1 (fun i => sHas (sRightB c i) (tv i1 (c - 1)) (bv (i1 + 1) (c - 1))) i1
      (fun i => by simp [sHas, epair, sRightB, tv, bv, Prod.ext_iff] <;> omega) (r - 1) (by omega)]

/-- A top-base vertex pair that is not a wall edge shape lies in no face. -/
theorem cnt_FT_none (r c i1 j1 i2 j2 : Nat) (hr : 2 ≤ r) (hc : 2 ≤ c)
    (h1 : ¬ (i1 = i2 ∧ j1 = j2))
    (h2 : ¬ (i1 = 0 ∧ i2 = 0 ∧ j2 = j1 + 1))
    (h3 : ¬ (i1 = r - 1 ∧ i2 = r - 1 ∧ j2 = j1 + 1))
    (h4 : ¬ (j1 = 0 ∧ j2 = 0 ∧ i2 = i1 + 1))
    (h5 : ¬ (j1 = c - 1 ∧ j2 = c - 1 ∧ i2 = i1 + 1)) :
    ccount (fun t => sHas t (tv i1 j1) (bv i2 j2)) (sFaces r c) = 0 := by
  rw [sOcc_decomp]
  rw [q2_none (fun i j => sHas (sTopA i j) (tv i1 j1) (bv i2 j2))
      (fun i j => by simp [sHas, epair, sTopA, tv, bv, Prod.ext_iff] <;> omega) (r - 1) (c - 1),
      q2_none (fun i j => sHas (sTopB i j) (tv i1 j1) (bv i2 j2))
      (fun i j => by simp [sHas, epair, sTopB, tv, bv, Prod.ext_iff] <;> omega) (r - 1) (c - 1),
      q2_none (fun i j => sHas (sBaseA i j) (tv i1 j1) (bv i2 j2))
      (fun i j => by simp [sHas, epair, sBaseA, tv, bv, Prod.ext_iff] <;> omega) (r - 1) (c - 1),
      q2_none (fun i j => sHas (sBaseB i j) (tv i1 j1) (bv i2 j2))
      (fun i j => by simp [sHas, epair, sBaseB, tv, bv, Prod.ext_iff] <;> omega) (r - 1) (c - 1),
      q1_zero (fun j => sHas (sFrontA j) (tv i1 j1) (bv i2 j2))
      (fun j => by simp [sHas, epair, sFrontA, tv, bv, Prod.ext_iff] <;> omega) (c - 1),
      q1_zero (fun j => sHas (sFrontB j) (tv i1 j1) (bv i2 j2))
      (fun j => by simp [sHas, epair, sFrontB, tv, bv, Prod.ext_iff] <;> omega) (c - 1),
      q1_zero (fun j => sHas (sBackA r j) (tv i1 j1) (bv i2 j2))
      (fun j => by simp [sHas, epair, sBackA, tv, bv, Prod.ext_iff] <;> omega) (c - 1),
      q1_zero (fun j => sHas (sBackB r j) (tv i1 j1) (bv i2 j2))
      (fun j => by simp [sHas, epair, sBackB, tv, bv, Prod.ext_iff] <;> omega) (c - 1),
      q1_zero (fun i => sHas (sLeftA i) (tv i1 j1) (bv i2 j2))
      (fun i => by simp [sHas, epair, sLeftA, tv, bv, Prod.ext_iff] <;> omega) (r - 1),
      q1_zero (fun i => sHas (sLeftB i) (tv i1 j1) (bv i2 j2))
      (fun i => by simp [sHas, epair, sLeftB, tv, bv, Prod.ext_iff] <;> omega) (r - 1),
      q1_zero (fun i => sHas (sRightA c i) (tv i1 j1) (bv i2 j2))
      (fun i => by simp [sHas, epair, sRightA, tv, bv, Prod.ext_iff] <;> omega) (r - 1),
      q1_zero (fun i => sHas (sRightB c i) (tv i1 j1) (bv i2 j2))
      (fun i => by simp [sHas, epair, sRightB, tv, bv, Prod.ext_iff] <;> omega) (r - 1)]

/-- Any pair of distinct top vertices lies in zero or exactly two faces. -/
theorem cnt_FF (r c i1 j1 i2 j2 : Nat) (hr : 2 ≤ r) (hc : 2 ≤ c)
    (hi1 : i1 < r) (hj1 : j1 < c) (hi2 : i2 < r) (hj2 : j2 < c) :
    ccount (fun t => sHas t (tv i1 j1) (tv i2 j2)) (sFaces r c) = 0 ∨
    ccount (fun t => sHas t (tv i1 j1) (tv i2 j2)) (sFaces r c) = 2 := by
  by_cases hE : i1 = i2 ∧ j2 = j1 + 1
  · obtain ⟨rfl, rfl⟩ := hE
    exact Or.inr (cnt_FF_east r c i1 j1 hr hc (by omega) (by omega))
  by_cases hW : i1 = i2 ∧ j1 = j2 + 1
  · obtain ⟨rfl, rfl⟩ := hW
    refine Or.inr ?_
    rw [sOcc_symm]
    exact cnt_FF_east r c i1 j2 hr hc (by omega) (by omega)
  by_cases hS : j1 = j2 ∧ i2 = i1 + 1
  · obtain ⟨rfl, rfl⟩ := hS
    exact Or.inr (cnt_FF_south r c i1 j1 hr hc (by omega) (by omega))
  by_cases hN : j1 = j2 ∧ i1 = i2 + 1
  · obtain ⟨rfl, rfl⟩ := hN
    refine Or.inr ?_
    rw [sOcc_symm]
    exact cnt_FF_south r c i2 j1 hr hc (by omega) (by omega)
  by_cases hD : i2 = i1 + 1 ∧ j2 = j1 + 1
  · obtain ⟨rfl, rfl⟩ := hD
    exact Or.inr (cnt_FF_diag r c i1 j1 (by omega) (by omega))
  by_cases hD2 : i1 = i2 + 1 ∧ j1 = j2 + 1
  · obtain ⟨rfl, rfl⟩ := hD2
    refine Or.inr ?_
    rw [sOcc_symm]
    exact cnt_FF_diag r c i2 j2 (by omega) (by omega)
  · exact Or.inl (cnt_FF_none r c i1 j1 i2 j2 hE hW hS hN hD hD2)

/-- Any pair of distinct base vertices lies in zero or exactly two faces. -/
theorem cnt_TT (r c i1 j1 i2 j2 : Nat) (hr : 2 ≤ r) (hc : 2 ≤ c)
    (hi1 : i1 < r) (hj1 : j1 < c) (hi2 : i2 < r) (hj2 : j2 < c) :
    ccount (fun t => sHas t (bv i1 j1) (bv i2 j2)) (sFaces r c) = 0 ∨
    ccount (fun t => sHas t (bv i1 j1) (bv i2 j2)) (sFaces r c) = 2 := by
  by_cases hE : i1 = i2 ∧ j2 = j1 + 1
  · obtain ⟨rfl, rfl⟩ := hE
    exact Or.inr (cnt_TT_east r c i1 j1 hr hc (by omega) (by omega))
  by_cases hW : i1 = i2 ∧ j1 = j2 + 1
  · obtain ⟨rfl, rfl⟩ := hW
    refine Or.inr ?_
    rw [sOcc_symm]
    exact cnt_TT_east r c i1 j2 hr hc (by omega) (by omega)
  by_cases hS : j1 = j2 ∧ i2 = i1 + 1
  · obtain ⟨rfl, rfl⟩ := hS
    exact Or.inr (cnt_TT_south r c i1 j1 hr hc (by omega) (by omega))
  by_cases hN : j1 = j2 ∧ i1 = i2 + 1
  · obtain ⟨rfl, rfl⟩ := hN
    refine Or.inr ?_
    rw [sOcc_symm]
    exact cnt_TT_south r c i2 j1 hr hc (by omega) (by omega)
  by_cases hD : i2 = i1 + 1 ∧ j2 = j1 + 1
  · obtain ⟨rfl, rfl⟩ := hD
    exact Or.inr (cnt_TT_diag r c i1 j1 (by omega) (by omega))
  by_cases hD2 : i1 = i2 + 1 ∧ j1 = j2 + 1
  · obtain ⟨rfl, rfl⟩ := hD2
    refine Or.inr ?_
    rw [sOcc_symm]
    exact cnt_TT_diag r c i2 j2 (by omega) (by omega)
  · exact Or.inl (cnt_TT_none r c i1 j1 i2 j2 hE hW hS hN hD hD2)

/-- Any pair of one top and one base vertex lies in zero or exactly two faces. -/
theorem cnt_FT (r c i1 j1 i2 j2 : Nat) (hr : 2 ≤ r) (hc : 2 ≤ c)
    (hi1 : i1 < r) (hj1 : j1 < c) (hi2 : i2 < r) (hj2 : j2 < c) :
    ccount (fun t => sHas t (tv i1 j1) (bv i2 j2)) (sFaces r c) = 0 ∨
    ccount (fun t => sHas t (tv i1 j1) (bv i2 j2)) (sFaces r c) = 2 := by
  by_cases hV : i1 = i2 ∧ j1 = j2
  · obtain ⟨rfl, rfl⟩ := hV
    exact cnt_FT_vert r c i1 j1 hr hc hi1 hj1
  by_cases hF : i1 = 0 ∧ i2 = 0 ∧ j2 = j1 + 1
  · obtain ⟨rfl, h2, rfl⟩ := hF
    subst h2
    exact Or.inr (cnt_FT_frontD r c j1 hr (by omega))
  by_cases hB : i1 = r - 1 ∧ i2 = r - 1 ∧ j2 = j1 + 1
  · obtain ⟨h1, h2, rfl⟩ := hB
    subst h1
    subst h2
    exact Or.inr (cnt_FT_backD r c j1 hr (by omega))
  by_cases hL : j1 = 0 ∧ j2 = 0 ∧ i2 = i1 + 1
  · obtain ⟨rfl, h2, rfl⟩ := hL
    subst h2
    exact Or.inr (cnt_FT_leftD r c i1 hc (by omega))
  by_cases hRt : j1 = c - 1 ∧ j2 = c - 1 ∧ i2 = i1 + 1
  · obtain ⟨h1, h2, rfl⟩ := hRt
    subst h1
    subst h2
    exact Or.inr (cnt_FT_rightD r c i1 hc (by omega))
  · exact Or.inl (cnt_FT_none r c i1 j1 i2 j2 hr hc hV hF hB hL hRt)

/-- Every pair of structured vertices lies in zero or exactly two faces of the
structured face list. -/
theorem sFaces_edge_count (r c : Nat) (hr : 2 ≤ r) (hc : 2 ≤ c) (a b : SV)
    (ha1 : a.1 ≤ 1) (ha2 : a.2.1 < r) (ha3 : a.2.2 < c)
    (hb1 : b.1 ≤ 1) (hb2 : b.2.1 < r) (hb3 : b.2.2 < c) :
    ccount (fun t => sHas t a b) (sFaces r c) = 0 ∨
    ccount (fun t => sHas t a b) (sFaces r c) = 2 := by
  obtain ⟨la, ia, ja⟩ := a
  obtain ⟨lb, ib, jb⟩ := b
  simp only at ha1 ha2 ha3 hb1 hb2 hb3
  have hla : la = 0 ∨ la = 1 := by omega
  have hlb : lb = 0 ∨ lb = 1 := by omega
  rcases hla with rfl | rfl <;> rcases hlb with rfl | rfl
  · exact cnt_FF r c ia ja ib jb hr hc ha2 ha3 hb2 hb3
  · exact cnt_FT r c ia ja ib jb hr hc ha2 ha3 hb2 hb3
  · rw [sOcc_symm]
    exact cnt_FT r c ib jb ia ja hr hc hb2 hb3 ha2 ha3
  · exact cnt_TT r c ia ja ib jb hr hc ha2 ha3 hb2 hb3

/-- The 1-based OBJ index of a structured vertex on an all-finite grid: top
vertices are numbered row-major starting at 1, base vertices follow with the
fixed offset `r * c` (`base_vertex_start - 1`). -/
def enc (r c : Nat) (v : SV) : Nat :=
  (if v.1 = 1 then r * c else 0) + (v.2.1 * c + v.2.2 + 1)

/-- A structured triangle rendered as the integer index triple it is emitted as. -/
def encTri (r c : Nat) (t : SV × SV × SV) : ObjFace :=
  (enc r c t.1, enc r c t.2.1, enc r c t.2.2)

theorem enc_tv (r c i j : Nat) : enc r c (tv i j) = i * c + j + 1 := by
  simp [enc, tv]

theorem enc_bv (r c i j : Nat) : enc r c (bv i j) = r * c + (i * c + j + 1) := by
  simp [enc, bv]

/-- A structured vertex with in-range coordinates. -/
def svIn (r c : Nat) (v : SV) : Prop := v.1 ≤ 1 ∧ v.2.1 < r ∧ v.2.2 < c

instance (r c : Nat) (v : SV) : Decidable (svIn r c v) :=
  inferInstanceAs (Decidable (_ ∧ _ ∧ _))

theorem rowmajor_inj {c i1 j1 i2 j2 : Nat} (hj1 : j1 < c) (hj2 : j2 < c)
    (h : i1 * c + j1 = i2 * c + j2) : i1 = i2 ∧ j1 = j2 := by
  have e1 : (i1 * c + j1) % c = j1 := by
    rw [Nat.mul_comm, Nat.mul_add_mod, Nat.mod_eq_of_lt hj1]
  have e2 : (i2 * c + j2) % c = j2 := by
    rw [Nat.mul_comm, Nat.mul_add_mod, Nat.mod_eq_of_lt hj2]
  have hj : j1 = j2 := by rw [← e1, ← e2, h]
  refine ⟨?_, hj⟩
  subst hj
  have hc : 0 < c := by omega
  exact Nat.eq_of_mul_eq_mul_right hc (by omega)

theorem enc_top_le (r c i j : Nat) (hi : i < r) (hj : j < c) :
    i * c + j + 1 ≤ r * c := by
  have h1 : (i + 1) * c ≤ r * c := Nat.mul_le_mul_right c (by omega)
  have h2 : (i + 1) * c = i * c + c := by ring
  omega

/-- `enc` is injective on in-range structured vertices. -/
theorem enc_inj (r c : Nat) (v w : SV) (hv : svIn r c v) (hw : svIn r c w)
    (h : enc r c v = enc r c w) : v = w := by
  obtain ⟨lv, iv, jv⟩ := v
  obtain ⟨lw, iw, jw⟩ := w
  obtain ⟨hv1, hv2, hv3⟩ := hv
  obtain ⟨hw1, hw2, hw3⟩ := hw
  simp only at hv1 hv2 hv3 hw1 hw2 hw3
  have hbv := enc_top_le r c iv jv hv2 hv3
  have hbw := enc_top_le r c iw jw hw2 hw3
  unfold enc at h
  simp only at h
  have hlv : lv = 0 ∨ lv = 1 := by omega
  have hlw : lw = 0 ∨ lw = 1 := by omega
  rcases hlv with rfl | rfl <;> rcases hlw with rfl | rfl <;> norm_num at h
  · obtain ⟨h1, h2⟩ := @rowmajor_inj c iv jv iw jw hv3 hw3 (by omega)
    simp [h1, h2]
  · omega
  · omega
  · obtain ⟨h1, h2⟩ := @rowmajor_inj c iv jv iw jw hv3 hw3 (by omega)
    simp [h1, h2]

/-- On an all-finite grid, a top face index is the row-major encoding. -/
theorem vm_toNat (d : SurfaceData)
    (hfin : ∀ i j, i < d.r → j < d.c → (d.hgt i j).isSome = true)
    {i j : Nat} (hi : i < d.r) (hj : j < d.c) :
    (vertex_map d i j).toNat = enc d.r d.c (tv i j) := by
  rw [vertex_map_allfinite d hfin hi hj, enc_tv]
  omega

/-- On an all-finite grid, a base face index is the row-major encoding shifted
by `base_vertex_start - 1 = r * c`. -/
theorem vm_base_toNat (d : SurfaceData)
    (hfin : ∀ i j, i < d.r → j < d.c → (d.hgt i j).isSome = true)
    {i j : Nat} (hi : i < d.r) (hj : j < d.c) :
    (vertex_map d i j + ((top_vertex_count d + 1 : Nat) : Int) - 1).toNat =
      enc d.r d.c (bv i j) := by
  rw [vertex_map_allfinite d hfin hi hj, top_vertex_count_allfinite d hfin, enc_bv]
  omega

/-- On an all-finite grid every top quad emits its two structured triangles. -/
theorem topQuad_allfinite (d : SurfaceData)
    (hfin : ∀ i j, i < d.r → j < d.c → (d.hgt i j).isSome = true)
    {i j : Nat} (hi : i + 1 < d.r) (hj : j + 1 < d.c) :
    topQuadFaces (vertex_map d) i j =
      [encTri d.r d.c (sTopA i j), encTri d.r d.c (sTopB i j)] := by
  unfold topQuadFaces
  rw [if_pos ⟨vertex_map_pos_allfinite d hfin (by omega) (by omega),
      vertex_map_pos_allfinite d hfin (by omega) (by omega),
      vertex_map_pos_allfinite d hfin (by omega) (by omega),
      vertex_map_pos_allfinite d hfin (by omega) (by omega)⟩]
  rw [@vm_toNat d hfin i j (by omega) (by omega),
      @vm_toNat d hfin i (j + 1) (by omega) (by omega),
      @vm_toNat d hfin (i + 1) (j + 1) (by omega) (by omega),
      @vm_toNat d hfin (i + 1) j (by omega) (by omega)]
  rfl

/-- On an all-finite grid every base quad emits its two structured triangles. -/
theorem baseQuad_allfinite (d : SurfaceData)
    (hfin : ∀ i j, i < d.r → j < d.c → (d.hgt i j).isSome = true)
    {i j : Nat} (hi : i + 1 < d.r) (hj : j + 1 < d.c) :
    baseQuadFaces (vertex_map d) (top_vertex_count d + 1) i j =
      [encTri d.r d.c (sBaseA i j), encTri d.r d.c (sBaseB i j)] := by
  unfold baseQuadFaces
  rw [if_pos ⟨vertex_map_pos_allfinite d hfin (by omega) (by omega),
      vertex_map_pos_allfinite d hfin (by omega) (by omega),
      vertex_map_pos_allfinite d hfin (by omega) (by omega),
      vertex_map_pos_allfinite d hfin (by omega) (by omega)⟩]
  rw [@vm_base_toNat d hfin i j (by omega) (by omega),
      @vm_base_toNat d hfin i (j + 1) (by omega) (by omega),
      @vm_base_toNat d hfin (i + 1) (j + 1) (by omega) (by omega),
      @vm_base_toNat d hfin (i + 1) j (by omega) (by omega)]
  rfl

/-- On an all-finite grid every front-wall step emits its two structured triangles. -/
theorem frontWall_allfinite (d : SurfaceData)
    (hfin : ∀ i j, i < d.r → j < d.c → (d.hgt i j).isSome = true)
    (hr : 1 ≤ d.r) {j : Nat} (hj : j + 1 < d.c) :
    frontWallFaces (vertex_map d) (top_vertex_count d + 1) j =
      [encTri d.r d.c (sFrontA j), encTri d.r d.c (sFrontB j)] := by
  unfold frontWallFaces
  rw [if_pos ⟨vertex_map_pos_allfinite d hfin (by omega) (by omega),
      vertex_map_pos_allfinite d hfin (by omega) (by omega)⟩]
  rw [@vm_toNat d hfin 0 j (by omega) (by omega),
      @vm_toNat d hfin 0 (j + 1) (by omega) (by omega),
      @vm_base_toNat d hfin 0 j (by omega) (by omega),
      @vm_base_toNat d hfin 0 (j + 1) (by omega) (by omega)]
  rfl

/-- On an all-finite grid every back-wall step emits its two structured triangles. -/
theorem backWall_allfinite (d : SurfaceData)
    (hfin : ∀ i j, i < d.r → j < d.c → (d.hgt i j).isSome = true)
    (hr : 1 ≤ d.r) {j : Nat} (hj : j + 1 < d.c) :
    backWallFaces (vertex_map d) d.r (top_vertex_count d + 1) j =
      [encTri d.r d.c (sBackA d.r j), encTri d.r d.c (sBackB d.r j)] := by
  unfold backWallFaces
  rw [if_pos ⟨vertex_map_pos_allfinite d hfin (by omega) (by omega),
      vertex_map_pos_allfinite d hfin (by omega) (by omega)⟩]
  rw [@vm_toNat d hfin (d.r - 1) j (by omega) (by omega),
      @vm_toNat d hfin (d.r - 1) (j + 1) (by omega) (by omega),
      @vm_base_toNat d hfin (d.r - 1) j (by omega) (by omega),
      @vm_base_toNat d hfin (d.r - 1) (j + 1) (by omega) (by omega)]
  rfl

/-- On an all-finite grid every left-wall step emits its two structured triangles. -/
theorem leftWall_allfinite (d : SurfaceData)
    (hfin : ∀ i j, i < d.r → j < d.c → (d.hgt i j).isSome = true)
    (hc : 1 ≤ d.c) {i : Nat} (hi : i + 1 < d.r) :
    leftWallFaces (vertex_map d) (top_vertex_count d + 1) i =
      [encTri d.r d.c (sLeftA i), encTri d.r d.c (sLeftB i)] := by
  unfold leftWallFaces
  rw [if_pos ⟨vertex_map_pos_allfinite d hfin (by omega) (by omega),
      vertex_map_pos_allfinite d hfin (by omega) (by omega)⟩]
  rw [@vm_toNat d hfin i 0 (by omega) (by omega),
      @vm_toNat d hfin (i + 1) 0 (by omega) (by omega),
      @vm_base_toNat d hfin i 0 (by omega) (by omega),
      @vm_base_toNat d hfin (i + 1) 0 (by omega) (by omega)]
  rfl

/-- On an all-finite grid every right-wall step emits its two structured triangles. -/
theorem rightWall_allfinite (d : SurfaceData)
    (hfin : ∀ i j, i < d.r → j < d.c → (d.hgt i j).isSome = true)
    (hc : 1 ≤ d.c) {i : Nat} (hi : i + 1 < d.r) :
    rightWallFaces (vertex_map d) d.c (top_vertex_count d + 1) i =
      [encTri d.r d.c (sRightA d.c i), encTri d.r d.c (sRightB d.c i)] := by
  unfold rightWallFaces
  rw [if_pos ⟨vertex_map_pos_allfinite d hfin (by omega) (by omega),
      vertex_map_pos_allfinite d hfin (by omega) (by omega)⟩]
  rw [@vm_toNat d hfin i (d.c - 1) (by omega) (by omega),
      @vm_toNat d hfin (i + 1) (d.c - 1) (by omega) (by omega),
      @vm_base_toNat d hfin i (d.c - 1) (by omega) (by omega),
      @vm_base_toNat d hfin (i + 1) (d.c - 1) (by omega) (by omega)]
  rfl

/-- On an all-finite grid with at least 2 rows and columns the emitted face
list with `add_base = true` is exactly the structured face list rendered
through the row-major index encoding. -/
theorem allFaces_allfinite (d : SurfaceData) (hr : 2 ≤ d.r) (hc : 2 ≤ d.c)
    (hfin : ∀ i j, i < d.r → j < d.c → (d.hgt i j).isSome = true) :
    allFaces d true = List.map (encTri d.r d.c) (sFaces d.r d.c) := by
  have htop :
      lflat (fun i => lflat (fun j => topQuadFaces (vertex_map d) i j) (rng (d.c - 1)))
          (rng (d.r - 1)) =
        List.map (encTri d.r d.c) (quad2 sTopA sTopB (d.r - 1) (d.c - 1)) := by
    unfold quad2
    rw [map_lflat]
    refine lflat_congr fun i hi => ?_
    rw [map_lflat]
    refine lflat_congr fun j hj => ?_
    have h1 := mem_rng.mp hi
    have h2 := mem_rng.mp hj
    exact topQuad_allfinite d hfin (by omega) (by omega)
  have hbase :
      lflat (fun i => lflat
          (fun j => baseQuadFaces (vertex_map d) (top_vertex_count d + 1) i j)
          (rng (d.c - 1))) (rng (d.r - 1)) =
        List.map (encTri d.r d.c) (quad2 sBaseA sBaseB (d.r - 1) (d.c - 1)) := by
    unfold quad2
    rw [map_lflat]
    refine lflat_congr fun i hi => ?_
    rw [map_lflat]
    refine lflat_congr fun j hj => ?_
    have h1 := mem_rng.mp hi
    have h2 := mem_rng.mp hj
    exact baseQuad_allfinite d hfin (by omega) (by omega)
  have hfront :
      lflat (fun j => frontWallFaces (vertex_map d) (top_vertex_count d + 1) j)
          (rng (d.c - 1)) =
        List.map (encTri d.r d.c) (wall2 sFrontA sFrontB (d.c - 1)) := by
    unfold wall2
    rw [map_lflat]
    refine lflat_congr fun j hj => ?_
    have h2 := mem_rng.mp hj
    exact frontWall_allfinite d hfin (by omega) (by omega)
  have hback :
      lflat (fun j => backWallFaces (vertex_map d) d.r (top_vertex_count d + 1) j)
          (rng (d.c - 1)) =
        List.map (encTri d.r d.c) (wall2 (sBackA d.r) (sBackB d.r) (d.c - 1)) := by
    unfold wall2
    rw [map_lflat]
    refine lflat_congr fun j hj => ?_
    have h2 := mem_rng.mp hj
    exact backWall_allfinite d hfin (by omega) (by omega)
  have hleft :
      lflat (fun i => leftWallFaces (vertex_map d) (top_vertex_count d + 1) i)
          (rng (d.r - 1)) =
        List.map (encTri d.r d.c) (wall2 sLeftA sLeftB (d.r - 1)) := by
    unfold wall2
    rw [map_lflat]
    refine lflat_congr fun i hi => ?_
    have h1 := mem_rng.mp hi
    exact leftWall_allfinite d hfin (by omega) (by omega)
  have hright :
      lflat (fun i => rightWallFaces (vertex_map d) d.c (top_vertex_count d + 1) i)
          (rng (d.r - 1)) =
        List.map (encTri d.r d.c) (wall2 (sRightA d.c) (sRightB d.c) (d.r - 1)) := by
    unfold wall2
    rw [map_lflat]
    refine lflat_congr fun i hi => ?_
    have h1 := mem_rng.mp hi
    exact rightWall_allfinite d hfin (by omega) (by omega)
  unfold allFaces sFaces
  rw [if_pos rfl, List.map_append, List.map_append, List.map_append, List.map_append,
    List.map_append, htop, hbase, hfront, hback, hleft, hright]
  simp only [List.append_assoc]

/-- The unordered index pair `{u, v}` equals the unordered pair `{a, b}`. -/
def npair (u v a b : Nat) : Prop := (u = a ∧ v = b) ∨ (u = b ∧ v = a)

/-- The emitted triangle `t` has `{a, b}` among its three undirected edges. -/
def fHas (t : ObjFace) (a b : Nat) : Prop :=
  npair t.1 t.2.1 a b ∨ npair t.2.1 t.2.2 a b ∨ npair t.2.2 t.1 a b

instance (u v a b : Nat) : Decidable (npair u v a b) :=
  inferInstanceAs (Decidable (_ ∨ _))

instance (t : ObjFace) (a b : Nat) : Decidable (fHas t a b) :=
  inferInstanceAs (Decidable (_ ∨ _ ∨ _))

theorem ccount_map {α β : Type} (P : β → Prop) [DecidablePred P] (g : α → β)
    (l : List α) : ccount P (List.map g l) = ccount (fun a => P (g a)) l := by
  induction l with
  | nil => rfl
  | cons a l ih => simp only [List.map_cons, ccount, ih]

theorem ccount_pos {α : Type} (P : α → Prop) [DecidablePred P] (l : List α)
    (h : 0 < ccount P l) : ∃ x ∈ l, P x := by
  induction l with
  | nil => simp [ccount] at h
  | cons a l ih =>
    by_cases ha : P a
    · exact ⟨a, by simp, ha⟩
    · unfold ccount at h
      rw [if_neg ha] at h
      obtain ⟨x, hx, hp⟩ := ih (by omega)
      exact ⟨x, by simp [hx], hp⟩

/-- Every corner of every structured face is in range. -/
theorem sFaces_corners (r c : Nat) (hr : 2 ≤ r) (hc : 2 ≤ c) {t : SV × SV × SV}
    (ht : t ∈ sFaces r c) :
    svIn r c t.1 ∧ svIn r c t.2.1 ∧ svIn r c t.2.2 := by
  unfold sFaces quad2 wall2 at ht
  simp only [List.mem_append, mem_lflat, List.mem_cons,
    List.not_mem_nil, or_false] at ht
  rcases ht with ((((h | h) | h) | h) | h) | h
  · obtain ⟨i, hi, j, hj, ht2⟩ := h
    have h1 := mem_rng.mp hi
    have h2 := mem_rng.mp hj
    rcases ht2 with rfl | rfl <;> simp [sTopA, sTopB, svIn, tv, bv] <;> omega
  · obtain ⟨i, hi, j, hj, ht2⟩ := h
    have h1 := mem_rng.mp hi
    have h2 := mem_rng.mp hj
    rcases ht2 with rfl | rfl <;> simp [sBaseA, sBaseB, svIn, tv, bv] <;> omega
  · obtain ⟨j, hj, ht2⟩ := h
    have h2 := mem_rng.mp hj
    rcases ht2 with rfl | rfl <;> simp [sFrontA, sFrontB, svIn, tv, bv] <;> omega
  · obtain ⟨j, hj, ht2⟩ := h
    have h2 := mem_rng.mp hj
    rcases ht2 with rfl | rfl <;> simp [sBackA, sBackB, svIn, tv, bv] <;> omega
  · obtain ⟨i, hi, ht2⟩ := h
    have h1 := mem_rng.mp hi
    rcases ht2 with rfl | rfl <;> simp [sLeftA, sLeftB, svIn, tv, bv] <;> omega
  · obtain ⟨i, hi, ht2⟩ := h
    have h1 := mem_rng.mp hi
    rcases ht2 with rfl | rfl <;> simp [sRightA, sRightB, svIn, tv, bv] <;> omega

/-- Through the injective index encoding, the integer face has the integer
edge exactly when the structured face has the structured edge. -/
theorem fHas_encTri (r c : Nat) (t : SV × SV × SV) (u w : SV)
    (h1 : svIn r c t.1) (h2 : svIn r c t.2.1) (h3 : svIn r c t.2.2)
    (hu : svIn r c u) (hw : svIn r c w) :
    fHas (encTri r c t) (enc r c u) (enc r c w) ↔ sHas t u w := by
  unfold fHas encTri sHas npair epair
  constructor
  · rintro ((⟨ha, hb⟩ | ⟨ha, hb⟩) | (⟨ha, hb⟩ | ⟨ha, hb⟩) | (⟨ha, hb⟩ | ⟨ha, hb⟩))
    · exact Or.inl (Or.inl ⟨enc_inj r c _ _ h1 hu ha, enc_inj r c _ _ h2 hw hb⟩)
    · exact Or.inl (Or.inr ⟨enc_inj r c _ _ h1 hw ha, enc_inj r c _ _ h2 hu hb⟩)
    · exact Or.inr (Or.inl (Or.inl ⟨enc_inj r c _ _ h2 hu ha, enc_inj r c _ _ h3 hw hb⟩))
    · exact Or.inr (Or.inl (Or.inr ⟨enc_inj r c _ _ h2 hw ha, enc_inj r c _ _ h3 hu hb⟩))
    · exact Or.inr (Or.inr (Or.inl ⟨enc_inj r c _ _ h3 hu ha, enc_inj r c _ _ h1 hw hb⟩))
    · exact Or.inr (Or.inr (Or.inr ⟨enc_inj r c _ _ h3 hw ha, enc_inj r c _ _ h1 hu hb⟩))
  · rintro ((⟨ha, hb⟩ | ⟨ha, hb⟩) | (⟨ha, hb⟩ | ⟨ha, hb⟩) | (⟨ha, hb⟩ | ⟨ha, hb⟩))
    · exact Or.inl (Or.inl ⟨congrArg (enc r c) ha, congrArg (enc r c) hb⟩)
    · exact Or.inl (Or.inr ⟨congrArg (enc r c) ha, congrArg (enc r c) hb⟩)
    · exact Or.inr (Or.inl (Or.inl ⟨congrArg (enc r c) ha, congrArg (enc r c) hb⟩))
    · exact Or.inr (Or.inl (Or.inr ⟨congrArg (enc r c) ha, congrArg (enc r c) hb⟩))
    · exact Or.inr (Or.inr (Or.inl ⟨congrArg (enc r c) ha, congrArg (enc r c) hb⟩))
    · exact Or.inr (Or.inr (Or.inr ⟨congrArg (enc r c) ha, congrArg (enc r c) hb⟩))

/-- Claim C1.  For every height grid with at least 2 rows and 2 columns whose
cells are all finite (zero NaN holes), the mesh emitted by `create_obj_mesh`
with `add_base = true` is closed: every undirected vertex-index edge occurring
in the emitted triangle list (an edge occurring in at least one triangle) is
shared by exactly two triangles. -/
theorem claim_C1_closed_mesh (d : SurfaceData) (s : ℚ) (hr : 2 ≤ d.r) (hc : 2 ≤ d.c)
    (hfin : ∀ i j, i < d.r → j < d.c → (d.hgt i j).isSome = true)
    (m : MeshOut) (hm : create_obj_mesh d none none s true = some m)
    (a b : Nat) (hpos : 0 < ccount (fun t => fHas t a b) m.faces) :
    ccount (fun t => fHas t a b) m.faces = 2 := by
  unfold create_obj_mesh at hm
  rw [if_neg (by simp)] at hm
  have hmm : m = buildMesh d s true := (Option.some.inj hm).symm
  subst hmm
  replace hpos : 0 < ccount (fun t => fHas t a b) (allFaces d true) := hpos
  show ccount (fun t => fHas t a b) (allFaces d true) = 2
  rw [allFaces_allfinite d hr hc hfin, ccount_map] at hpos ⊢
  obtain ⟨t, htmem, htf⟩ := ccount_pos _ _ hpos
  have hcorn := sFaces_corners d.r d.c hr hc htmem
  have key : ∃ u w, svIn d.r d.c u ∧ svIn d.r d.c w ∧
      a = enc d.r d.c u ∧ b = enc d.r d.c w := by
    obtain ⟨c1, c2, c3⟩ := hcorn
    rcases htf with ((⟨ha, hb⟩ | ⟨ha, hb⟩) | (⟨ha, hb⟩ | ⟨ha, hb⟩) | (⟨ha, hb⟩ | ⟨ha, hb⟩))
    · exact ⟨t.1, t.2.1, c1, c2, ha.symm, hb.symm⟩
    · exact ⟨t.2.1, t.1, c2, c1, hb.symm, ha.symm⟩
    · exact ⟨t.2.1, t.2.2, c2, c3, ha.symm, hb.symm⟩
    · exact ⟨t.2.2, t.2.1, c3, c2, hb.symm, ha.symm⟩
    · exact ⟨t.2.2, t.1, c3, c1, ha.symm, hb.symm⟩
    · exact ⟨t.1, t.2.2, c1, c3, hb.symm, ha.symm⟩
  obtain ⟨u, w, hu, hw, rfl, rfl⟩ := key
  have hiff : ∀ x ∈ sFaces d.r d.c,
      fHas (encTri d.r d.c x) (enc d.r d.c u) (enc d.r d.c w) ↔ sHas x u w := by
    intro x hx
    obtain ⟨c1, c2, c3⟩ := sFaces_corners d.r d.c hr hc hx
    exact fHas_encTri d.r d.c x u w c1 c2 c3 hu hw
  rw [ccount_congr hiff] at hpos ⊢
  rcases sFaces_edge_count d.r d.c hr hc u w hu.1 hu.2.1 hu.2.2 hw.1 hw.2.1 hw.2.2 with
    h0 | h2
  · omega
  · exact h2

/-- Concrete closedness check: on the all-finite 2x2 grid the top edge
`{1, 2}` occurs and is shared by exactly two triangles. -/
theorem claim_C1_witness :
    0 < ccount (fun t => fHas t 1 2) (buildMesh gridM 1 true).faces ∧
    ccount (fun t => fHas t 1 2) (buildMesh gridM 1 true).faces = 2 :=
  ⟨by decide,
    claim_C1_closed_mesh gridM 1 (by decide) (by decide) (fun i j _ _ => rfl)
      (buildMesh gridM 1 true) rfl 1 2 (by decide)⟩
